import Mathlib

/-!
# Inference-engine C API wrapper: descriptor store, context and buffer marshaler

A shallow embedding of `ie_api_c.cpp` and `ie_context.cpp` together with the
data layout of `ie_common_c.h`.

Conventions of the embedding.

* C enumerations are carried as their integer value (`Int`): a C enumeration
  field can hold any integer, and the translation tables have `default:` arms.
* Pointers are natural numbers, `0` being `nullptr`.
* `uint32_t` results are reduced modulo `2 ^ 32` where the source narrows.
* A function that can throw, or whose C behaviour is undefined on some input,
  returns `Except Fault _`.
-/

namespace IE

/-! ## Faults -/

/-- Ways in which an operation can leave the defined behaviour of the program.
`indexOutOfRange` is the `std::runtime_error("Index out of range")` thrown by
`CHECK_INDEX`; `invalidFree` and `invalidAccess` stand for undefined behaviour
of the C program (releasing storage that is not live, reading or writing
outside live storage); `backend` is an exception thrown by an external
collaborator (plugin dispatcher, network reader, plugin). -/
inductive Fault where
  | indexOutOfRange
  | invalidFree
  | invalidAccess
  | backend
deriving DecidableEq, Repr

/-! ## Enumerations of `ie_common_c.h` -/

/-- The C enumeration `IETargetDeviceType`, by value. -/
abbrev IETargetDeviceType := Int
/-- The C enumeration `IEPrecisionType`, by value. -/
abbrev IEPrecisionType := Int
/-- The C enumeration `IELayoutType`, by value. -/
abbrev IELayoutType := Int
/-- The C enumeration `IEImageFormatType`, by value. -/
abbrev IEImageFormatType := Int
/-- The C enumeration `IEDataType`, by value. -/
abbrev IEDataType := Int
/-- The C enumeration `IEMemoryType`, by value. -/
abbrev IEMemoryType := Int

def IE_Default : IETargetDeviceType := 0
def IE_Balanced : IETargetDeviceType := 1
def IE_CPU : IETargetDeviceType := 2
def IE_GPU : IETargetDeviceType := 3
def IE_FPGA : IETargetDeviceType := 4
def IE_MYRIAD : IETargetDeviceType := 5
def IE_HETERO : IETargetDeviceType := 8

def IE_UNSPECIFIED : IEPrecisionType := 255
def IE_MIXED : IEPrecisionType := 0
def IE_FP32 : IEPrecisionType := 10
def IE_FP16 : IEPrecisionType := 11
def IE_Q78 : IEPrecisionType := 20
def IE_I16 : IEPrecisionType := 30
def IE_U8 : IEPrecisionType := 40
def IE_I8 : IEPrecisionType := 50
def IE_U16 : IEPrecisionType := 60
def IE_I32 : IEPrecisionType := 70
def IE_CUSTOM : IEPrecisionType := 80

def IE_ANY : IELayoutType := 0
def IE_NCHW : IELayoutType := 1
def IE_NHWC : IELayoutType := 2
def IE_OIHW : IELayoutType := 64
def IE_C : IELayoutType := 96
def IE_CHW : IELayoutType := 128
def IE_HW : IELayoutType := 192
def IE_NC : IELayoutType := 193
def IE_CN : IELayoutType := 194
def IE_BLOCKED : IELayoutType := 200

def IE_IMAGE_FORMAT_UNKNOWN : IEImageFormatType := -1
def IE_IMAGE_BGR_PACKED : IEImageFormatType := 0
def IE_IMAGE_BGR_PLANAR : IEImageFormatType := 1
def IE_IMAGE_RGB_PACKED : IEImageFormatType := 2
def IE_IMAGE_RGB_PLANAR : IEImageFormatType := 3
def IE_IMAGE_GRAY_PLANAR : IEImageFormatType := 4
def IE_IMAGE_GENERIC_1D : IEImageFormatType := 5
def IE_IMAGE_GENERIC_2D : IEImageFormatType := 6

def IE_DATA_TYPE_NON_IMG : IEDataType := 0
def IE_DATA_TYPE_IMG : IEDataType := 1

/-- The enumerators of `IETargetDeviceType`, in the order of the header. -/
def deviceTags : List IETargetDeviceType :=
  [IE_Default, IE_Balanced, IE_CPU, IE_GPU, IE_FPGA, IE_MYRIAD, IE_HETERO]

/-- The enumerators of `IEPrecisionType`, in the order of the header. -/
def precisionTags : List IEPrecisionType :=
  [IE_UNSPECIFIED, IE_MIXED, IE_FP32, IE_FP16, IE_Q78, IE_I16, IE_U8, IE_I8, IE_U16,
   IE_I32, IE_CUSTOM]

/-- The enumerators of `IELayoutType`, in the order of the header. -/
def layoutTags : List IELayoutType :=
  [IE_ANY, IE_NCHW, IE_NHWC, IE_OIHW, IE_C, IE_CHW, IE_HW, IE_NC, IE_CN, IE_BLOCKED]

/-! ## Backend enumerations -/

/-- Modelled from the spec: the backend precision `InferenceEngine::Precision`
(its header is not part of the sources at hand); one constructor for each
value named by a `case` label of `getEnumByPrecision`. -/
inductive Precision where
  | UNSPECIFIED | MIXED | FP32 | FP16 | Q78 | I16 | U8 | I8 | U16 | I32 | CUSTOM
deriving DecidableEq, Repr

/-- Modelled from the spec: the backend layout `InferenceEngine::Layout`
(its header is not part of the sources at hand); one constructor for each
value named by a `case` label of `getEnumByLayout`. -/
inductive Layout where
  | ANY | NCHW | NHWC | OIHW | C | CHW | HW | NC | CN | BLOCKED
deriving DecidableEq, Repr

/-- Modelled from the spec: the backend device `InferenceEngine::TargetDevice`
(its header is not part of the sources at hand); one constructor for each
value returned by `getDeviceFromId`. -/
inductive TargetDevice where
  | eDefault | eBalanced | eCPU | eGPU | eFPGA | eMYRIAD | eHETERO
deriving DecidableEq, Repr

/-! ## Translation tables of `ie_context.cpp` -/

/-- `CIEContext::getDeviceFromId`. -/
def getDeviceFromId (device : IETargetDeviceType) : TargetDevice :=
  if device = IE_Default then .eDefault
  else if device = IE_Balanced then .eBalanced
  else if device = IE_CPU then .eCPU
  else if device = IE_GPU then .eGPU
  else if device = IE_FPGA then .eFPGA
  else if device = IE_MYRIAD then .eMYRIAD
  else if device = IE_HETERO then .eHETERO
  else .eCPU

/-- `CIEContext::estimateLayout`. -/
def estimateLayout (chNum : Int) : Layout :=
  if chNum = 4 then .NCHW
  else if chNum = 2 then .NC
  else if chNum = 3 then .CHW
  else .ANY

/-- `CIEContext::getLayoutByEnum`. -/
def getLayoutByEnum (layout : IELayoutType) : Layout :=
  if layout = IE_NCHW then .NCHW
  else if layout = IE_NHWC then .NHWC
  else if layout = IE_OIHW then .OIHW
  else if layout = IE_C then .C
  else if layout = IE_CHW then .CHW
  else if layout = IE_HW then .HW
  else if layout = IE_NC then .NC
  else if layout = IE_CN then .CN
  else if layout = IE_BLOCKED then .BLOCKED
  else if layout = IE_ANY then .ANY
  else .ANY

/-- `CIEContext::getEnumByLayout`. -/
def getEnumByLayout : Layout → IELayoutType
  | .NCHW => IE_NCHW
  | .NHWC => IE_NHWC
  | .OIHW => IE_OIHW
  | .C => IE_C
  | .CHW => IE_CHW
  | .HW => IE_HW
  | .NC => IE_NC
  | .CN => IE_CN
  | .BLOCKED => IE_BLOCKED
  | .ANY => IE_ANY

/-- `CIEContext::getPrecisionByEnum`. -/
def getPrecisionByEnum (precision : IEPrecisionType) : Precision :=
  if precision = IE_MIXED then .MIXED
  else if precision = IE_FP32 then .FP32
  else if precision = IE_FP16 then .FP16
  else if precision = IE_Q78 then .Q78
  else if precision = IE_I16 then .I16
  else if precision = IE_U8 then .U8
  else if precision = IE_I8 then .I8
  else if precision = IE_U16 then .U16
  else if precision = IE_I32 then .I32
  else if precision = IE_CUSTOM then .CUSTOM
  else if precision = IE_UNSPECIFIED then .UNSPECIFIED
  else .UNSPECIFIED

/-- `CIEContext::getEnumByPrecision`. -/
def getEnumByPrecision : Precision → IEPrecisionType
  | .MIXED => IE_MIXED
  | .FP32 => IE_FP32
  | .FP16 => IE_FP16
  | .Q78 => IE_Q78
  | .I16 => IE_I16
  | .U8 => IE_U8
  | .I8 => IE_I8
  | .U16 => IE_U16
  | .I32 => IE_I32
  | .CUSTOM => IE_CUSTOM
  | .UNSPECIFIED => IE_UNSPECIFIED

/-! ## Structures of `ie_common_c.h` -/

/-- `IE_TENSOR_MAX_RANK`. -/
def IE_TENSOR_MAX_RANK : Nat := 12

/-- `IEExtBuf`: byte size and address of a buffer. -/
structure IEExtBuf where
  bufSize : Nat
  bufId : Nat
deriving DecidableEq, Repr

/-- `IEImageSize`. -/
structure IEImageSize where
  width : Nat
  height : Nat
deriving DecidableEq, Repr

/-- `IETensorInfo`. `dim` and `dimStride` are the two arrays of
`IE_TENSOR_MAX_RANK` entries. -/
structure IETensorInfo where
  rank : Nat
  dim : List Nat
  dimStride : List Nat
  precision : IEPrecisionType
  layout : IELayoutType
  dataType : IEDataType
deriving DecidableEq, Repr

/-- `sizeof(IETensorInfo)`: twenty-eight four-byte fields
(`rank`, twelve `dim`, twelve `dimStride`, `precision`, `layout`, `dataType`). -/
def sizeofIETensorInfo : Nat := 112

/-- `IEInputOutputInfo`. `tensor` is the address of the descriptor array. -/
structure IEInputOutputInfo where
  header : IEExtBuf
  tensor : Nat
  batchSize : Nat
  numbers : Nat
deriving DecidableEq, Repr

/-- `IEData`. The bytes found at address `header.bufId` are passed to the
marshaling functions as a separate argument. -/
structure IEData where
  header : IEExtBuf
  tensor : IETensorInfo
  batchIdx : Nat
  memType : IEMemoryType
  imageFormat : IEImageFormatType
deriving DecidableEq, Repr

/-- `IEConfig`. The four `char *` fields are `none` for a null pointer and
otherwise the C string they point to. -/
structure IEConfig where
  targetId : IETargetDeviceType
  inputInfos : IEInputOutputInfo
  outputInfos : IEInputOutputInfo
  pluginPath : Option String
  cpuExtPath : Option String
  cldnnExtPath : Option String
  modelFileName : Option String
  perfCounter : Nat
  inferReqNum : Nat
deriving DecidableEq, Repr

/-- The all-zero descriptor, as left by `memset(_, 0, sizeof(IETensorInfo))`. -/
def IETensorInfo.zero : IETensorInfo :=
  { rank := 0, dim := List.replicate 12 0, dimStride := List.replicate 12 0,
    precision := 0, layout := 0, dataType := 0 }

/-- Zero the four-byte fields of an array that lie entirely before byte `n`,
the first field of the list starting at byte `off`. -/
def zeroFields (n off : Nat) : List Nat → List Nat
  | [] => []
  | w :: ws => (if off + 4 ≤ n then 0 else w) :: zeroFields n (off + 4) ws

/-- Effect of zeroing the first `n` bytes of one descriptor (`n` a multiple of
four): the fields lying entirely in those bytes become zero. Field offsets:
`rank` 0, `dim` 4, `dimStride` 52, `precision` 100, `layout` 104, `dataType` 108. -/
def IETensorInfo.zeroBytes (n : Nat) (t : IETensorInfo) : IETensorInfo :=
  { rank := if 4 ≤ n then 0 else t.rank
    dim := zeroFields n 4 t.dim
    dimStride := zeroFields n 52 t.dimStride
    precision := if 104 ≤ n then 0 else t.precision
    layout := if 108 ≤ n then 0 else t.layout
    dataType := if 112 ≤ n then 0 else t.dataType }

/-- Zero the first `n` bytes of an array of descriptors. -/
def zeroDescriptors (n : Nat) : List IETensorInfo → List IETensorInfo
  | [] => []
  | t :: ts => t.zeroBytes n :: zeroDescriptors (n - sizeofIETensorInfo) ts

/-! ## The C heap -/

/-- A call of the allocator, as recorded in the heap log. -/
inductive HeapEvent where
  | malloc (addr : Nat) (bytes : Nat)
  | free (addr : Nat)
deriving DecidableEq, Repr

/-- The part of the C heap that holds descriptor arrays.
`live p` is the array stored at base address `p` while that allocation is
live; `brk` is the highest address handed out so far; `junk` is the
indeterminate content of fresh storage; `log` records every allocator call. -/
structure Heap where
  brk : Nat
  live : Nat → Option (List IETensorInfo)
  junk : IETensorInfo
  log : List HeapEvent

/-- `malloc(bytes)` for an array of descriptors: a fresh, non-null address and
indeterminate content. The allocator is taken never to fail and never to
return a null pointer, as the source does not test the result. -/
def Heap.malloc (h : Heap) (bytes : Nat) : Nat × Heap :=
  let p := h.brk + 1
  (p, { h with
        brk := p + bytes
        live := Function.update h.live p
          (some (List.replicate (bytes / sizeofIETensorInfo) h.junk))
        log := h.log ++ [HeapEvent.malloc p bytes] })

/-- `free(p)`: a null pointer is ignored; releasing storage that is not live is
a fault. -/
def Heap.free (h : Heap) (p : Nat) : Except Fault Heap :=
  if p = 0 then .ok h
  else match h.live p with
    | none => .error .invalidFree
    | some _ =>
      .ok { h with live := Function.update h.live p none, log := h.log ++ [HeapEvent.free p] }

/-- `memset(p, 0, bytes)` on a descriptor array. -/
def Heap.memset0 (h : Heap) (p bytes : Nat) : Except Fault Heap :=
  if p = 0 then .error .invalidAccess
  else match h.live p with
    | none => .error .invalidAccess
    | some ts =>
      if bytes ≤ ts.length * sizeofIETensorInfo then
        .ok { h with live := Function.update h.live p (some (zeroDescriptors bytes ts)) }
      else .error .invalidAccess

/-- Read `p[i]`. -/
def Heap.load (h : Heap) (p i : Nat) : Except Fault IETensorInfo :=
  if p = 0 then .error .invalidAccess
  else match h.live p with
    | none => .error .invalidAccess
    | some ts =>
      match ts.get? i with
      | none => .error .invalidAccess
      | some t => .ok t

/-- Write `p[i] = t`. -/
def Heap.store (h : Heap) (p i : Nat) (t : IETensorInfo) : Except Fault Heap :=
  if p = 0 then .error .invalidAccess
  else match h.live p with
    | none => .error .invalidAccess
    | some ts =>
      if i < ts.length then
        .ok { h with live := Function.update h.live p (some (ts.set i t)) }
      else .error .invalidAccess

/-! ## Backend objects held by the context -/

/-- Modelled from the spec: the backend descriptor of one model input or
output (`InferenceEngine::Data`, reached directly for outputs and through
`InferenceEngine::InputInfo` for inputs; the backend headers are not part of
the sources at hand). `dims` is what `getDims()` returns, and
`getTensorDesc().getDims()` has the same number of entries; `setPrecision`,
`setLayout` store and `getPrecision`, `getLayout` return the two fields. -/
structure Data where
  dims : List Nat
  precision : Precision
  layout : Layout
deriving DecidableEq, Repr

/-- Modelled from the spec: `InferenceEngine::InputInfo`, which forwards to the
`Data` object of the input. -/
abbrev InputInfo := Data

/-- Modelled from the spec: the backend execution buffer `InferenceEngine::Blob`
(the backend headers are not part of the sources at hand): `dims` as returned
by `dims()`, the bytes of `buffer()`, whose number is `byteSize()`, and the
address at which `buffer()` starts. -/
structure Blob where
  dims : List Nat
  buffer : List Nat
  address : Nat := 4096
deriving DecidableEq, Repr

/-- State of `CIEContext`, as used by `ie_context.cpp`. `inputsInfo` and
`outputsInfo` are the two name-ordered maps in iteration order; `batchSize` is
what `network.getBatchSize()` returns; `blobs` are the buffers the inference
request hands out through `GetBlob`; `xmlFile` and `binFile` are the two file
names derived by `loadModel`. -/
structure CIEContext where
  bModelLoaded : Bool
  bModelCreated : Bool
  targetDevice : TargetDevice
  inputImageSize : IEImageSize
  inputsInfo : List (String × InputInfo)
  outputsInfo : List (String × Data)
  batchSize : Nat
  blobs : List (String × Blob)
  xmlFile : String := ""
  binFile : String := ""
deriving DecidableEq, Repr

/-- `CHECK_INDEX(_INDEX, _SIZE)` for an unsigned index: `_INDEX < 0` never holds. -/
def CHECK_INDEX (idx size : Nat) : Except Fault Unit :=
  if idx ≥ size then .error .indexOutOfRange else .ok ()

/-- `CIEContext::getBatchSize`. -/
def getBatchSize (ctx : CIEContext) : Nat := ctx.batchSize

/-- `CIEContext::getInputSize` (the result is an `unsigned int`). -/
def getInputSize (ctx : CIEContext) : Nat :=
  if !ctx.bModelLoaded then 0 else ctx.inputsInfo.length % 2 ^ 32

/-- `CIEContext::getOutputSize` (the result is an `unsigned int`). -/
def getOutputSize (ctx : CIEContext) : Nat :=
  if !ctx.bModelLoaded then 0 else ctx.outputsInfo.length % 2 ^ 32

/-! ## Tensor descriptor store: per-index accessors -/

/-- The loop `for (i = 0; i < info->rank; i++) info->dim[i] = getDims()[i]`,
run over the entries `ds` still to be copied, the next one going to slot `i`.
Writing a slot outside the `dim` array is a fault. -/
def copyDims : Nat → List Nat → List Nat → Except Fault (List Nat)
  | _, [], dim => .ok dim
  | i, d :: ds, dim =>
    if i < IE_TENSOR_MAX_RANK then copyDims (i + 1) ds (dim.set i (d % 2 ^ 32))
    else .error .invalidAccess

/-- The stanza shared by the four `getModel*Info` functions: store rank,
dimensions, precision and layout of the backend descriptor `item` into `info`. -/
def describe (item : Data) (info : IETensorInfo) : Except Fault IETensorInfo := do
  let rank := item.dims.length % 2 ^ 32
  let dim ← copyDims 0 (item.dims.take rank) info.dim
  pure { info with
         rank := rank
         dim := dim
         precision := getEnumByPrecision item.precision
         layout := getEnumByLayout item.layout }

/-- The stanza shared by the per-index and the bulk `setModel*Info`: push the
precision and layout of the caller descriptor `info` onto `item`. -/
def override (info : IETensorInfo) (item : Data) : Data :=
  { item with
    precision := getPrecisionByEnum info.precision
    layout := getLayoutByEnum info.layout }

/-- Replace the `idx`-th entry of a name-ordered map, keeping its name. -/
def updateAt (items : List (String × Data)) (idx : Nat) (f : Data → Data) :
    List (String × Data) :=
  match items.get? idx with
  | none => items
  | some item => items.set idx (item.1, f item.2)

/-- `CIEContext::getModelInputInfo(unsigned int idx, IETensorInfo * info)`. -/
def getModelInputInfoAt (ctx : CIEContext) (idx : Nat) (info : IETensorInfo) :
    Except Fault IETensorInfo := do
  CHECK_INDEX idx ctx.inputsInfo.length
  match ctx.inputsInfo.get? idx with
  | none => .error .invalidAccess
  | some item => describe item.2 info

/-- `CIEContext::setModelInputInfo(unsigned int idx, IETensorInfo * info)`. -/
def setModelInputInfoAt (ctx : CIEContext) (idx : Nat) (info : IETensorInfo) :
    Except Fault CIEContext := do
  CHECK_INDEX idx ctx.inputsInfo.length
  pure { ctx with inputsInfo := updateAt ctx.inputsInfo idx (override info) }

/-- `CIEContext::getModelOutputInfo(unsigned int idx, IETensorInfo * info)`. -/
def getModelOutputInfoAt (ctx : CIEContext) (idx : Nat) (info : IETensorInfo) :
    Except Fault IETensorInfo := do
  CHECK_INDEX idx ctx.outputsInfo.length
  match ctx.outputsInfo.get? idx with
  | none => .error .invalidAccess
  | some item => describe item.2 info

/-- `CIEContext::setModelOutputInfo(unsigned int idx, IETensorInfo * info)`. -/
def setModelOutputInfoAt (ctx : CIEContext) (idx : Nat) (info : IETensorInfo) :
    Except Fault CIEContext := do
  CHECK_INDEX idx ctx.outputsInfo.length
  pure { ctx with outputsInfo := updateAt ctx.outputsInfo idx (override info) }

/-- `CIEContext::setInputPresion(unsigned int idx, IEPrecisionType precision)`. -/
def setInputPresion (ctx : CIEContext) (idx : Nat) (precision : IEPrecisionType) :
    Except Fault CIEContext := do
  CHECK_INDEX idx ctx.inputsInfo.length
  match ctx.inputsInfo.get? idx with
  | none => .error .invalidAccess
  | some _ =>
    pure { ctx with
           inputsInfo := updateAt ctx.inputsInfo idx
             (fun item => { item with precision := getPrecisionByEnum precision }) }

/-- `CIEContext::setOutputPresion(unsigned int idx, IEPrecisionType precision)`:
the index is checked against `outputsInfo.size()`, the iterator starts at
`inputsInfo.begin()`; advancing it past the last input is a fault. -/
def setOutputPresion (ctx : CIEContext) (idx : Nat) (precision : IEPrecisionType) :
    Except Fault CIEContext := do
  CHECK_INDEX idx ctx.outputsInfo.length
  match ctx.inputsInfo.get? idx with
  | none => .error .invalidAccess
  | some _ =>
    pure { ctx with
           inputsInfo := updateAt ctx.inputsInfo idx
             (fun item => { item with precision := getPrecisionByEnum precision }) }

/-- `CIEContext::setInputLayout(unsigned int idx, IELayoutType layout)`. -/
def setInputLayout (ctx : CIEContext) (idx : Nat) (layout : IELayoutType) :
    Except Fault CIEContext := do
  CHECK_INDEX idx ctx.inputsInfo.length
  match ctx.inputsInfo.get? idx with
  | none => .error .invalidAccess
  | some _ =>
    pure { ctx with
           inputsInfo := updateAt ctx.inputsInfo idx
             (fun item => { item with layout := getLayoutByEnum layout }) }

/-- `CIEContext::setOutputLayout(unsigned int idx, IELayoutType layout)`: the
index is checked against `outputsInfo.size()`, the iterator starts at
`inputsInfo.begin()`; advancing it past the last input is a fault. -/
def setOutputLayout (ctx : CIEContext) (idx : Nat) (layout : IELayoutType) :
    Except Fault CIEContext := do
  CHECK_INDEX idx ctx.outputsInfo.length
  match ctx.inputsInfo.get? idx with
  | none => .error .invalidAccess
  | some _ =>
    pure { ctx with
           inputsInfo := updateAt ctx.inputsInfo idx
             (fun item => { item with layout := getLayoutByEnum layout }) }

/-! ## Tensor descriptor store: bulk accessors -/

/-- The `for (auto & item : ...)` loop of the bulk `getModel*Info`: descriptor
`id` of the caller's array receives the description of the current item, and
`id` advances. -/
def getInfoLoop (tensor : Nat) : List (String × Data) → Nat → Heap → Except Fault Heap
  | [], _, heap => .ok heap
  | item :: rest, id, heap => do
    let t ← heap.load tensor id
    let t1 ← describe item.2 t
    let heap1 ← heap.store tensor id t1
    getInfoLoop tensor rest (id + 1) heap1

/-- `CIEContext::getModelInputInfo(IEInputOutputInfo * info)`. -/
def getModelInputInfo (ctx : CIEContext) (info : IEInputOutputInfo) (heap : Heap) :
    Except Fault (IEInputOutputInfo × Heap) :=
  if !ctx.bModelLoaded then .ok (info, heap)
  else do
    let heap1 ← getInfoLoop info.tensor ctx.inputsInfo 0 heap
    pure ({ info with
            batchSize := getBatchSize ctx % 2 ^ 32
            numbers := ctx.inputsInfo.length % 2 ^ 32 }, heap1)

/-- `CIEContext::getModelOutputInfo(IEInputOutputInfo * info)`. -/
def getModelOutputInfo (ctx : CIEContext) (info : IEInputOutputInfo) (heap : Heap) :
    Except Fault (IEInputOutputInfo × Heap) :=
  if !ctx.bModelLoaded then .ok (info, heap)
  else do
    let heap1 ← getInfoLoop info.tensor ctx.outputsInfo 0 heap
    pure ({ info with
            batchSize := 0
            numbers := ctx.outputsInfo.length % 2 ^ 32 }, heap1)

/-- The `for (auto & item : inputsInfo)` loop of the bulk `setModelInputInfo`:
item by item, precision and layout come from descriptor `id` of the caller's
array; an image-kind descriptor makes the cached image size be read from the
dimensions of the model input itself (`inputsInfo[item.first]->getDims()`);
then `id` advances. -/
def setInputLoop (tensor : Nat) (heap : Heap) :
    List (String × InputInfo) → Nat → IEImageSize →
      Except Fault (List (String × InputInfo) × IEImageSize)
  | [], _, sz => .ok ([], sz)
  | item :: rest, id, sz => do
    let t ← heap.load tensor id
    let item1 := (item.1, override t item.2)
    let sz1 ←
      if t.dataType = IE_DATA_TYPE_IMG then
        match item.2.dims.get? 1, item.2.dims.get? 0 with
        | some h, some w => Except.ok { width := w % 2 ^ 32, height := h % 2 ^ 32 }
        | _, _ => Except.error Fault.invalidAccess
      else Except.ok sz
    let (rest1, sz2) ← setInputLoop tensor heap rest (id + 1) sz1
    pure (item1 :: rest1, sz2)

/-- `CIEContext::setModelInputInfo(IEInputOutputInfo * info)`. -/
def setModelInputInfo (ctx : CIEContext) (info : IEInputOutputInfo) (heap : Heap) :
    Except Fault CIEContext :=
  if !ctx.bModelLoaded then .ok ctx
  else if info.tensor = 0 then .ok ctx
  else if info.numbers ≠ ctx.inputsInfo.length then .ok ctx
  else do
    let (items, sz) ← setInputLoop info.tensor heap ctx.inputsInfo 0 ctx.inputImageSize
    pure { ctx with inputsInfo := items, inputImageSize := sz }

/-- The `for (auto & item : outputsInfo)` loop of the bulk `setModelOutputInfo`:
every item takes precision and layout from descriptor `id` of the caller's
array; the loop body of the source does not advance `id`. -/
def setOutputLoop (tensor : Nat) (heap : Heap) :
    List (String × Data) → Nat → Except Fault (List (String × Data))
  | [], _ => .ok []
  | item :: rest, id => do
    let t ← heap.load tensor id
    let item1 := (item.1, override t item.2)
    let rest1 ← setOutputLoop tensor heap rest id
    pure (item1 :: rest1)

/-- `CIEContext::setModelOutputInfo(IEInputOutputInfo * info)`. -/
def setModelOutputInfo (ctx : CIEContext) (info : IEInputOutputInfo) (heap : Heap) :
    Except Fault CIEContext :=
  if !ctx.bModelLoaded then .ok ctx
  else if info.tensor = 0 then .ok ctx
  else if info.numbers ≠ ctx.outputsInfo.length then .ok ctx
  else do
    let items ← setOutputLoop info.tensor heap ctx.outputsInfo 0
    pure { ctx with outputsInfo := items }

/-! ## Tensor descriptor store: allocation (`ie_api_c.cpp`) -/

/-- The tail common to both branches of the allocation stanza:
`malloc(size * sizeof(IETensorInfo))`, record `bufSize` (a `uint32_t`) and
`bufId`, then `memset` the first `bufSize` bytes to zero. -/
def allocateFresh (size : Nat) (info : IEInputOutputInfo) (heap : Heap) :
    Except Fault (IEInputOutputInfo × Heap) := do
  let (p, heap1) := heap.malloc (size * sizeofIETensorInfo)
  let bufSize := (size * sizeofIETensorInfo) % 2 ^ 32
  let heap2 ← heap1.memset0 p bufSize
  pure ({ info with tensor := p, header := { bufSize := bufSize, bufId := p } }, heap2)

/-- The stanza that `IEAllocateInputOutputInfo` runs once for the input block
and once for the output block, `size` being the model's tensor count. -/
def allocateInfo (size : Nat) (info : IEInputOutputInfo) (heap : Heap) :
    Except Fault (IEInputOutputInfo × Heap) :=
  if info.tensor = 0 then allocateFresh size info heap
  else if size ≠ info.numbers then do
    let heap1 ← heap.free info.tensor
    allocateFresh size { info with header := { bufSize := 0, bufId := 0 } } heap1
  else .ok (info, heap)

/-- `IEAllocateInputOutputInfo(contextPtr, config)`. -/
def IEAllocateInputOutputInfo (ctx : CIEContext) (config : IEConfig) (heap : Heap) :
    Except Fault (IEConfig × Heap) := do
  let (inp, heap1) ← allocateInfo (getInputSize ctx) config.inputInfos heap
  let (out, heap2) ← allocateInfo (getOutputSize ctx) config.outputInfos heap1
  pure ({ config with inputInfos := inp, outputInfos := out }, heap2)

/-- The stanza that `IEFreeInputOutputInfo` runs once for each block. -/
def freeInfo (info : IEInputOutputInfo) (heap : Heap) :
    Except Fault (IEInputOutputInfo × Heap) :=
  if info.tensor ≠ 0 then do
    let heap1 ← heap.free info.tensor
    pure ({ info with header := { bufSize := 0, bufId := 0 } }, heap1)
  else .ok (info, heap)

/-- `IEFreeInputOutputInfo(contextPtr, config)`. -/
def IEFreeInputOutputInfo (config : IEConfig) (heap : Heap) :
    Except Fault (IEConfig × Heap) := do
  let (inp, heap1) ← freeInfo config.inputInfos heap
  let (out, heap2) ← freeInfo config.outputInfos heap1
  pure ({ config with inputInfos := inp, outputInfos := out }, heap2)

/-- `IEGetInputInfo(contextPtr, &config->inputInfos)`. -/
def IEGetInputInfo (ctx : CIEContext) (config : IEConfig) (heap : Heap) :
    Except Fault (IEConfig × Heap) := do
  let (inp, heap1) ← getModelInputInfo ctx config.inputInfos heap
  pure ({ config with inputInfos := inp }, heap1)

/-- `IEGetOutputInfo(contextPtr, &config->outputInfos)`. -/
def IEGetOutputInfo (ctx : CIEContext) (config : IEConfig) (heap : Heap) :
    Except Fault (IEConfig × Heap) := do
  let (out, heap1) ← getModelOutputInfo ctx config.outputInfos heap
  pure ({ config with outputInfos := out }, heap1)

/-- One call of the descriptor-store entry points on a configuration. -/
inductive StoreCall where
  | allocate
  | getInput
  | getOutput
  | release
deriving DecidableEq, Repr

/-- Run one descriptor-store call. -/
def storeStep (ctx : CIEContext) (c : StoreCall) (s : IEConfig × Heap) :
    Except Fault (IEConfig × Heap) :=
  match c with
  | .allocate => IEAllocateInputOutputInfo ctx s.1 s.2
  | .getInput => IEGetInputInfo ctx s.1 s.2
  | .getOutput => IEGetOutputInfo ctx s.1 s.2
  | .release => IEFreeInputOutputInfo s.1 s.2

/-- Run a sequence of descriptor-store calls, stopping at the first fault. -/
def storeRun (ctx : CIEContext) : List StoreCall → IEConfig × Heap →
    Except Fault (IEConfig × Heap)
  | [], s => .ok s
  | c :: cs, s => do
    let s1 ← storeStep ctx c s
    storeRun ctx cs s1

/-- A block with no storage: null tensor pointer and zero housekeeping fields. -/
def IEInputOutputInfo.empty : IEInputOutputInfo :=
  { header := { bufSize := 0, bufId := 0 }, tensor := 0, batchSize := 0, numbers := 0 }

/-- A heap with no live allocation. -/
def Heap.empty : Heap :=
  { brk := 0, live := fun _ => none, junk := IETensorInfo.zero, log := [] }

/-! ## Buffer marshaler -/

/-- The element type `T` of the two marshaling templates: `float`
(`PrecisionTrait<Precision::FP32>::value_type`) or `uint8_t`. -/
inductive ElemType where
  | f32
  | u8
deriving DecidableEq, Repr

/-- `sizeof(T)`. -/
def ElemType.size : ElemType → Nat
  | .f32 => 4
  | .u8 => 1

/-- Conversion of a value to a 32-bit `int`: reduction modulo `2 ^ 32` into the
two's-complement range. -/
def toInt32 (x : Int) : Int :=
  let r := x % 2 ^ 32
  if r < 2 ^ 31 then r else r - 2 ^ 32

/-- Run `body 0`, `body 1`, ... as a C loop `for (x = i; x < i + k; ++x)` does,
threading the state and stopping at the first fault. -/
def loopFrom {σ : Type} (body : Nat → σ → Except Fault σ) : Nat → Nat → σ → Except Fault σ
  | _, 0, s => .ok s
  | i, k + 1, s => do
    let s1 ← body i s
    loopFrom body (i + 1) k s1

/-- The C loop `for (x = 0; x < n; ++x) body`. -/
def forLoop {σ : Type} (n : Nat) (body : Nat → σ → Except Fault σ) (s : σ) : Except Fault σ :=
  loopFrom body 0 n s

/-- `memcpy(dst + dOff, src + sOff, n)` on byte arrays, offsets in bytes.
Leaving either array is a fault. -/
def memcpy (dst : List Nat) (dOff : Int) (src : List Nat) (sOff n : Nat) :
    Except Fault (List Nat) :=
  if 0 ≤ dOff ∧ dOff.toNat + n ≤ dst.length ∧ sOff + n ≤ src.length then
    .ok (dst.take dOff.toNat ++ (src.drop sOff).take n ++ dst.drop (dOff.toNat + n))
  else .error .invalidAccess

/-- Floor of the binary logarithm, by halving at most `fuel` times. -/
def log2Fuel : Nat → Nat → Nat
  | 0, _ => 0
  | fuel + 1, n => if 2 ≤ n then log2Fuel fuel (n / 2) + 1 else 0

/-- The four bytes (least significant first) of the IEEE-754 binary32 number
`± m * 2 ^ e`, for `m < 2 ^ 24` and a result in the normal range. -/
def f32Bytes (neg : Bool) (m : Nat) (e : Int) : List Nat :=
  let sign := if neg then 2 ^ 31 else 0
  let bits :=
    if m = 0 then sign
    else
      let k := log2Fuel 24 m
      sign + (127 + (k : Int) + e).toNat * 2 ^ 23 + (m * 2 ^ (23 - k) - 2 ^ 23)
  [bits % 256, bits / 256 % 256, bits / 65536 % 256, bits / 16777216 % 256]

/-- Four bytes (least significant first) read as an IEEE-754 binary32 pattern
with sign `s`, exponent field `e` and fraction `f`, as a multiple of
`2 ^ (-149)`: the pattern denotes `(-1) ^ s * f * 2 ^ (-149)` when `e = 0` and
`(-1) ^ s * (2 ^ 23 + f) * 2 ^ (e - 150)` otherwise (infinities and NaN,
`e = 255`, do not occur here). -/
def f32Scaled (bytes : List Nat) : Int :=
  let bits : Nat := bytes.getD 0 0 + 256 * bytes.getD 1 0 + 65536 * bytes.getD 2 0 +
    16777216 * bytes.getD 3 0
  let e : Nat := bits / 2 ^ 23 % 256
  let f : Nat := bits % 2 ^ 23
  let m : Nat := if e = 0 then f else (2 ^ 23 + f) * 2 ^ (e - 1)
  if bits / 2 ^ 31 % 2 = 1 then -(m : Int) else (m : Int)

/-- The rational number denoted by a binary32 pattern. -/
def f32Value (bytes : List Nat) : ℚ := (f32Scaled bytes : ℚ) / 2 ^ 149

/-- A finite binary32 number `m * 2 ^ e`, given by an integer significand of at
most 24 bits and an exponent. -/
structure F32 where
  m : Int
  e : Int
deriving DecidableEq, Repr

/-- The integer nearest to `n / 2 ^ t`, ties going to the even one. -/
def roundHalfEven (n t : Nat) : Nat :=
  let q := n / 2 ^ t
  let r := n % 2 ^ t
  if 2 * r > 2 ^ t ∨ (2 * r = 2 ^ t ∧ q % 2 = 1) then q + 1 else q

/-- Rounding of an exact result `m * 2 ^ e` to binary32 (round to nearest, ties
to even): a significand of more than 24 bits loses its low bits. Results
outside the normal range (subnormal numbers, overflow) and significands of 64
bits or more do not occur in the computation modelled here and are not
treated. -/
def F32.round (m e : Int) : F32 :=
  let mag := m.natAbs
  let t := log2Fuel 64 mag + 1 - 24
  let r := roundHalfEven mag t
  let r1 := if r = 2 ^ 24 then 2 ^ 23 else r
  let t1 := if r = 2 ^ 24 then t + 1 else t
  { m := if m < 0 then -(r1 : Int) else (r1 : Int), e := e + t1 }

/-- Conversion of an integer to `float`. -/
def F32.ofInt (n : Int) : F32 := F32.round n 0

/-- The `float` difference `a - b`: the exact difference, rounded. -/
def F32.sub (a b : F32) : F32 :=
  let e := min a.e b.e
  F32.round (a.m * 2 ^ (a.e - e).toNat - b.m * 2 ^ (b.e - e).toNat) e

/-- The `float` product `a * b`: the exact product, rounded. -/
def F32.mul (a b : F32) : F32 := F32.round (a.m * b.m) (a.e + b.e)

/-- The four bytes (least significant first) of a binary32 number. -/
def F32.bytes (x : F32) : List Nat := f32Bytes (decide (x.m < 0)) x.m.natAbs x.e

/-- `const float mean_val = 127.5f`. -/
def mean_val : F32 := { m := 255, e := -1 }

/-- `const float std_val = 0.0078125f`. -/
def std_val : F32 := { m := 1, e := -7 }

/-- The bytes stored by `blob_data[k] = float((b - mean_val) * std_val)` for a
source byte `b`: the byte is promoted to `int` and converted to `float`, the
subtraction and the multiplication are `float` operations. With `T = uint8_t`
the result, of magnitude below `1`, is truncated to `0` by the conversion. -/
def rescaled (T : ElemType) (b : Nat) : List Nat :=
  match T with
  | .f32 => (((F32.ofInt (b : Int)).sub mean_val).mul std_val).bytes
  | .u8 => [0]

/-- The bytes stored by `blob_data[k] = b` for a source byte `b`. -/
def unscaled (T : ElemType) (b : Nat) : List Nat :=
  match T with
  | .f32 => f32Bytes false b 0
  | .u8 => [b]

/-- The assignment `blob_data[k] = v`, `v` given by its `sizeof(T)` bytes. -/
def storeElem (T : ElemType) (mem : List Nat) (k : Int) (v : List Nat) :
    Except Fault (List Nat) :=
  memcpy mem (k * T.size) v 0 T.size

/-- The loop `size = 1; for (i = 0; i < rank; i++) size = data->tensor.dim[i];`
of `nonImageToBlob`, with `k` iterations left and slot `i` next. -/
def sizeLoop (dim : List Nat) : Nat → Nat → Nat → Except Fault Nat
  | _, 0, size => .ok size
  | i, k + 1, _ =>
    if i < IE_TENSOR_MAX_RANK then
      match dim.get? i with
      | some d => sizeLoop dim (i + 1) k d
      | none => .error .invalidAccess
    else .error .invalidAccess

/-- `CIEContext::nonImageToBlob<T>(data, blob, batchIndex)`; `buffer` holds the
bytes at `data->header.bufId`. `blob_data + batchOffset` advances by
`batchOffset` elements, while the third argument of `memcpy` counts bytes. -/
def nonImageToBlob (T : ElemType) (data : IEData) (buffer : List Nat) (blob : Blob)
    (batchIndex : Int) : Except Fault Blob := do
  let size ← sizeLoop data.tensor.dim 0 data.tensor.rank 1
  let batchOffset := toInt32 (batchIndex * size)
  let mem ← memcpy blob.buffer (batchOffset * T.size) buffer 0 size
  pure { blob with buffer := mem }

/-- `CIEContext::imageU8ToBlob<T>(data, blob, batchIndex)`; `buffer` holds the
bytes at `data->header.bufId`. The two `imageStrideSize` are products of two
`uint32_t` fields, formed in 32 bits before they are widened to `size_t`; the
index arithmetic on `size_t` values is not reduced, as an index of `2 ^ 64` or
more lies outside every buffer. -/
def imageU8ToBlob (T : ElemType) (data : IEData) (buffer : List Nat) (blob : Blob)
    (batchIndex : Int) : Except Fault Blob :=
  match blob.dims.get? 0, blob.dims.get? 1, blob.dims.get? 2 with
  | some width, some height, some channels =>
    let inputImageSize := width * height
    let dim0 := data.tensor.dim.getD 0 0
    let dim1 := data.tensor.dim.getD 1 0
    let dim2 := data.tensor.dim.getD 2 0
    let stride0 := data.tensor.dimStride.getD 0 0
    let stride1 := data.tensor.dimStride.getD 1 0
    if width ≠ dim0 ∨ height ≠ dim1 then .ok blob
    else
      let batchOffset := toInt32 (batchIndex * height * width * channels)
      if IE_IMAGE_BGR_PLANAR = data.imageFormat then
        let imageStrideSize := stride0 * stride1 % 2 ^ 32
        if dim0 = stride0 ∧ dim1 = stride1 then do
          let mem ← memcpy blob.buffer (batchOffset * T.size) buffer 0 (inputImageSize * channels)
          pure { blob with buffer := mem }
        else if dim0 = stride0 then do
          let mem ← forLoop channels (fun ch mem =>
            memcpy mem ((batchOffset + ch * inputImageSize) * T.size) buffer
              (ch * imageStrideSize) inputImageSize) blob.buffer
          pure { blob with buffer := mem }
        else do
          let mem ← forLoop channels (fun ch mem =>
            forLoop height (fun h mem =>
              memcpy mem ((batchOffset + ch * inputImageSize + h * width) * T.size) buffer
                (ch * imageStrideSize + h * stride0) width) mem) blob.buffer
          pure { blob with buffer := mem }
      else if IE_IMAGE_BGR_PACKED = data.imageFormat then
        let imageStrideSize := dim2 * stride0 % 2 ^ 32
        let value : Nat → List Nat :=
          if data.tensor.precision = IE_FP32 then rescaled T else unscaled T
        do
          let mem ← forLoop height (fun h mem =>
            forLoop width (fun w mem =>
              forLoop channels (fun ch mem =>
                match buffer.get? (h * imageStrideSize + w * dim2 + ch) with
                | none => .error .invalidAccess
                | some b =>
                  storeElem T mem (batchOffset + ch * inputImageSize + h * width + w)
                    (value b)) mem) mem) blob.buffer
          pure { blob with buffer := mem }
      else .ok blob
  | _, _, _ => .error .invalidAccess

/-- The first planar branch of `imageU8ToBlob`, taken when both strides equal
the extents: one `memcpy` of `inputImageSize * channels` bytes. -/
def planarWhole (T : ElemType) (buffer mem : List Nat) (batchOffset : Int)
    (width height channels : Nat) : Except Fault (List Nat) :=
  memcpy mem (batchOffset * T.size) buffer 0 (width * height * channels)

/-- The second planar branch of `imageU8ToBlob`, taken when only the row stride
equals the width: one `memcpy` of `inputImageSize` bytes per channel, the
source advancing by `imageStrideSize`, the 32-bit product of the two strides. -/
def planarChannels (T : ElemType) (buffer mem : List Nat) (batchOffset : Int)
    (width height channels stride0 stride1 : Nat) : Except Fault (List Nat) :=
  forLoop channels (fun ch mem =>
    memcpy mem ((batchOffset + ch * (width * height : Nat)) * T.size) buffer
      (ch * (stride0 * stride1 % 2 ^ 32)) (width * height)) mem

/-- The third planar branch of `imageU8ToBlob`: one `memcpy` of `width` bytes
per channel and row, the source advancing by `imageStrideSize`, the 32-bit
product of the two strides, per channel and by the row stride per row. -/
def planarRows (T : ElemType) (buffer mem : List Nat) (batchOffset : Int)
    (width height channels stride0 stride1 : Nat) : Except Fault (List Nat) :=
  forLoop channels (fun ch mem =>
    forLoop height (fun h mem =>
      memcpy mem ((batchOffset + ch * (width * height : Nat) + h * width) * T.size) buffer
        (ch * (stride0 * stride1 % 2 ^ 32) + h * stride0) width) mem) mem

/-- The planar part of `imageU8ToBlob` as a choice among its three branches. -/
def planarCopy (T : ElemType) (data : IEData) (buffer mem : List Nat) (batchOffset : Int)
    (width height channels : Nat) : Except Fault (List Nat) :=
  if data.tensor.dim.getD 0 0 = data.tensor.dimStride.getD 0 0 ∧
      data.tensor.dim.getD 1 0 = data.tensor.dimStride.getD 1 0 then
    planarWhole T buffer mem batchOffset width height channels
  else if data.tensor.dim.getD 0 0 = data.tensor.dimStride.getD 0 0 then
    planarChannels T buffer mem batchOffset width height channels
      (data.tensor.dimStride.getD 0 0) (data.tensor.dimStride.getD 1 0)
  else
    planarRows T buffer mem batchOffset width height channels
      (data.tensor.dimStride.getD 0 0) (data.tensor.dimStride.getD 1 0)

/-- Modelled from the spec: `inferRequest.GetBlob(name)`, the execution buffer
bound to a tensor name (the backend request is not part of the sources at
hand); a request that holds no buffer of that name is a fault. -/
def GetBlob (ctx : CIEContext) (name : String) : Except Fault Blob :=
  match ctx.blobs.find? (fun e => e.1 == name) with
  | some e => .ok e.2
  | none => .error .invalidAccess

/-- Write back through the shared `Blob::Ptr`: the buffer bound to `name` in
the request is the one the marshaling templates have filled. -/
def putBlob (ctx : CIEContext) (name : String) (blob : Blob) : CIEContext :=
  { ctx with blobs := ctx.blobs.map (fun e => if e.1 == name then (e.1, blob) else e) }

/-- `CIEContext::addInput(unsigned int idx, IEData * data)`; `data = none` is
the null pointer, and `buffer` holds the bytes at `data->header.bufId`. -/
def addInput (ctx : CIEContext) (idx : Nat) (data : Option IEData) (buffer : List Nat) :
    Except Fault CIEContext := do
  CHECK_INDEX idx ctx.inputsInfo.length
  match data with
  | none => pure ctx
  | some data =>
    match ctx.inputsInfo.get? idx with
    | none => .error .invalidAccess
    | some item =>
      let itemName := item.1
      if itemName = "" then pure ctx
      else if data.batchIdx > getBatchSize ctx then pure ctx
      else do
        let blob ← GetBlob ctx itemName
        let batchIndex := toInt32 data.batchIdx
        let blob1 ←
          if data.tensor.precision = IE_FP32 then
            if data.tensor.dataType = IE_DATA_TYPE_IMG then
              imageU8ToBlob .f32 data buffer blob batchIndex
            else nonImageToBlob .f32 data buffer blob batchIndex
          else
            if data.tensor.dataType = IE_DATA_TYPE_IMG then
              imageU8ToBlob .u8 data buffer blob batchIndex
            else nonImageToBlob .u8 data buffer blob batchIndex
        pure (putBlob ctx itemName blob1)

/-- `CIEContext::getOutput(unsigned int idx, unsigned int * size)`: the returned
pointer (`none` for `nullptr`, otherwise the address of the backend buffer)
and the value of `*size` after the call. -/
def getOutput (ctx : CIEContext) (idx : Nat) (size : Nat) :
    Except Fault (Option Nat × Nat) := do
  CHECK_INDEX idx ctx.outputsInfo.length
  match ctx.outputsInfo.get? idx with
  | none => .error .invalidAccess
  | some item =>
    let itemName := item.1
    if itemName = "" then pure (none, size)
    else do
      let blob ← GetBlob ctx itemName
      pure (some blob.address, blob.buffer.length % 2 ^ 32)

/-- `CIEContext::getOutput(unsigned int idx, IEData * data)`: the returned size
and the caller's buffer after the call; `data = none` is the null pointer. -/
def getOutputInto (ctx : CIEContext) (idx : Nat) (data : Option IEData) :
    Except Fault (Nat × Option IEData) := do
  CHECK_INDEX idx ctx.outputsInfo.length
  match data with
  | none => pure (0, none)
  | some data =>
    match ctx.outputsInfo.get? idx with
    | none => .error .invalidAccess
    | some item =>
      let itemName := item.1
      if itemName = "" then pure (0, some data)
      else do
        let blob ← GetBlob ctx itemName
        let bufSize := blob.buffer.length % 2 ^ 32
        pure (bufSize, some { data with header := { bufSize := bufSize, bufId := blob.address } })

/-! ## Context lifecycle -/

/-- `std::string::rfind(c)` on the characters of a string: the position of the
last occurrence of `c`, `none` for `npos`. -/
def rfind (c : Char) : List Char → Option Nat
  | [] => none
  | x :: xs =>
    match rfind c xs with
    | some i => some (i + 1)
    | none => if x = c then some 0 else none

/-- `CIEContext::GetFileNameNoExt`. -/
def GetFileNameNoExt (filePath : String) : String :=
  match rfind '.' filePath.data with
  | none => filePath
  | some pos => String.mk (filePath.data.take pos)

/-- Modelled from the spec: what `networkReader.getNetwork()` delivers after
`ReadNetwork` and `ReadWeights` (the network reader is not part of the sources
at hand): the input map, the output map and the batch size. -/
structure Network where
  inputsInfo : List (String × InputInfo)
  outputsInfo : List (String × Data)
  batchSize : Nat

/-- Modelled from the spec: the external collaborators of the context (plugin
dispatcher, extension loader, network reader, plugin; none of them is part of
the sources at hand). Each field tells how the call ends: `false` or `none`
stands for an exception thrown by the collaborator.
`getPluginByDevice` is `dispatcher.getPluginByDevice`, `makeExtension` is
`make_so_pointer<IExtension>` followed by `AddExtension`, `setConfig` is
`plugin.SetConfig` with the configuration file, `readNetwork` is `ReadNetwork`
on the structure file, `ReadWeights` on the weights file and `getNetwork`,
`loadNetwork` is `plugin.LoadNetwork` followed by `CreateInferRequest`, giving
the buffers of the request. -/
structure Backend where
  getPluginByDevice : TargetDevice → Bool
  makeExtension : String → Bool
  setConfig : String → Bool
  readNetwork : String → String → Option Network
  loadNetwork : List (String × InputInfo) → List (String × Data) → Option (List (String × Blob))

/-- `CIEContext::CIEContext()`. The maps of a context that has read no network
are empty. -/
def CIEContext.fresh : CIEContext :=
  { bModelLoaded := false
    bModelCreated := false
    targetDevice := .eCPU
    inputImageSize := { width := 0, height := 0 }
    inputsInfo := []
    outputsInfo := []
    batchSize := 0
    blobs := [] }

/-- `CIEContext::loadModel(IEConfig * config)`. -/
def loadModel (B : Backend) (ctx : CIEContext) (config : IEConfig) : Except Fault CIEContext :=
  if ctx.bModelLoaded then .ok ctx
  else
    let targetDevice := getDeviceFromId config.targetId
    if !B.getPluginByDevice targetDevice then .error .backend
    else if (match config.cpuExtPath with
        | some cpuExtPath => !B.makeExtension cpuExtPath
        | none => false) then .error .backend
    else if (match config.cldnnExtPath with
        | some cldnnExtPath => !B.setConfig cldnnExtPath
        | none => false) then .error .backend
    else
      match config.modelFileName with
      | none => .error .invalidAccess
      | some modelFileName =>
        if modelFileName = "" then .ok { ctx with targetDevice := targetDevice }
        else
          let xmlFile := GetFileNameNoExt modelFileName ++ ".xml"
          let binFile := GetFileNameNoExt modelFileName ++ ".bin"
          match B.readNetwork xmlFile binFile with
          | none => .error .backend
          | some network =>
            .ok { ctx with
                  targetDevice := targetDevice
                  xmlFile := xmlFile
                  binFile := binFile
                  inputsInfo := network.inputsInfo
                  outputsInfo := network.outputsInfo
                  batchSize := network.batchSize
                  bModelLoaded := true }

/-- `CIEContext::createModel(IEConfig * config)`; the heap holds the descriptor
arrays of the two blocks of `config`. -/
def createModel (B : Backend) (ctx : CIEContext) (config : IEConfig) (heap : Heap) :
    Except Fault CIEContext :=
  if !ctx.bModelLoaded then .ok ctx
  else if ctx.bModelCreated then .ok ctx
  else do
    let ctx1 ← setModelInputInfo ctx config.inputInfos heap
    let ctx2 ← setModelOutputInfo ctx1 config.outputInfos heap
    match B.loadNetwork ctx2.inputsInfo ctx2.outputsInfo with
    | none => .error .backend
    | some blobs => pure { ctx2 with blobs := blobs, bModelCreated := true }

/-- `CIEContext::Init(IEConfig * config)`. -/
def Init (B : Backend) (ctx : CIEContext) (config : IEConfig) : Except Fault CIEContext :=
  if !ctx.bModelLoaded then loadModel B ctx config else .ok ctx

/-- `CIEContext::CIEContext(IEConfig * config)`. -/
def CIEContext.withConfig (B : Backend) (config : IEConfig) : Except Fault CIEContext := do
  let ctx ← Init B CIEContext.fresh config
  pure { ctx with bModelLoaded := true }

/-- `IEAllocateContext()`. -/
def IEAllocateContext : CIEContext := CIEContext.fresh

/-- `IEAllocateContextWithConfig(config)`: the new context, and the
configuration and heap after `IEAllocateInputOutputInfo`. -/
def IEAllocateContextWithConfig (B : Backend) (config : IEConfig) (heap : Heap) :
    Except Fault (CIEContext × IEConfig × Heap) := do
  let context ← CIEContext.withConfig B config
  let (config1, heap1) ← IEAllocateInputOutputInfo context config heap
  pure (context, config1, heap1)

/-- `IELoadModel(contextPtr, config)`. -/
def IELoadModel (B : Backend) (ctx : CIEContext) (config : IEConfig) : Except Fault CIEContext :=
  loadModel B ctx config

/-- `IECreateModel(contextPtr, config)`. -/
def IECreateModel (B : Backend) (ctx : CIEContext) (config : IEConfig) (heap : Heap) :
    Except Fault CIEContext :=
  createModel B ctx config heap

/-- One call of the two lifecycle operations, with its arguments. -/
inductive LifeCall where
  | load (config : IEConfig)
  | create (config : IEConfig) (heap : Heap)

/-- Run one lifecycle call. -/
def lifeStep (B : Backend) (ctx : CIEContext) : LifeCall → Except Fault CIEContext
  | .load config => loadModel B ctx config
  | .create config heap => createModel B ctx config heap

/-- Run a sequence of lifecycle calls, stopping at the first fault. -/
def lifeRun (B : Backend) : List LifeCall → CIEContext → Except Fault CIEContext
  | [], ctx => .ok ctx
  | c :: cs, ctx => do
    let ctx1 ← lifeStep B ctx c
    lifeRun B cs ctx1

/-! ## Performance report -/

/-- Modelled from the spec: `InferenceEngineProfileInfo::LayerStatus`, the
execution status of a layer (the backend header is not part of the sources at
hand); the three values are those named by the `switch` of
`printPerformanceCounts`. -/
inductive LayerStatus where
  | NOT_RUN
  | OPTIMIZED_OUT
  | EXECUTED
deriving DecidableEq, Repr

/-- Modelled from the spec: `InferenceEngine::InferenceEngineProfileInfo`, the
per-layer record of the performance map (the backend header is not part of
the sources at hand): status, wall-clock and CPU microseconds (`long long`),
execution type and layer type (C strings, given by their bytes). -/
structure InferenceEngineProfileInfo where
  status : LayerStatus
  realTime_uSec : Int
  cpu_uSec : Int
  exec_type : List Nat
  layer_type : List Nat
deriving DecidableEq, Repr

/-- Conversion of a value to a 64-bit `long long`: reduction modulo `2 ^ 64`
into the two's-complement range. -/
def toInt64 (x : Int) : Int :=
  let r := x % 2 ^ 64
  if r < 2 ^ 63 then r else r - 2 ^ 64

/-- The bytes of a text of the source, one per character: the string literals
of `printPerformanceCounts` and the digits that `std::to_string` produces are
all ASCII. A `std::string` is modelled by the list of its bytes, which is what
`length()`, `substr()` and `std::setw` count. -/
def ascii (s : String) : List Nat := s.data.map Char.toNat

/-- `stream << std::setw(n) << std::left << s`: the bytes of `s`, followed by
spaces up to a width of `n` bytes when it is shorter. -/
def setwLeft (n : Nat) (s : List Nat) : List Nat :=
  s ++ List.replicate (n - s.length) 32

/-- The local `toPrint` of `printPerformanceCounts`: the layer name, replaced
by `substr(0, maxLayerName - 4)` followed by `"..."` when its length in bytes
is at least `maxLayerName = 30`. -/
def toPrint (name : List Nat) : List Nat :=
  if name.length ≥ 30 then name.take (30 - 4) ++ ascii "..." else name

/-- The text the `switch` on the status writes. -/
def statusText : LayerStatus → List Nat
  | .EXECUTED => ascii "EXECUTED"
  | .NOT_RUN => ascii "NOT_RUN"
  | .OPTIMIZED_OUT => ascii "OPTIMIZED_OUT"

/-- The line `printPerformanceCounts` writes for one entry of the map. -/
def printRow (name : List Nat) (info : InferenceEngineProfileInfo) : List Nat :=
  setwLeft 30 (toPrint name) ++ setwLeft 15 (statusText info.status) ++
    setwLeft 30 (ascii "layerType: " ++ info.layer_type ++ ascii " ") ++
    setwLeft 20 (ascii "realTime: " ++ ascii (toString info.realTime_uSec)) ++
    setwLeft 20 (ascii " cpu: " ++ ascii (toString info.cpu_uSec)) ++
    ascii " execType: " ++ info.exec_type ++ ascii "\n"

/-- The loop `for (const auto & it : performanceMap)`: the bytes written so far
and the running `totalTime` (a `long long`; an addition that leaves its range
is taken to wrap around). -/
def perfLoop : List (List Nat × InferenceEngineProfileInfo) → List Nat → Int →
    List Nat × Int
  | [], text, totalTime => (text, totalTime)
  | it :: rest, text, totalTime =>
    perfLoop rest (text ++ printRow it.1 it.2)
      (if it.2.realTime_uSec > 0 then toInt64 (totalTime + it.2.realTime_uSec) else totalTime)

/-- `CIEContext::printPerformanceCounts(performanceMap, stream, bshowHeader)`:
the bytes written to the stream and the final value of `totalTime`. The map is
given by its entries in iteration order, each layer name by its bytes. -/
def printPerformanceCounts (performanceMap : List (List Nat × InferenceEngineProfileInfo))
    (bshowHeader : Bool) : List Nat × Int :=
  let r := perfLoop performanceMap
    (if bshowHeader then ascii "\nperformance counts:\n\n" else []) 0
  (r.1 ++ setwLeft 20 (ascii "Total time: " ++ ascii (toString r.2)) ++
    ascii " microseconds\n", r.2)

/-! ## Predicates used to describe the copies -/

/-- The memory transformer `f` keeps the length of the memory and every byte
below `lo`. -/
def Touches (lo : Nat) (f : List Nat → Except Fault (List Nat)) : Prop :=
  ∀ m m1, f m = .ok m1 → m1.length = m.length ∧ ∀ i, i < lo → m1[i]? = m[i]?

/-- After the memory transformer `f`, the `k` bytes from byte `a` on are the
bytes `V p`, `p` being the first byte of `buffer`. -/
def FirstElem (a k : Nat) (buffer : List Nat) (V : Nat → List Nat)
    (f : List Nat → Except Fault (List Nat)) : Prop :=
  ∀ m m1, f m = .ok m1 → ∃ p, buffer[0]? = some p ∧ ∀ j, j < k → m1[a + j]? = (V p)[j]?

/-- The bytes of the destination element that holds the value of a source byte
`p`: the byte itself for an 8-bit destination, the binary32 pattern of the
rescaled value for a float destination. -/
def firstValue (T : ElemType) (p : Nat) : List Nat :=
  match T with
  | .u8 => [p]
  | .f32 => rescaled .f32 p

/-- The triple `(h, w, ch)` lies in the `H x W x C` box and is visited by the
packed loop nest before `(h0, w0, c0)`. -/
def Before (W H C h0 w0 c0 h w ch : Nat) : Prop :=
  h < H ∧ w < W ∧ ch < C ∧ (h < h0 ∨ (h = h0 ∧ (w < w0 ∨ (w = w0 ∧ ch < c0))))

/-- Byte `i` lies in destination element `k` of `sz` bytes. -/
def InElem (sz k i : Nat) : Prop := k * sz ≤ i ∧ i < k * sz + sz

/-- State of the destination while the packed loop nest runs: the length is
that of the initial memory `mem0`, every element visited so far holds the
value of its source byte, and every byte outside the visited elements is
still that of `mem0`. -/
def PackedInv (sz : Nat) (V : Nat → List Nat) (buffer mem0 : List Nat)
    (o W H C rs cc h0 w0 c0 : Nat) (mem : List Nat) : Prop :=
  mem.length = mem0.length ∧
  (∀ h w ch, Before W H C h0 w0 c0 h w ch →
    ∃ p, buffer[h * rs + w * cc + ch]? = some p ∧
      ∀ j, j < sz → mem[(o + (ch * (W * H) + h * W + w)) * sz + j]? = (V p)[j]?) ∧
  (∀ i, (∀ h w ch, Before W H C h0 w0 c0 h w ch →
      ¬ InElem sz (o + (ch * (W * H) + h * W + w)) i) → mem[i]? = mem0[i]?)

/-- Destination element `k` of a buffer of `sz`-byte elements. -/
def elemAt (mem : List Nat) (sz k : Nat) : List Nat := (mem.drop (k * sz)).take sz

/-- Row `h` of channel `ch` lies in the `C x H` box and is copied by the
strided planar loop nest before row `h0` of channel `c0`. -/
def RowsBefore (H C c0 h0 ch h : Nat) : Prop :=
  ch < C ∧ h < H ∧ (ch < c0 ∨ (ch = c0 ∧ h < h0))

/-- State of an 8-bit destination while the strided planar loop nest runs: the
length is that of the initial memory `mem0`, every element of a row copied so
far holds its source byte, and every other byte is still that of `mem0`. -/
def PlanarInv (buffer mem0 : List Nat) (o W H C iss s0 c0 h0 : Nat) (mem : List Nat) : Prop :=
  mem.length = mem0.length ∧
  (∀ ch h w, RowsBefore H C c0 h0 ch h → w < W →
    ∃ p, buffer[ch * iss + h * s0 + w]? = some p ∧
      mem[o + (ch * (W * H) + h * W + w)]? = some p) ∧
  (∀ i, (∀ ch h w, RowsBefore H C c0 h0 ch h → w < W →
      i ≠ o + (ch * (W * H) + h * W + w)) → mem[i]? = mem0[i]?)

/-- The sum of `realTime_uSec` over the entries whose recorded time is
positive. -/
def positiveTime : List (List Nat × InferenceEngineProfileInfo) → Int
  | [] => 0
  | it :: rest => (if it.2.realTime_uSec > 0 then it.2.realTime_uSec else 0) + positiveTime rest

/-- The sum of `realTime_uSec` over the entries whose status is `EXECUTED`. -/
def executedTime : List (List Nat × InferenceEngineProfileInfo) → Int
  | [] => 0
  | it :: rest =>
    (if it.2.status = .EXECUTED then it.2.realTime_uSec else 0) + executedTime rest

/-- What a `getModel*Info` call leaves in a descriptor `t1` that held `t`
before, for the backend descriptor `item`: the rank is the number of
dimensions and at most `IE_TENSOR_MAX_RANK`, the `dim` array keeps its length
and every slot from `rank` on, and `dimStride` is untouched. -/
def RankBounded (item : Data) (t t1 : IETensorInfo) : Prop :=
  t1.rank = item.dims.length ∧ t1.rank ≤ IE_TENSOR_MAX_RANK ∧ t1.dim.length = t.dim.length ∧
    (∀ j, t1.rank ≤ j → t1.dim[j]? = t.dim[j]?) ∧ t1.dimStride = t.dimStride

/-- The tensor pointer of a block is null or addresses a live array of the heap. -/
def ownsArray (heap : Heap) (info : IEInputOutputInfo) : Prop :=
  info.tensor = 0 ∨ ∃ ts, heap.live info.tensor = some ts

/-- The block `b` describes an allocation made between `heap0` and `heap1`:
`bufSize` is `count * sizeof(IETensorInfo)`, `bufId` is the non-null tensor
pointer, the address was not live in `heap0`, and in `heap1` it holds `count`
descriptors all of whose bytes are zero. -/
def freshBlock (count : Nat) (heap0 heap1 : Heap) (b : IEInputOutputInfo) : Prop :=
  b.header.bufSize = count * sizeofIETensorInfo ∧ b.header.bufId = b.tensor ∧ b.tensor ≠ 0 ∧
    heap0.live b.tensor = none ∧
    heap1.live b.tensor = some (List.replicate count IETensorInfo.zero)

/-! ## Sample states used by the concrete evaluations -/

/-- A backend descriptor of a four-dimensional FP32 image input. -/
def sampleData : Data := { dims := [224, 224, 3, 1], precision := .FP32, layout := .NCHW }

/-- A loaded model with one input `data` and one output `prob`. -/
def sampleCtx : CIEContext :=
  { bModelLoaded := true
    bModelCreated := false
    targetDevice := .eCPU
    inputImageSize := { width := 0, height := 0 }
    inputsInfo := [("data", sampleData)]
    outputsInfo := [("prob", { dims := [1000, 1], precision := .FP32, layout := .NC })]
    batchSize := 1
    blobs := [] }

/-- A configuration whose two blocks are empty. -/
def emptyConfig : IEConfig :=
  { targetId := IE_CPU
    inputInfos := IEInputOutputInfo.empty
    outputInfos := IEInputOutputInfo.empty
    pluginPath := none
    cpuExtPath := none
    cldnnExtPath := none
    modelFileName := some "model.xml"
    perfCounter := 0
    inferReqNum := 1 }

/-- What the housekeeping of a block looks like from outside: byte size,
identifier, tensor pointer and count. -/
def IEInputOutputInfo.view (b : IEInputOutputInfo) : Nat × Nat × Nat × Nat :=
  (b.header.bufSize, b.header.bufId, b.tensor, b.numbers)

/-- Descriptor-block invariant kept by the store: the header is either cleared
(identifier and byte size zero) or describes the live array (identifier equal
to the non-null tensor pointer, byte size the 32-bit value of
`count * sizeof(IETensorInfo)`), and `numbers` is zero or `count`. -/
def blockInv (count : Nat) (b : IEInputOutputInfo) : Prop :=
  ((b.header.bufId = 0 ∧ b.header.bufSize = 0) ∨
    (b.header.bufId = b.tensor ∧ b.tensor ≠ 0 ∧
      b.header.bufSize = count * sizeofIETensorInfo % 2 ^ 32)) ∧
  (b.numbers = 0 ∨ b.numbers = count)

/-- A caller descriptor with the given precision and layout tags. -/
def tagged (precision : IEPrecisionType) (layout : IELayoutType) : IETensorInfo :=
  { IETensorInfo.zero with precision := precision, layout := layout }

/-- A heap whose only live allocation is the descriptor array `ts` at address `1`. -/
def heapWith (ts : List IETensorInfo) : Heap :=
  { brk := 1 + ts.length * sizeofIETensorInfo
    live := Function.update (fun _ => none) 1 (some ts)
    junk := IETensorInfo.zero
    log := [HeapEvent.malloc 1 (ts.length * sizeofIETensorInfo)] }

/-- The block that describes the array of `heapWith ts` and carries `numbers = n`. -/
def blockAt (n : Nat) (ts : List IETensorInfo) : IEInputOutputInfo :=
  { header := { bufSize := ts.length * sizeofIETensorInfo, bufId := 1 }
    tensor := 1
    batchSize := 0
    numbers := n }

/-- A loaded model with one input `data` and two outputs `boxes` and `scores`. -/
def twoOutputCtx : CIEContext :=
  { sampleCtx with
    outputsInfo := [("boxes", { dims := [4, 100, 1], precision := .FP16, layout := .CHW }),
                    ("scores", { dims := [100, 1], precision := .FP16, layout := .NC })] }

/-- A created model with batch size `2` and one two-element U8 input `data`,
whose execution buffer holds `2 * 2` zero bytes. -/
def batchCtx : CIEContext :=
  { bModelLoaded := true
    bModelCreated := true
    targetDevice := .eCPU
    inputImageSize := { width := 0, height := 0 }
    inputsInfo := [("data", { dims := [2, 2], precision := .U8, layout := .NC })]
    outputsInfo := []
    batchSize := 2
    blobs := [("data", { dims := [2, 2], buffer := [0, 0, 0, 0] })] }

/-- A created model with batch size `1` and one 2 x 2, one-channel U8 image
input `data`, whose execution buffer holds four zero bytes. -/
def imageCtx : CIEContext :=
  { batchCtx with
    inputsInfo := [("data", { dims := [2, 2, 1, 1], precision := .U8, layout := .NCHW })]
    batchSize := 1
    blobs := [("data", { dims := [2, 2, 1, 1], buffer := [0, 0, 0, 0] })] }

/-- A numeric (non-image) data buffer descriptor of the given precision, rank
and leading dimensions, pushed at batch index `batchIdx`. -/
def numericData (precision : IEPrecisionType) (dims : List Nat) (batchIdx : Nat) : IEData :=
  { header := { bufSize := 0, bufId := 4096 }
    tensor := { IETensorInfo.zero with
                rank := dims.length
                dim := dims ++ List.replicate (12 - dims.length) 0
                precision := precision
                dataType := IE_DATA_TYPE_NON_IMG }
    batchIdx := batchIdx
    memType := 1
    imageFormat := IE_IMAGE_FORMAT_UNKNOWN }

/-- A planar BGR U8 image descriptor of the given width, height and channel
count with strides equal to extents, pushed at batch index `batchIdx`. -/
def planarImage (w h c batchIdx : Nat) : IEData :=
  { header := { bufSize := w * h * c, bufId := 4096 }
    tensor := { IETensorInfo.zero with
                rank := 3
                dim := [w, h, c] ++ List.replicate 9 0
                dimStride := [w, h, c] ++ List.replicate 9 0
                precision := IE_U8
                dataType := IE_DATA_TYPE_IMG }
    batchIdx := batchIdx
    memType := 1
    imageFormat := IE_IMAGE_BGR_PLANAR }

/-- The same data buffer with another precision tag in its descriptor. -/
def withPrecision (data : IEData) (precision : IEPrecisionType) : IEData :=
  { data with tensor := { data.tensor with precision := precision } }

/-- A packed BGR U8 image descriptor of the given width, height and channel
count with an unpadded row, pushed at batch index `batchIdx`. -/
def packedImage (w h c batchIdx : Nat) : IEData :=
  { planarImage w h c batchIdx with imageFormat := IE_IMAGE_BGR_PACKED }

/-- A created model with batch size `n` and one 2 x 2, one-channel FP32 image
input `data`, whose execution buffer holds `n * 4` zero floats. -/
def floatImageCtx (n : Nat) : CIEContext :=
  { batchCtx with
    inputsInfo := [("data", { dims := [2, 2, 1, n], precision := .FP32, layout := .NCHW })]
    batchSize := n
    blobs := [("data", { dims := [2, 2, 1, n], buffer := List.replicate (16 * n) 0 })] }

/-- A created model with batch size `1`, one 2 x 2 image input `data` and one
output `prob` of ten floats. -/
def outputCtx : CIEContext :=
  { imageCtx with
    outputsInfo := [("prob", { dims := [10, 1], precision := .FP32, layout := .NC })]
    blobs := [("data", { dims := [2, 2, 1, 1], buffer := [0, 0, 0, 0] }),
              ("prob", { dims := [10, 1], buffer := List.replicate 40 0, address := 8192 })] }

/-- Collaborators that find every plugin, load every extension, read the
one-input, one-output sample network from any pair of files and hand out no
buffers. -/
def sampleBackend : Backend :=
  { getPluginByDevice := fun _ => true
    makeExtension := fun _ => true
    setConfig := fun _ => true
    readNetwork := fun _ _ =>
      some { inputsInfo := sampleCtx.inputsInfo, outputsInfo := sampleCtx.outputsInfo,
             batchSize := 1 }
    loadNetwork := fun _ _ => some [] }

/-- A configuration with empty blocks whose model path is the empty string. -/
def emptyPathConfig : IEConfig :=
  { emptyConfig with modelFileName := some "" }

/-- A destination of two batches of 2 x 2, one-channel 8-bit images, all zero. -/
def twoBatchBlob : Blob := { dims := [2, 2, 1, 2], buffer := List.replicate 8 0 }

/-- A destination of one 1 x 1, three-channel float image, all zero. -/
def pixelBlob : Blob := { dims := [1, 1, 3, 1], buffer := List.replicate 12 0 }

/-- The descriptor of a packed 1 x 1, three-channel image pushed with
precision FP32 at batch index `0`. -/
def pixelData : IEData := withPrecision (packedImage 1 1 3 0) IE_FP32

/-- A loaded model with one 640 x 480, three-channel U8 input `data`. -/
def vgaCtx : CIEContext :=
  { sampleCtx with
    inputsInfo := [("data", { dims := [640, 480, 3, 1], precision := .U8, layout := .NCHW })] }

/-- An image-kind caller descriptor of the given width and height. -/
def imageDesc (w h : Nat) : IETensorInfo :=
  { IETensorInfo.zero with
    rank := 4
    dim := [w, h, 3, 1] ++ List.replicate 8 0
    precision := IE_U8
    layout := IE_NCHW
    dataType := IE_DATA_TYPE_IMG }

/-- A loaded model whose input `data` has thirteen dimensions. -/
def deepCtx : CIEContext :=
  { sampleCtx with
    inputsInfo := [("data", { dims := List.replicate 13 1, precision := .FP32,
                              layout := .BLOCKED })] }

/-- A performance record with the given status and wall-clock time. -/
def perfEntry (status : LayerStatus) (realTime : Int) : InferenceEngineProfileInfo :=
  { status := status, realTime_uSec := realTime, cpu_uSec := realTime,
    exec_type := ascii "jit", layer_type := ascii "Convolution" }

/-- A performance map in which only executed layers have a recorded time. -/
def perfSample : List (List Nat × InferenceEngineProfileInfo) :=
  [(ascii "conv1", perfEntry .EXECUTED 7), (ascii "relu1", perfEntry .OPTIMIZED_OUT 0),
   (ascii "softmax", perfEntry .EXECUTED 3)]

/-- A performance map with a layer that did not run but has a recorded time. -/
def perfMixed : List (List Nat × InferenceEngineProfileInfo) :=
  [(ascii "conv1", perfEntry .EXECUTED 7), (ascii "pool1", perfEntry .NOT_RUN 5)]

/-- A layer name of fifteen two-byte characters (the UTF-8 bytes of `é`). -/
def accentedName : List Nat := (List.replicate 15 [195, 169]).flatten

/-- A performance map with a short name, a name of 36 bytes and a name of
fifteen two-byte characters. -/
def perfNamed : List (List Nat × InferenceEngineProfileInfo) :=
  [(accentedName, perfEntry .EXECUTED 2), (ascii "conv1", perfEntry .EXECUTED 7),
   (ascii "inception_5b/pool_proj/bn/scale/relu", perfEntry .EXECUTED 3)]

/-- A planar 2 x 2, one-channel U8 image whose rows are padded to three bytes. -/
def paddedImage : IEData :=
  { planarImage 2 2 1 0 with
    tensor := { (planarImage 2 2 1 0).tensor with dimStride := [3, 2, 1] ++ List.replicate 9 0 } }

/-- A destination of one 2 x 2, one-channel 8-bit image, all zero. -/
def squareBlob : Blob := { dims := [2, 2, 1, 1], buffer := [0, 0, 0, 0] }

/-- A destination of one 2 x 1, two-channel 8-bit image, all zero. -/
def pairBlob : Blob := { dims := [2, 1, 2, 1], buffer := [0, 0, 0, 0] }

/-- A configuration with empty blocks whose model path is `net.v2.bin`. -/
def dottedConfig : IEConfig :=
  { emptyConfig with modelFileName := some ("net.v2" ++ "." ++ "bin") }

/-- The network the sample collaborators read. -/
def sampleNetwork : Network :=
  { inputsInfo := sampleCtx.inputsInfo, outputsInfo := sampleCtx.outputsInfo, batchSize := 1 }

/-- A planar 2 x 2, two-channel U8 image with strides equal to extents. -/
def twoPlaneImage : IEData := planarImage 2 2 2 0

/-- A destination of one 2 x 2, two-channel 8-bit image, all zero. -/
def twoPlaneBlob : Blob := { dims := [2, 2, 2, 1], buffer := List.replicate 8 0 }

/-- The same 2 x 2 image descriptor with another image format tag. -/
def withFormat (data : IEData) (imageFormat : IEImageFormatType) : IEData :=
  { data with imageFormat := imageFormat }

/-- The result is not the `Index out of range` error. -/
def notIndexFault {α : Type} (r : Except Fault α) : Prop :=
  r ≠ .error .indexOutOfRange

/-! ## Descriptor store: allocation and release -/

theorem allocateFresh_ok (size : Nat) (info : IEInputOutputInfo) (heap : Heap) :
    ∃ heap1, allocateFresh size info heap =
      .ok ({ info with
             tensor := heap.brk + 1
             header := { bufSize := size * sizeofIETensorInfo % 2 ^ 32, bufId := heap.brk + 1 } },
           heap1) := by
  have hle : size * sizeofIETensorInfo % 2 ^ 32 ≤
      (List.replicate (size * sizeofIETensorInfo / sizeofIETensorInfo) heap.junk).length *
        sizeofIETensorInfo := by
    have h1 : size * sizeofIETensorInfo / sizeofIETensorInfo = size :=
      Nat.mul_div_cancel size (by decide)
    rw [h1, List.length_replicate]
    exact Nat.mod_le _ _
  simp only [allocateFresh, Heap.malloc, Heap.memset0, Function.update_same,
    Nat.succ_ne_zero, if_false, if_pos hle, bind, Except.bind, pure, Except.pure]
  exact ⟨_, rfl⟩

theorem allocateInfo_noop (size : Nat) (info : IEInputOutputInfo) (heap : Heap)
    (hp : info.tensor ≠ 0) (hn : info.numbers = size) :
    allocateInfo size info heap = .ok (info, heap) := by
  simp [allocateInfo, hp, hn]

theorem allocateInfo_of_numbers (size : Nat) (info : IEInputOutputInfo) (heap : Heap)
    (hn : info.numbers = size) :
    ∃ info1 heap1, allocateInfo size info heap = .ok (info1, heap1) ∧
      info1.tensor ≠ 0 ∧ info1.numbers = size := by
  by_cases hp : info.tensor = 0
  · obtain ⟨heap1, h1⟩ := allocateFresh_ok size info heap
    have h2 : allocateInfo size info heap = allocateFresh size info heap := by
      simp only [allocateInfo, if_pos hp]
    rw [h2, h1]
    exact ⟨_, heap1, rfl, Nat.succ_ne_zero _, hn⟩
  · exact ⟨info, heap, allocateInfo_noop size info heap hp hn, hp, hn⟩

theorem allocateInfo_inv (count : Nat) (info info1 : IEInputOutputInfo) (heap heap1 : Heap)
    (h : allocateInfo count info heap = .ok (info1, heap1)) (hi : blockInv count info) :
    blockInv count info1 := by
  unfold allocateInfo at h
  split at h
  · obtain ⟨heap2, h2⟩ := allocateFresh_ok count info heap
    rw [h2] at h
    injection h with h
    injection h with h3 _
    subst h3
    exact ⟨Or.inr ⟨rfl, Nat.succ_ne_zero _, rfl⟩, hi.2⟩
  · split at h
    · cases hf : heap.free info.tensor with
      | error e => simp [hf, bind, Except.bind] at h
      | ok heap0 =>
        obtain ⟨heap2, h2⟩ := allocateFresh_ok count
          { info with header := { bufSize := 0, bufId := 0 } } heap0
        simp only [hf, bind, Except.bind] at h
        rw [h2] at h
        injection h with h
        injection h with h3 _
        subst h3
        exact ⟨Or.inr ⟨rfl, Nat.succ_ne_zero _, rfl⟩, hi.2⟩
    · injection h with h
      injection h with h3 _
      subst h3
      exact hi

theorem freeInfo_inv (count : Nat) (info info1 : IEInputOutputInfo) (heap heap1 : Heap)
    (h : freeInfo info heap = .ok (info1, heap1)) (hi : blockInv count info) :
    blockInv count info1 := by
  unfold freeInfo at h
  split at h
  · cases hf : heap.free info.tensor with
    | error e => simp [hf, bind, Except.bind] at h
    | ok heap0 =>
      simp only [hf, bind, Except.bind, pure, Except.pure] at h
      injection h with h
      injection h with h3 _
      subst h3
      exact ⟨Or.inl ⟨rfl, rfl⟩, hi.2⟩
  · injection h with h
    injection h with h3 _
    subst h3
    exact hi

theorem getModelInputInfo_inv (ctx : CIEContext) (info info1 : IEInputOutputInfo)
    (heap heap1 : Heap) (h : getModelInputInfo ctx info heap = .ok (info1, heap1))
    (hi : blockInv (getInputSize ctx) info) : blockInv (getInputSize ctx) info1 := by
  unfold getModelInputInfo at h
  split at h
  · injection h with h
    injection h with h3 _
    subst h3
    exact hi
  · rename_i hl
    cases hg : getInfoLoop info.tensor ctx.inputsInfo 0 heap with
    | error e => simp [hg, bind, Except.bind] at h
    | ok heap0 =>
      simp only [hg, bind, Except.bind, pure, Except.pure] at h
      injection h with h
      injection h with h3 _
      subst h3
      refine ⟨hi.1, Or.inr ?_⟩
      simp [getInputSize, hl]

theorem getModelOutputInfo_inv (ctx : CIEContext) (info info1 : IEInputOutputInfo)
    (heap heap1 : Heap) (h : getModelOutputInfo ctx info heap = .ok (info1, heap1))
    (hi : blockInv (getOutputSize ctx) info) : blockInv (getOutputSize ctx) info1 := by
  unfold getModelOutputInfo at h
  split at h
  · injection h with h
    injection h with h3 _
    subst h3
    exact hi
  · rename_i hl
    cases hg : getInfoLoop info.tensor ctx.outputsInfo 0 heap with
    | error e => simp [hg, bind, Except.bind] at h
    | ok heap0 =>
      simp only [hg, bind, Except.bind, pure, Except.pure] at h
      injection h with h
      injection h with h3 _
      subst h3
      refine ⟨hi.1, Or.inr ?_⟩
      simp [getOutputSize, hl]

theorem storeStep_inv (ctx : CIEContext) (c : StoreCall) (s s1 : IEConfig × Heap)
    (h : storeStep ctx c s = .ok s1)
    (hi : blockInv (getInputSize ctx) s.1.inputInfos ∧
      blockInv (getOutputSize ctx) s.1.outputInfos) :
    blockInv (getInputSize ctx) s1.1.inputInfos ∧
      blockInv (getOutputSize ctx) s1.1.outputInfos := by
  obtain ⟨config, heap⟩ := s
  cases c with
  | allocate =>
    simp only [storeStep, IEAllocateInputOutputInfo] at h
    cases h1 : allocateInfo (getInputSize ctx) config.inputInfos heap with
    | error e => simp [h1, bind, Except.bind] at h
    | ok r1 =>
      obtain ⟨inp, heapA⟩ := r1
      cases h2 : allocateInfo (getOutputSize ctx) config.outputInfos heapA with
      | error e => simp [h1, h2, bind, Except.bind] at h
      | ok r2 =>
        obtain ⟨out, heapB⟩ := r2
        simp only [h1, h2, bind, Except.bind, pure, Except.pure] at h
        injection h with h
        subst h
        exact ⟨allocateInfo_inv _ _ _ _ _ h1 hi.1, allocateInfo_inv _ _ _ _ _ h2 hi.2⟩
  | getInput =>
    simp only [storeStep, IEGetInputInfo] at h
    cases h1 : getModelInputInfo ctx config.inputInfos heap with
    | error e => simp [h1, bind, Except.bind] at h
    | ok r1 =>
      obtain ⟨inp, heapA⟩ := r1
      simp only [h1, bind, Except.bind, pure, Except.pure] at h
      injection h with h
      subst h
      exact ⟨getModelInputInfo_inv _ _ _ _ _ h1 hi.1, hi.2⟩
  | getOutput =>
    simp only [storeStep, IEGetOutputInfo] at h
    cases h1 : getModelOutputInfo ctx config.outputInfos heap with
    | error e => simp [h1, bind, Except.bind] at h
    | ok r1 =>
      obtain ⟨out, heapA⟩ := r1
      simp only [h1, bind, Except.bind, pure, Except.pure] at h
      injection h with h
      subst h
      exact ⟨hi.1, getModelOutputInfo_inv _ _ _ _ _ h1 hi.2⟩
  | release =>
    simp only [storeStep, IEFreeInputOutputInfo] at h
    cases h1 : freeInfo config.inputInfos heap with
    | error e => simp [h1, bind, Except.bind] at h
    | ok r1 =>
      obtain ⟨inp, heapA⟩ := r1
      cases h2 : freeInfo config.outputInfos heapA with
      | error e => simp [h1, h2, bind, Except.bind] at h
      | ok r2 =>
        obtain ⟨out, heapB⟩ := r2
        simp only [h1, h2, bind, Except.bind, pure, Except.pure] at h
        injection h with h
        subst h
        exact ⟨freeInfo_inv _ _ _ _ _ h1 hi.1, freeInfo_inv _ _ _ _ _ h2 hi.2⟩

theorem storeRun_inv (ctx : CIEContext) (calls : List StoreCall) :
    ∀ (s s1 : IEConfig × Heap), storeRun ctx calls s = .ok s1 →
      blockInv (getInputSize ctx) s.1.inputInfos ∧
        blockInv (getOutputSize ctx) s.1.outputInfos →
      blockInv (getInputSize ctx) s1.1.inputInfos ∧
        blockInv (getOutputSize ctx) s1.1.outputInfos := by
  induction calls with
  | nil =>
    intro s s1 h hi
    simp only [storeRun] at h
    injection h with h
    subst h
    exact hi
  | cons c cs ih =>
    intro s s1 h hi
    simp only [storeRun] at h
    cases hs : storeStep ctx c s with
    | error e => simp [hs, bind, Except.bind] at h
    | ok s2 =>
      simp only [hs, bind, Except.bind] at h
      exact ih s2 s1 h (storeStep_inv ctx c s s2 hs hi)

theorem blockInv_empty (count : Nat) : blockInv count IEInputOutputInfo.empty :=
  ⟨Or.inl ⟨rfl, rfl⟩, Or.inl rfl⟩

/-- C1 (amended). When each block's `numbers` field equals the model's current
input (respectively output) count, calling `IEAllocateInputOutputInfo` twice
in a row makes the second call a no-op: it returns the configuration and the
heap of the first call unchanged, so nothing is freed or allocated (the heap
log is the same) and `bufId`, `bufSize` and the tensor pointer of both blocks
stay as the first call left them. -/
theorem allocate_twice_noop (ctx : CIEContext) (config : IEConfig) (heap : Heap)
    (hin : config.inputInfos.numbers = getInputSize ctx)
    (hout : config.outputInfos.numbers = getOutputSize ctx) :
    ∃ config1 heap1,
      IEAllocateInputOutputInfo ctx config heap = .ok (config1, heap1) ∧
      IEAllocateInputOutputInfo ctx config1 heap1 = .ok (config1, heap1) := by
  obtain ⟨inp, heapA, e1, t1, n1⟩ :=
    allocateInfo_of_numbers (getInputSize ctx) config.inputInfos heap hin
  obtain ⟨out, heapB, e2, t2, n2⟩ :=
    allocateInfo_of_numbers (getOutputSize ctx) config.outputInfos heapA hout
  refine ⟨{ config with inputInfos := inp, outputInfos := out }, heapB, ?_, ?_⟩
  · simp only [IEAllocateInputOutputInfo, e1, e2, bind, Except.bind, pure, Except.pure]
  · have e3 := allocateInfo_noop (getInputSize ctx) inp heapB t1 n1
    have e4 := allocateInfo_noop (getOutputSize ctx) out heapB t2 n2
    simp only [IEAllocateInputOutputInfo, e3, e4, bind, Except.bind, pure, Except.pure]

/-- C1 (witness). A loaded model with one input and one output, and a
configuration whose blocks carry `numbers = 1` and no storage yet. -/
theorem allocate_twice_noop_witness :
    (1 : Nat) = getInputSize sampleCtx ∧ (1 : Nat) = getOutputSize sampleCtx ∧
    ∃ config1 heap1,
      IEAllocateInputOutputInfo sampleCtx
          { emptyConfig with
            inputInfos := { IEInputOutputInfo.empty with numbers := 1 }
            outputInfos := { IEInputOutputInfo.empty with numbers := 1 } } Heap.empty =
        .ok (config1, heap1) ∧
      IEAllocateInputOutputInfo sampleCtx config1 heap1 = .ok (config1, heap1) :=
  ⟨by decide, by decide, allocate_twice_noop sampleCtx _ Heap.empty (by decide) (by decide)⟩

/-- C1 (counterexample). On a loaded model with one input and one output and a
configuration with empty blocks (`numbers = 0`), the first call allocates both
arrays and the second call, with unchanged counts, frees and reallocates
both: the heap log grows by two `free` and two `malloc` calls and the tensor
pointer of the input block changes. -/
theorem allocate_twice_reallocates :
    (do
      let s1 ← IEAllocateInputOutputInfo sampleCtx emptyConfig Heap.empty
      let s2 ← IEAllocateInputOutputInfo sampleCtx s1.1 s1.2
      pure (s1.2.log, s2.2.log, s1.1.inputInfos.view, s2.1.inputInfos.view)
      : Except Fault _) =
    .ok ([.malloc 1 112, .malloc 114 112],
         [.malloc 1 112, .malloc 114 112, .free 1, .malloc 227 112, .free 114, .malloc 340 112],
         (112, 1, 1, 0), (112, 227, 227, 0)) := by
  rfl

/-- C2 (evaluation at the failing input). A loaded model with one input and one
output; after allocate, get-input, get-output both blocks are allocated with
`numbers = 1`. `IEFreeInputOutputInfo` clears `bufSize` and `bufId` but leaves
the tensor pointers in place, so the following `IEAllocateInputOutputInfo`
sees non-null pointers and matching counts and allocates nothing: the blocks
keep `bufSize = 0`, `bufId = 0` and tensor pointers to released storage, and
the heap log ends with the two `free` calls. Without the two get calls
(`numbers = 0`, count `1`) the following allocate frees the released address
once more. -/
theorem free_then_allocate_allocates_nothing :
    (storeRun sampleCtx [.allocate, .getInput, .getOutput] (emptyConfig, Heap.empty)).map
        (fun s => (s.1.inputInfos.view, s.1.outputInfos.view)) =
      .ok ((112, 1, 1, 1), (112, 114, 114, 1)) ∧
    (storeRun sampleCtx [.allocate, .getInput, .getOutput, .release, .allocate]
        (emptyConfig, Heap.empty)).map
        (fun s => (s.1.inputInfos.view, s.1.outputInfos.view, s.2.log, s.2.live 1,
          s.2.live 114)) =
      .ok ((0, 0, 1, 1), (0, 0, 114, 1),
        [.malloc 1 112, .malloc 114 112, .free 1, .free 114], none, none) ∧
    storeRun sampleCtx [.allocate, .release, .allocate] (emptyConfig, Heap.empty) =
      .error .invalidFree := by
  refine ⟨rfl, rfl, rfl⟩

/-- C3 (evaluation at the failing input). After one `IEFreeInputOutputInfo` on
allocated blocks the tensor pointer of the input block is still the released
address `1`; a second call passes the null test and frees that address again,
which the heap reports as an invalid free. -/
theorem free_twice_frees_again :
    (storeRun sampleCtx [.allocate, .release] (emptyConfig, Heap.empty)).map
        (fun s => (s.1.inputInfos.view, s.2.live 1, s.2.log)) =
      .ok ((0, 0, 1, 0), none, [.malloc 1 112, .malloc 114 112, .free 1, .free 114]) ∧
    storeRun sampleCtx [.allocate, .release, .release] (emptyConfig, Heap.empty) =
      .error .invalidFree := by
  constructor <;> rfl

/-- C4 (amended). Starting from a configuration whose blocks are empty, after
every sequence of allocate, get-input, get-output and release calls that runs
without fault, each block satisfies `blockInv` for the model's input
(respectively output) count: its header is either cleared (`bufId = 0` and
`bufSize = 0`) or describes the live array (`bufId` equal to the non-null
tensor pointer and `bufSize` the 32-bit value of `count * sizeof(IETensorInfo)`),
and `numbers` is `0` or `count`. -/
theorem store_invariant (ctx : CIEContext) (calls : List StoreCall) (config : IEConfig)
    (heap : Heap) (s : IEConfig × Heap)
    (hin : config.inputInfos = IEInputOutputInfo.empty)
    (hout : config.outputInfos = IEInputOutputInfo.empty)
    (hrun : storeRun ctx calls (config, heap) = .ok s) :
    blockInv (getInputSize ctx) s.1.inputInfos ∧
      blockInv (getOutputSize ctx) s.1.outputInfos := by
  apply storeRun_inv ctx calls (config, heap) s hrun
  simp only [hin, hout]
  exact ⟨blockInv_empty _, blockInv_empty _⟩

/-- C4 (witness). The run allocate, get-input, get-output, release on a loaded
model with one input and one output, started on empty blocks, ends without
fault in a state that satisfies the invariant. -/
theorem store_invariant_witness :
    emptyConfig.inputInfos = IEInputOutputInfo.empty ∧
    emptyConfig.outputInfos = IEInputOutputInfo.empty ∧
    ∃ s, storeRun sampleCtx [.allocate, .getInput, .getOutput, .release]
        (emptyConfig, Heap.empty) = .ok s ∧
      s.1.inputInfos.view = (0, 0, 1, 1) ∧
      blockInv (getInputSize sampleCtx) s.1.inputInfos ∧
      blockInv (getOutputSize sampleCtx) s.1.outputInfos :=
  ⟨rfl, rfl, _, rfl, rfl,
    store_invariant sampleCtx [.allocate, .getInput, .getOutput, .release] emptyConfig
      Heap.empty _ rfl rfl rfl⟩

/-- C4 (counterexample). After a single `IEAllocateInputOutputInfo` on empty
blocks, for a loaded model with one input, the input block has
`bufSize = 112` and a non-zero `bufId` while `numbers` is still `0`: `bufSize`
differs from `numbers * sizeof(IETensorInfo)`, and `bufId` is non-zero although
`numbers` is not positive. -/
theorem allocate_breaks_numbers_invariant :
    ∃ s, storeRun sampleCtx [.allocate] (emptyConfig, Heap.empty) = .ok s ∧
      s.1.inputInfos.view = (112, 1, 1, 0) ∧
      s.1.inputInfos.header.bufSize ≠ s.1.inputInfos.numbers * sizeofIETensorInfo ∧
      ¬ (s.1.inputInfos.header.bufId ≠ 0 ↔ s.1.inputInfos.numbers > 0) :=
  ⟨_, rfl, rfl, by decide, by decide⟩

/-! ## Descriptor store: precision and layout -/

theorem precision_roundtrip (p : IEPrecisionType) (hp : p ∈ precisionTags) :
    getEnumByPrecision (getPrecisionByEnum p) = p := by
  simp only [precisionTags, List.mem_cons, List.mem_singleton, List.not_mem_nil, or_false] at hp
  rcases hp with h | h | h | h | h | h | h | h | h | h | h <;> subst h <;> rfl

theorem layout_roundtrip (l : IELayoutType) (hl : l ∈ layoutTags) :
    getEnumByLayout (getLayoutByEnum l) = l := by
  simp only [layoutTags, List.mem_cons, List.mem_singleton, List.not_mem_nil, or_false] at hl
  rcases hl with h | h | h | h | h | h | h | h | h | h <;> subst h <;> rfl

theorem copyDims_ok (ds : List Nat) :
    ∀ (i : Nat) (dim : List Nat), i + ds.length ≤ IE_TENSOR_MAX_RANK →
      ∃ r, copyDims i ds dim = .ok r := by
  induction ds with
  | nil => intro i dim _; exact ⟨dim, rfl⟩
  | cons d ds ih =>
    intro i dim h
    simp only [List.length_cons] at h
    have hi : i < IE_TENSOR_MAX_RANK := by omega
    simp only [copyDims, if_pos hi]
    exact ih (i + 1) _ (by omega)

theorem describe_ok (item : Data) (info : IETensorInfo)
    (h : item.dims.length ≤ IE_TENSOR_MAX_RANK) :
    ∃ t, describe item info = .ok t ∧ t.precision = getEnumByPrecision item.precision ∧
      t.layout = getEnumByLayout item.layout := by
  have hlen : (item.dims.take (item.dims.length % 2 ^ 32)).length ≤ IE_TENSOR_MAX_RANK := by
    rw [List.length_take]
    exact le_trans (Nat.min_le_right _ _) h
  obtain ⟨r, hr⟩ := copyDims_ok (item.dims.take (item.dims.length % 2 ^ 32)) 0 info.dim
    (by omega)
  simp only [describe, hr, bind, Except.bind, pure, Except.pure]
  exact ⟨_, rfl, rfl, rfl⟩

theorem updateAt_get (items : List (String × Data)) (idx : Nat) (f : Data → Data)
    (item : String × Data) (h : items.get? idx = some item) :
    (updateAt items idx f).get? idx = some (item.1, f item.2) := by
  have hlt : idx < items.length := by
    rw [List.get?_eq_getElem?] at h
    exact (List.getElem?_eq_some_iff.mp h).1
  simp only [updateAt, h, List.get?_eq_getElem?]
  rw [List.getElem?_set_self hlt]

theorem updateAt_length (items : List (String × Data)) (idx : Nat) (f : Data → Data) :
    (updateAt items idx f).length = items.length := by
  unfold updateAt
  split <;> simp

theorem set_get_at (items : List (String × Data)) (idx : Nat) (d d2 : IETensorInfo)
    (hidx : idx < items.length)
    (hrank : ∀ item ∈ items, item.2.dims.length ≤ IE_TENSOR_MAX_RANK) :
    CHECK_INDEX idx items.length = .ok () ∧
    CHECK_INDEX idx (updateAt items idx (override d)).length = .ok () ∧
    ∃ item d3, (updateAt items idx (override d)).get? idx = some item ∧
      describe item.2 d2 = .ok d3 ∧
      d3.precision = getEnumByPrecision (getPrecisionByEnum d.precision) ∧
      d3.layout = getEnumByLayout (getLayoutByEnum d.layout) := by
  have hc : CHECK_INDEX idx items.length = .ok () := by
    simp [CHECK_INDEX, hidx]
  refine ⟨hc, by rw [updateAt_length]; exact hc, ?_⟩
  have hget : items.get? idx = some (items.get ⟨idx, hidx⟩) := List.get?_eq_get hidx
  have hmem : items.get ⟨idx, hidx⟩ ∈ items := List.get_mem items idx hidx
  obtain ⟨t, ht, htp, htl⟩ :=
    describe_ok (override d (items.get ⟨idx, hidx⟩).2) d2 (hrank _ hmem)
  exact ⟨_, t, updateAt_get items idx _ _ hget, ht, htp, htl⟩

/-- C5 (amended). For every valid input index `i`, every valid output index
`j`, and every descriptor `d` whose precision and layout are enumerated tags,
on a model whose tensors have at most `IE_TENSOR_MAX_RANK` dimensions, the
per-index set followed by the matching per-index get returns normally and
reads back the precision and the layout of `d`, for inputs and for outputs. -/
theorem set_get_roundtrip (ctx : CIEContext) (i j : Nat) (d d2 : IETensorInfo)
    (hi : i < ctx.inputsInfo.length) (hj : j < ctx.outputsInfo.length)
    (hp : d.precision ∈ precisionTags) (hl : d.layout ∈ layoutTags)
    (hin : ∀ item ∈ ctx.inputsInfo, item.2.dims.length ≤ IE_TENSOR_MAX_RANK)
    (hout : ∀ item ∈ ctx.outputsInfo, item.2.dims.length ≤ IE_TENSOR_MAX_RANK) :
    (∃ ctx1 d3, setModelInputInfoAt ctx i d = .ok ctx1 ∧
        getModelInputInfoAt ctx1 i d2 = .ok d3 ∧
        d3.precision = d.precision ∧ d3.layout = d.layout) ∧
    (∃ ctx1 d3, setModelOutputInfoAt ctx j d = .ok ctx1 ∧
        getModelOutputInfoAt ctx1 j d2 = .ok d3 ∧
        d3.precision = d.precision ∧ d3.layout = d.layout) := by
  constructor
  · obtain ⟨hc, hc1, item, d3, hg, hd, h1, h2⟩ := set_get_at ctx.inputsInfo i d d2 hi hin
    refine ⟨{ ctx with inputsInfo := updateAt ctx.inputsInfo i (override d) }, d3, ?_, ?_, ?_, ?_⟩
    · simp only [setModelInputInfoAt, hc, bind, Except.bind, pure, Except.pure]
    · simp only [getModelInputInfoAt, hc1, hg, bind, Except.bind]
      exact hd
    · rw [h1, precision_roundtrip _ hp]
    · rw [h2, layout_roundtrip _ hl]
  · obtain ⟨hc, hc1, item, d3, hg, hd, h1, h2⟩ := set_get_at ctx.outputsInfo j d d2 hj hout
    refine ⟨{ ctx with outputsInfo := updateAt ctx.outputsInfo j (override d) }, d3, ?_, ?_, ?_, ?_⟩
    · simp only [setModelOutputInfoAt, hc, bind, Except.bind, pure, Except.pure]
    · simp only [getModelOutputInfoAt, hc1, hg, bind, Except.bind]
      exact hd
    · rw [h1, precision_roundtrip _ hp]
    · rw [h2, layout_roundtrip _ hl]

/-- C5 (witness). Input `0` and output `1` of the one-input, two-output sample
model, with a U8 / NHWC descriptor. -/
theorem set_get_roundtrip_witness :
    0 < twoOutputCtx.inputsInfo.length ∧ 1 < twoOutputCtx.outputsInfo.length ∧
    (tagged IE_U8 IE_NHWC).precision ∈ precisionTags ∧
    (tagged IE_U8 IE_NHWC).layout ∈ layoutTags ∧
    (∃ ctx1 d3, setModelInputInfoAt twoOutputCtx 0 (tagged IE_U8 IE_NHWC) = .ok ctx1 ∧
        getModelInputInfoAt ctx1 0 IETensorInfo.zero = .ok d3 ∧
        d3.precision = (tagged IE_U8 IE_NHWC).precision ∧
        d3.layout = (tagged IE_U8 IE_NHWC).layout) ∧
    (∃ ctx1 d3, setModelOutputInfoAt twoOutputCtx 1 (tagged IE_U8 IE_NHWC) = .ok ctx1 ∧
        getModelOutputInfoAt ctx1 1 IETensorInfo.zero = .ok d3 ∧
        d3.precision = (tagged IE_U8 IE_NHWC).precision ∧
        d3.layout = (tagged IE_U8 IE_NHWC).layout) :=
  ⟨by decide, by decide, by decide, by decide,
    set_get_roundtrip twoOutputCtx 0 1 (tagged IE_U8 IE_NHWC) IETensorInfo.zero
      (by decide) (by decide) (by decide) (by decide) (by decide) (by decide)⟩

/-- C5 (counterexample). A descriptor whose precision field holds `7` and whose
layout field holds `5`, neither an enumerated tag: after the per-index set,
the per-index get reads back `IE_UNSPECIFIED = 255` and `IE_ANY = 0`, for the
input and for the output. -/
theorem set_get_unrecognised_tag :
    (do
      let ctx1 ← setModelInputInfoAt sampleCtx 0 (tagged 7 5)
      let d3 ← getModelInputInfoAt ctx1 0 IETensorInfo.zero
      pure (d3.precision, d3.layout) : Except Fault _) = .ok (255, 0) ∧
    (do
      let ctx1 ← setModelOutputInfoAt sampleCtx 0 (tagged 7 5)
      let d3 ← getModelOutputInfoAt ctx1 0 IETensorInfo.zero
      pure (d3.precision, d3.layout) : Except Fault _) = .ok (255, 0) ∧
    (tagged 7 5).precision = 7 ∧ (tagged 7 5).layout = 5 := by
  refine ⟨rfl, rfl, rfl, rfl⟩

/-- C10. A block whose `numbers` field differs from the number of model inputs
(respectively outputs) makes the bulk set return the context unchanged: no
precision, no layout and not the cached input image size is modified. -/
theorem bulk_set_count_mismatch (ctx : CIEContext) (inp out : IEInputOutputInfo)
    (heap : Heap) (hin : inp.numbers ≠ ctx.inputsInfo.length)
    (hout : out.numbers ≠ ctx.outputsInfo.length) :
    setModelInputInfo ctx inp heap = .ok ctx ∧ setModelOutputInfo ctx out heap = .ok ctx := by
  constructor
  · simp [setModelInputInfo, hin]
  · simp [setModelOutputInfo, hout]

/-- C10 (witness). A two-element block offered to the model with one input and
to the model with one output. -/
theorem bulk_set_count_mismatch_witness :
    (blockAt 2 [tagged IE_U8 IE_NHWC, tagged IE_U8 IE_NHWC]).numbers ≠
      sampleCtx.inputsInfo.length ∧
    (blockAt 2 [tagged IE_U8 IE_NHWC, tagged IE_U8 IE_NHWC]).numbers ≠
      sampleCtx.outputsInfo.length ∧
    setModelInputInfo sampleCtx (blockAt 2 [tagged IE_U8 IE_NHWC, tagged IE_U8 IE_NHWC])
      (heapWith [tagged IE_U8 IE_NHWC, tagged IE_U8 IE_NHWC]) = .ok sampleCtx ∧
    setModelOutputInfo sampleCtx (blockAt 2 [tagged IE_U8 IE_NHWC, tagged IE_U8 IE_NHWC])
      (heapWith [tagged IE_U8 IE_NHWC, tagged IE_U8 IE_NHWC]) = .ok sampleCtx :=
  ⟨by decide, by decide,
    bulk_set_count_mismatch sampleCtx _ _ _ (by decide) (by decide)⟩

/-! ## Descriptor store: bulk set and get -/

theorem load_live (heap : Heap) (p i : Nat) (ts : List IETensorInfo) (t : IETensorInfo)
    (hp : p ≠ 0) (hlive : heap.live p = some ts) (ht : ts[i]? = some t) :
    heap.load p i = .ok t := by
  simp [Heap.load, hp, hlive, ht]

theorem store_live (heap : Heap) (p i : Nat) (ts : List IETensorInfo) (t : IETensorInfo)
    (hp : p ≠ 0) (hlive : heap.live p = some ts) (hi : i < ts.length) :
    ∃ heap1, heap.store p i t = .ok heap1 ∧ heap1.live p = some (ts.set i t) := by
  simp [Heap.store, hp, hlive, hi]

theorem setInputLoop_spec (p : Nat) (heap : Heap) (ts : List IETensorInfo) (hp : p ≠ 0)
    (hlive : heap.live p = some ts) :
    ∀ (items : List (String × InputInfo)) (id : Nat) (sz : IEImageSize),
      id + items.length ≤ ts.length →
      (∀ k item t, items[k]? = some item → ts[id + k]? = some t →
        t.dataType = IE_DATA_TYPE_IMG → 2 ≤ item.2.dims.length) →
      ∃ items1 sz1, setInputLoop p heap items id sz = .ok (items1, sz1) ∧
        items1.length = items.length ∧
        ∀ k item t, items[k]? = some item → ts[id + k]? = some t →
          items1[k]? = some (item.1, override t item.2) := by
  intro items
  induction items with
  | nil =>
    intro id sz _ _
    exact ⟨[], sz, rfl, rfl, by simp⟩
  | cons item rest ih =>
    intro id sz hlen himg
    simp only [List.length_cons] at hlen
    have hid : id < ts.length := by omega
    have ht : ts[id]? = some ts[id] := List.getElem?_eq_getElem hid
    have hload := load_live heap p id ts _ hp hlive ht
    have hrest : ∀ k item1 t, rest[k]? = some item1 → ts[id + 1 + k]? = some t →
        t.dataType = IE_DATA_TYPE_IMG → 2 ≤ item1.2.dims.length := by
      intro k item1 t hk htk
      apply himg (k + 1) item1 t (by simpa using hk)
      rw [show id + (k + 1) = id + 1 + k by omega]
      exact htk
    have key : ∀ rest1 : List (String × InputInfo),
        (∀ k item1 t, rest[k]? = some item1 → ts[id + 1 + k]? = some t →
          rest1[k]? = some (item1.1, override t item1.2)) →
        ∀ k item1 t, (item :: rest)[k]? = some item1 → ts[id + k]? = some t →
          ((item.1, override ts[id] item.2) :: rest1)[k]? =
            some (item1.1, override t item1.2) := by
      intro rest1 hspec k item1 t hk htk
      cases k with
      | zero =>
        simp only [List.getElem?_cons_zero, Option.some.injEq] at hk
        simp only [Nat.add_zero] at htk
        rw [ht] at htk
        simp only [Option.some.injEq] at htk
        subst hk
        subst htk
        simp
      | succ k =>
        simp only [List.getElem?_cons_succ] at hk ⊢
        apply hspec k item1 t hk
        rw [show id + 1 + k = id + (k + 1) by omega]
        exact htk
    by_cases hI : ts[id].dataType = IE_DATA_TYPE_IMG
    · have h2 : 2 ≤ item.2.dims.length :=
        himg 0 item ts[id] (by simp) (by simp) hI
      have h1 : item.2.dims.get? 1 = some (item.2.dims.get ⟨1, by omega⟩) :=
        List.get?_eq_get _
      have h0 : item.2.dims.get? 0 = some (item.2.dims.get ⟨0, by omega⟩) :=
        List.get?_eq_get _
      obtain ⟨rest1, sz2, e, hlen1, hspec⟩ := ih (id + 1)
        { width := item.2.dims.get ⟨0, by omega⟩ % 2 ^ 32,
          height := item.2.dims.get ⟨1, by omega⟩ % 2 ^ 32 } (by omega) hrest
      refine ⟨(item.1, override ts[id] item.2) :: rest1, sz2, ?_, by simp [hlen1],
        key rest1 hspec⟩
      simp only [setInputLoop, hload, bind, Except.bind, pure, Except.pure]
      rw [if_pos hI]
      simp only [h1, h0, e]
    · obtain ⟨rest1, sz2, e, hlen1, hspec⟩ := ih (id + 1) sz (by omega) hrest
      refine ⟨(item.1, override ts[id] item.2) :: rest1, sz2, ?_, by simp [hlen1],
        key rest1 hspec⟩
      simp only [setInputLoop, hload, bind, Except.bind, pure, Except.pure]
      rw [if_neg hI]
      simp only [e]

theorem getInfoLoop_spec (p : Nat) (hp : p ≠ 0) :
    ∀ (items : List (String × Data)) (id : Nat) (heap : Heap) (ts : List IETensorInfo),
      heap.live p = some ts → id + items.length ≤ ts.length →
      (∀ item ∈ items, item.2.dims.length ≤ IE_TENSOR_MAX_RANK) →
      ∃ heap1 ts1, getInfoLoop p items id heap = .ok heap1 ∧ heap1.live p = some ts1 ∧
        ts1.length = ts.length ∧
        (∀ j, j < id → ts1[j]? = ts[j]?) ∧
        ∀ k item, items[k]? = some item →
          ∃ t1, ts1[id + k]? = some t1 ∧
            t1.precision = getEnumByPrecision item.2.precision ∧
            t1.layout = getEnumByLayout item.2.layout := by
  intro items
  induction items with
  | nil =>
    intro id heap ts hlive _ _
    exact ⟨heap, ts, rfl, hlive, rfl, fun _ _ => rfl, by simp⟩
  | cons item rest ih =>
    intro id heap ts hlive hlen hrank
    simp only [List.length_cons] at hlen
    have hid : id < ts.length := by omega
    have ht : ts[id]? = some ts[id] := List.getElem?_eq_getElem hid
    have hload := load_live heap p id ts _ hp hlive ht
    obtain ⟨t1, hd, hprec, hlay⟩ :=
      describe_ok item.2 ts[id] (hrank item (List.mem_cons_self _ _))
    obtain ⟨heapA, hstore, hliveA⟩ := store_live heap p id ts t1 hp hlive hid
    obtain ⟨heapB, ts2, e, hliveB, hlenB, hframe, hspec⟩ :=
      ih (id + 1) heapA (ts.set id t1) hliveA (by simp; omega)
        (fun it hit => hrank it (List.mem_cons_of_mem _ hit))
    refine ⟨heapB, ts2, ?_, hliveB, by simpa using hlenB, ?_, ?_⟩
    · simp only [getInfoLoop, hload, hd, hstore, e, bind, Except.bind]
    · intro j hj
      rw [hframe j (by omega), List.getElem?_set_ne (by omega)]
    · intro k item1 hk
      cases k with
      | zero =>
        simp only [List.getElem?_cons_zero, Option.some.injEq] at hk
        subst hk
        refine ⟨t1, ?_, hprec, hlay⟩
        rw [Nat.add_zero, hframe id (by omega), List.getElem?_set_self hid]
      | succ k =>
        simp only [List.getElem?_cons_succ] at hk
        obtain ⟨t2, h1, h2, h3⟩ := hspec k item1 hk
        refine ⟨t2, ?_, h2, h3⟩
        rw [show id + (k + 1) = id + 1 + k by omega]
        exact h1

/-- C9 (amended). On a Loaded context, for a block with `numbers` equal to the
number of model inputs whose array is live and holds at least that many
descriptors, all with enumerated precision and layout tags, on a model whose
inputs have at most `IE_TENSOR_MAX_RANK` dimensions (and at least two where
the block element is image-kind): the bulk input set returns normally, every
input `i` then carries the translation of the precision and layout of
`block.tensor[i]`, and a following bulk get into the block returns normally
and leaves in element `i` the precision and layout it held before. -/
theorem bulk_input_set_get (ctx : CIEContext) (info : IEInputOutputInfo) (heap : Heap)
    (ts : List IETensorInfo)
    (hloaded : ctx.bModelLoaded = true)
    (hn : info.numbers = ctx.inputsInfo.length)
    (hp : info.tensor ≠ 0) (hlive : heap.live info.tensor = some ts)
    (hlen : ctx.inputsInfo.length ≤ ts.length)
    (hrank : ∀ item ∈ ctx.inputsInfo, item.2.dims.length ≤ IE_TENSOR_MAX_RANK)
    (himg : ∀ (i : Nat) (item : String × InputInfo) (t : IETensorInfo), ctx.inputsInfo[i]? = some item → ts[i]? = some t →
      t.dataType = IE_DATA_TYPE_IMG → 2 ≤ item.2.dims.length)
    (htags : ∀ (i : Nat) (t : IETensorInfo), i < ctx.inputsInfo.length → ts[i]? = some t →
      t.precision ∈ precisionTags ∧ t.layout ∈ layoutTags) :
    ∃ ctx1 info1 heap1 ts1,
      setModelInputInfo ctx info heap = .ok ctx1 ∧
      (∀ (i : Nat) (item : String × InputInfo) (t : IETensorInfo),
        ctx.inputsInfo[i]? = some item → ts[i]? = some t →
        ∃ item1 : String × InputInfo, ctx1.inputsInfo[i]? = some item1 ∧
          item1.2.precision = getPrecisionByEnum t.precision ∧
          item1.2.layout = getLayoutByEnum t.layout) ∧
      getModelInputInfo ctx1 info heap = .ok (info1, heap1) ∧
      heap1.live info.tensor = some ts1 ∧
      ∀ (i : Nat) (t : IETensorInfo), i < ctx.inputsInfo.length → ts[i]? = some t →
        ∃ t1 : IETensorInfo, ts1[i]? = some t1 ∧ t1.precision = t.precision ∧ t1.layout = t.layout := by
  obtain ⟨items1, sz1, hset, hlen1, hspec⟩ :=
    setInputLoop_spec info.tensor heap ts hp hlive ctx.inputsInfo 0 ctx.inputImageSize
      (by omega)
      (fun k item t hk ht => himg k item t hk (by simpa using ht))
  have hrank1 : ∀ item ∈ items1, item.2.dims.length ≤ IE_TENSOR_MAX_RANK := by
    intro item1 hmem
    obtain ⟨k, hk, hget⟩ := List.getElem_of_mem hmem
    have hk0 : k < ctx.inputsInfo.length := by omega
    have hkt : k < ts.length := by omega
    have h := hspec k ctx.inputsInfo[k] ts[k] (List.getElem?_eq_getElem hk0)
      (by rw [Nat.zero_add]; exact List.getElem?_eq_getElem hkt)
    rw [List.getElem?_eq_getElem hk, hget] at h
    simp only [Option.some.injEq] at h
    subst h
    exact hrank ctx.inputsInfo[k] (List.getElem_mem hk0)
  obtain ⟨heap1, ts1, hget, hlive1, _, _, hgspec⟩ :=
    getInfoLoop_spec info.tensor hp items1 0 heap ts hlive (by omega) hrank1
  refine ⟨{ ctx with inputsInfo := items1, inputImageSize := sz1 },
    { info with batchSize := getBatchSize ctx % 2 ^ 32, numbers := items1.length % 2 ^ 32 },
    heap1, ts1, ?_, ?_, ?_, hlive1, ?_⟩
  · simp only [setModelInputInfo, hloaded, hp, hn, hset, bind, Except.bind, pure, Except.pure]
    simp
  · intro i item t hi ht
    exact ⟨_, hspec i item t hi (by simpa using ht), rfl, rfl⟩
  · simp only [getModelInputInfo, hloaded, hget, getBatchSize, bind, Except.bind, pure,
      Except.pure]
    simp
  · intro i t hi ht
    have h1 := hspec i ctx.inputsInfo[i] t (List.getElem?_eq_getElem hi) (by simpa using ht)
    obtain ⟨t1, ht1, hp1, hl1⟩ := hgspec i _ h1
    obtain ⟨htp, htl⟩ := htags i t hi ht
    refine ⟨t1, by simpa using ht1, ?_, ?_⟩
    · rw [hp1]
      exact precision_roundtrip _ htp
    · rw [hl1]
      exact layout_roundtrip _ htl

/-- C9 (witness). The one-input sample model and a one-element block holding
U8 / NHWC. -/
theorem bulk_input_set_get_witness :
    sampleCtx.bModelLoaded = true ∧
    (blockAt 1 [tagged IE_U8 IE_NHWC]).numbers = sampleCtx.inputsInfo.length ∧
    ∃ ctx1 info1 heap1 ts1,
      setModelInputInfo sampleCtx (blockAt 1 [tagged IE_U8 IE_NHWC])
        (heapWith [tagged IE_U8 IE_NHWC]) = .ok ctx1 ∧
      (∀ (i : Nat) (item : String × InputInfo) (t : IETensorInfo),
        sampleCtx.inputsInfo[i]? = some item →
        [tagged IE_U8 IE_NHWC][i]? = some t →
        ∃ item1 : String × InputInfo, ctx1.inputsInfo[i]? = some item1 ∧
          item1.2.precision = getPrecisionByEnum t.precision ∧
          item1.2.layout = getLayoutByEnum t.layout) ∧
      getModelInputInfo ctx1 (blockAt 1 [tagged IE_U8 IE_NHWC])
        (heapWith [tagged IE_U8 IE_NHWC]) = .ok (info1, heap1) ∧
      heap1.live (blockAt 1 [tagged IE_U8 IE_NHWC]).tensor = some ts1 ∧
      ∀ (i : Nat) (t : IETensorInfo), i < sampleCtx.inputsInfo.length →
        [tagged IE_U8 IE_NHWC][i]? = some t →
        ∃ t1 : IETensorInfo, ts1[i]? = some t1 ∧ t1.precision = t.precision ∧ t1.layout = t.layout :=
  ⟨rfl, rfl,
    bulk_input_set_get sampleCtx (blockAt 1 [tagged IE_U8 IE_NHWC])
      (heapWith [tagged IE_U8 IE_NHWC]) [tagged IE_U8 IE_NHWC] rfl rfl (by decide) rfl
      (by decide) (by decide)
      (by
        intro i item t hi ht hI
        cases i with
        | zero =>
          simp only [List.getElem?_cons_zero, Option.some.injEq] at ht
          subst ht
          exact absurd hI (by decide)
        | succ i => simp at ht)
      (by
        intro i t hi ht
        cases i with
        | zero =>
          simp only [List.getElem?_cons_zero, Option.some.injEq] at ht
          subst ht
          exact ⟨by decide, by decide⟩
        | succ i => simp at ht)⟩

/-- C9 (counterexample). A one-element block whose element holds precision `7`
and layout `5`, neither an enumerated tag, on the loaded one-input model: the
bulk set followed by the bulk get leaves `IE_UNSPECIFIED = 255` and
`IE_ANY = 0` in the element. -/
theorem bulk_input_set_get_unrecognised_tag :
    (do
      let ctx1 ← setModelInputInfo sampleCtx (blockAt 1 [tagged 7 5]) (heapWith [tagged 7 5])
      let r ← getModelInputInfo ctx1 (blockAt 1 [tagged 7 5]) (heapWith [tagged 7 5])
      pure ((r.2.live 1).map (fun l => l.map (fun t => (t.precision, t.layout))))
      : Except Fault _) = .ok (some [(255, 0)]) ∧
    (blockAt 1 [tagged 7 5]).numbers = sampleCtx.inputsInfo.length ∧
    (heapWith [tagged 7 5]).live (blockAt 1 [tagged 7 5]).tensor = some [tagged 7 5] := by
  refine ⟨rfl, rfl, rfl⟩

/-! ## Buffer marshaler -/

/-- C6 (evaluation at the failing input). Batch size `2`, a numeric U8 buffer
pushed at batch index `2`: the test `batchIdx > getBatchSize()` lets it
through and one byte of the execution buffer is overwritten, while batch
index `3` is rejected. On the image path (batch size `1`, batch index `1`)
the copy is likewise attempted and leaves the execution buffer. -/
theorem addInput_accepts_batch_size :
    getBatchSize batchCtx = 2 ∧
    addInput batchCtx 0 (some (numericData IE_U8 [2, 1] 2)) [7, 9] =
      .ok (putBlob batchCtx "data" { dims := [2, 2], buffer := [0, 0, 7, 0] }) ∧
    addInput batchCtx 0 (some (numericData IE_U8 [2, 1] 3)) [7, 9] = .ok batchCtx ∧
    getBatchSize imageCtx = 1 ∧
    addInput imageCtx 0 (some (planarImage 2 2 1 1)) [1, 2, 3, 4] = .error .invalidAccess ∧
    addInput imageCtx 0 (some (planarImage 2 2 1 2)) [1, 2, 3, 4] = .ok imageCtx := by
  refine ⟨rfl, rfl, rfl, rfl, rfl, rfl⟩

/-- C7 (evaluation at the failing input). A numeric U8 buffer of rank `2` with
dimensions `2` and `3`, so `E = 6`: the size loop keeps only the last
dimension, three bytes are copied instead of six, and at batch index `1` the
copy starts at element `3` instead of `6`. With a float destination the same
three are bytes, not elements. -/
theorem nonImageToBlob_copies_last_dimension :
    nonImageToBlob .u8 (numericData IE_U8 [2, 3] 0) [1, 2, 3, 4, 5, 6]
        { dims := [3, 2], buffer := List.replicate 6 0 } 0 =
      .ok { dims := [3, 2], buffer := [1, 2, 3, 0, 0, 0] } ∧
    nonImageToBlob .u8 (numericData IE_U8 [2, 3] 1) [1, 2, 3, 4, 5, 6]
        { dims := [3, 2, 2], buffer := List.replicate 12 0 } 1 =
      .ok { dims := [3, 2, 2], buffer := [0, 0, 0, 1, 2, 3, 0, 0, 0, 0, 0, 0] } ∧
    nonImageToBlob .f32 (numericData IE_FP32 [2, 3] 0)
        [1, 2, 3, 4, 5, 6, 7, 8, 9, 10, 11, 12, 13, 14, 15, 16, 17, 18, 19, 20, 21, 22, 23, 24]
        { dims := [3, 2], buffer := List.replicate 24 0 } 0 =
      .ok { dims := [3, 2], buffer := [1, 2, 3] ++ List.replicate 21 0 } := by
  refine ⟨rfl, rfl, rfl⟩

/-- C8 (evaluation at the failing input). Two outputs and a two-element block
holding FP32 / NCHW and U8 / NHWC: the loop of the bulk output set never
advances its index, so both outputs take the tags of element `0`, and
reading output `1` back gives `IE_FP32` and `IE_NCHW` instead of `IE_U8` and
`IE_NHWC`. -/
theorem bulk_output_set_uses_first_element :
    (setModelOutputInfo twoOutputCtx
        (blockAt 2 [tagged IE_FP32 IE_NCHW, tagged IE_U8 IE_NHWC])
        (heapWith [tagged IE_FP32 IE_NCHW, tagged IE_U8 IE_NHWC])).map
        (fun c => c.outputsInfo.map (fun e => (e.2.precision, e.2.layout))) =
      .ok [(Precision.FP32, Layout.NCHW), (Precision.FP32, Layout.NCHW)] ∧
    (do
      let c ← setModelOutputInfo twoOutputCtx
        (blockAt 2 [tagged IE_FP32 IE_NCHW, tagged IE_U8 IE_NHWC])
        (heapWith [tagged IE_FP32 IE_NCHW, tagged IE_U8 IE_NHWC])
      let d ← getModelOutputInfoAt c 1 IETensorInfo.zero
      pure (d.precision, d.layout) : Except Fault _) = .ok (IE_FP32, IE_NCHW) ∧
    ((tagged IE_U8 IE_NHWC).precision, (tagged IE_U8 IE_NHWC).layout) = (IE_U8, IE_NHWC) := by
  refine ⟨rfl, rfl, rfl⟩

/-! ## Translation tables -/

/-- C16. Precision translation is a round trip in both directions: every one of
the eleven distinct caller-facing precision tags `p` is returned by
`getEnumByPrecision (getPrecisionByEnum p)`, and every backend precision `q`
is returned by `getPrecisionByEnum (getEnumByPrecision q)`, its tag being one
of the eleven. -/
theorem precision_translation_roundtrip (p : IEPrecisionType) (q : Precision)
    (hp : p ∈ precisionTags) :
    getEnumByPrecision (getPrecisionByEnum p) = p ∧
    getPrecisionByEnum (getEnumByPrecision q) = q ∧
    getEnumByPrecision q ∈ precisionTags ∧
    precisionTags.length = 11 ∧ precisionTags.Nodup := by
  refine ⟨precision_roundtrip p hp, ?_, ?_, rfl, by decide⟩
  · cases q <;> rfl
  · cases q <;> decide

/-- C16 (witness). The tag `IE_FP16` and the backend precision `U16`. -/
theorem precision_translation_roundtrip_witness :
    IE_FP16 ∈ precisionTags ∧
    getEnumByPrecision (getPrecisionByEnum IE_FP16) = IE_FP16 ∧
    getPrecisionByEnum (getEnumByPrecision Precision.U16) = Precision.U16 ∧
    getEnumByPrecision Precision.U16 ∈ precisionTags ∧
    precisionTags.length = 11 ∧ precisionTags.Nodup :=
  ⟨by decide, precision_translation_roundtrip IE_FP16 Precision.U16 (by decide)⟩

/-- C17. Layout translation is a round trip in both directions: every one of
the ten distinct caller-facing layout tags `l` is returned by
`getEnumByLayout (getLayoutByEnum l)`, and every backend layout `m` is
returned by `getLayoutByEnum (getEnumByLayout m)`, its tag being one of the
ten. -/
theorem layout_translation_roundtrip (l : IELayoutType) (m : Layout)
    (hl : l ∈ layoutTags) :
    getEnumByLayout (getLayoutByEnum l) = l ∧
    getLayoutByEnum (getEnumByLayout m) = m ∧
    getEnumByLayout m ∈ layoutTags ∧
    layoutTags.length = 10 ∧ layoutTags.Nodup := by
  refine ⟨layout_roundtrip l hl, ?_, ?_, rfl, by decide⟩
  · cases m <;> rfl
  · cases m <;> decide

/-- C17 (witness). The tag `IE_BLOCKED` and the backend layout `CN`. -/
theorem layout_translation_roundtrip_witness :
    IE_BLOCKED ∈ layoutTags ∧
    getEnumByLayout (getLayoutByEnum IE_BLOCKED) = IE_BLOCKED ∧
    getLayoutByEnum (getEnumByLayout Layout.CN) = Layout.CN ∧
    getEnumByLayout Layout.CN ∈ layoutTags ∧
    layoutTags.length = 10 ∧ layoutTags.Nodup :=
  ⟨by decide, layout_translation_roundtrip IE_BLOCKED Layout.CN (by decide)⟩

/-- C18. Values that are not enumerated tags degrade to the default: for every
integer `p` outside the precision tags `getPrecisionByEnum p` is `UNSPECIFIED`,
for every integer `l` outside the layout tags `getLayoutByEnum l` is `ANY`,
for every integer `d` outside the device selectors `getDeviceFromId d` is the
CPU device; and each of the seven device selectors is sent to the backend
device of the same name. -/
theorem unrecognised_values_default (p : IEPrecisionType) (l : IELayoutType)
    (d : IETargetDeviceType) (hp : p ∉ precisionTags) (hl : l ∉ layoutTags)
    (hd : d ∉ deviceTags) :
    getPrecisionByEnum p = Precision.UNSPECIFIED ∧
    getLayoutByEnum l = Layout.ANY ∧
    getDeviceFromId d = TargetDevice.eCPU ∧
    getDeviceFromId IE_Default = TargetDevice.eDefault ∧
    getDeviceFromId IE_Balanced = TargetDevice.eBalanced ∧
    getDeviceFromId IE_CPU = TargetDevice.eCPU ∧
    getDeviceFromId IE_GPU = TargetDevice.eGPU ∧
    getDeviceFromId IE_FPGA = TargetDevice.eFPGA ∧
    getDeviceFromId IE_MYRIAD = TargetDevice.eMYRIAD ∧
    getDeviceFromId IE_HETERO = TargetDevice.eHETERO := by
  simp only [precisionTags, layoutTags, deviceTags, List.mem_cons, List.mem_singleton,
    List.not_mem_nil, or_false, not_or] at hp hl hd
  refine ⟨?_, ?_, ?_, rfl, rfl, rfl, rfl, rfl, rfl, rfl⟩
  · simp [getPrecisionByEnum, hp]
  · simp [getLayoutByEnum, hl]
  · simp [getDeviceFromId, hd]

/-- C18 (witness). The values `7`, `5` and `6` are not enumerated, nor is the
negative value `-1`. -/
theorem unrecognised_values_default_witness :
    (7 : Int) ∉ precisionTags ∧ (5 : Int) ∉ layoutTags ∧ (6 : Int) ∉ deviceTags ∧
    (-1 : Int) ∉ precisionTags ∧
    getPrecisionByEnum 7 = Precision.UNSPECIFIED ∧
    getLayoutByEnum 5 = Layout.ANY ∧
    getDeviceFromId 6 = TargetDevice.eCPU ∧
    getPrecisionByEnum (-1) = Precision.UNSPECIFIED :=
  ⟨by decide, by decide, by decide, by decide,
    (unrecognised_values_default 7 5 6 (by decide) (by decide) (by decide)).1,
    (unrecognised_values_default 7 5 6 (by decide) (by decide) (by decide)).2.1,
    (unrecognised_values_default 7 5 6 (by decide) (by decide) (by decide)).2.2.1,
    (unrecognised_values_default (-1) 5 6 (by decide) (by decide) (by decide)).1⟩

/-! ## Context lifecycle -/

theorem setModelInputInfo_flags (ctx ctx1 : CIEContext) (info : IEInputOutputInfo)
    (heap : Heap) (h : setModelInputInfo ctx info heap = .ok ctx1) :
    ctx1.bModelLoaded = ctx.bModelLoaded ∧ ctx1.bModelCreated = ctx.bModelCreated := by
  unfold setModelInputInfo at h
  split at h
  · injection h with h; subst h; exact ⟨rfl, rfl⟩
  · split at h
    · injection h with h; subst h; exact ⟨rfl, rfl⟩
    · split at h
      · injection h with h; subst h; exact ⟨rfl, rfl⟩
      · cases hs : setInputLoop info.tensor heap ctx.inputsInfo 0 ctx.inputImageSize with
        | error e => simp [hs, bind, Except.bind] at h
        | ok r =>
          simp only [hs, bind, Except.bind, pure, Except.pure] at h
          injection h with h; subst h; exact ⟨rfl, rfl⟩

theorem setModelOutputInfo_flags (ctx ctx1 : CIEContext) (info : IEInputOutputInfo)
    (heap : Heap) (h : setModelOutputInfo ctx info heap = .ok ctx1) :
    ctx1.bModelLoaded = ctx.bModelLoaded ∧ ctx1.bModelCreated = ctx.bModelCreated := by
  unfold setModelOutputInfo at h
  split at h
  · injection h with h; subst h; exact ⟨rfl, rfl⟩
  · split at h
    · injection h with h; subst h; exact ⟨rfl, rfl⟩
    · split at h
      · injection h with h; subst h; exact ⟨rfl, rfl⟩
      · cases hs : setOutputLoop info.tensor heap ctx.outputsInfo 0 with
        | error e => simp [hs, bind, Except.bind] at h
        | ok r =>
          simp only [hs, bind, Except.bind, pure, Except.pure] at h
          injection h with h; subst h; exact ⟨rfl, rfl⟩

theorem loadModel_flags (B : Backend) (ctx ctx1 : CIEContext) (config : IEConfig)
    (h : loadModel B ctx config = .ok ctx1) :
    ctx1.bModelCreated = ctx.bModelCreated ∧
      (ctx.bModelLoaded = true → ctx1.bModelLoaded = true) := by
  unfold loadModel at h
  split at h
  · injection h with h; subst h; exact ⟨rfl, id⟩
  · rename_i hl
    simp only at h
    split at h
    · cases h
    · split at h
      · cases h
      · split at h
        · cases h
        · split at h
          · cases h
          · split at h
            · injection h with h; subst h; exact ⟨rfl, fun hc => absurd hc hl⟩
            · split at h
              · cases h
              · injection h with h; subst h; exact ⟨rfl, fun _ => rfl⟩

theorem createModel_flags (B : Backend) (ctx ctx1 : CIEContext) (config : IEConfig)
    (heap : Heap) (h : createModel B ctx config heap = .ok ctx1) :
    ctx1.bModelLoaded = ctx.bModelLoaded ∧
      (ctx.bModelCreated = true → ctx1.bModelCreated = true) ∧
      (ctx1.bModelCreated = true → ctx.bModelCreated = true ∨ ctx.bModelLoaded = true) := by
  unfold createModel at h
  split at h
  · injection h with h; subst h; exact ⟨rfl, id, Or.inl⟩
  · rename_i hl
    split at h
    · injection h with h; subst h; exact ⟨rfl, id, Or.inl⟩
    · cases h1 : setModelInputInfo ctx config.inputInfos heap with
      | error e => simp [h1, bind, Except.bind] at h
      | ok c1 =>
        cases h2 : setModelOutputInfo c1 config.outputInfos heap with
        | error e => simp [h1, h2, bind, Except.bind] at h
        | ok c2 =>
          simp only [h1, h2, bind, Except.bind, pure, Except.pure] at h
          have f1 := setModelInputInfo_flags ctx c1 _ _ h1
          have f2 := setModelOutputInfo_flags c1 c2 _ _ h2
          split at h
          · cases h
          · injection h with h
            subst h
            refine ⟨by simp only; rw [f2.1, f1.1], fun _ => rfl, fun _ => Or.inr ?_⟩
            simpa using hl

theorem lifeStep_inv (B : Backend) (ctx ctx1 : CIEContext) (c : LifeCall)
    (h : lifeStep B ctx c = .ok ctx1) :
    (ctx.bModelLoaded = true → ctx1.bModelLoaded = true) ∧
    (ctx.bModelCreated = true → ctx1.bModelCreated = true) ∧
    ((ctx.bModelCreated = true → ctx.bModelLoaded = true) →
      (ctx1.bModelCreated = true → ctx1.bModelLoaded = true)) := by
  cases c with
  | load config =>
    obtain ⟨h1, h2⟩ := loadModel_flags B ctx ctx1 config h
    refine ⟨h2, fun hc => by rw [h1]; exact hc, fun hinv hc => ?_⟩
    rw [h1] at hc
    exact h2 (hinv hc)
  | create config heap =>
    obtain ⟨h1, h2, h3⟩ := createModel_flags B ctx ctx1 config heap h
    refine ⟨fun hl => by rw [h1]; exact hl, h2, fun hinv hc => ?_⟩
    rw [h1]
    rcases h3 hc with h4 | h4
    · exact hinv h4
    · exact h4

theorem lifeRun_inv (B : Backend) (calls : List LifeCall) :
    ∀ (ctx ctx1 : CIEContext), lifeRun B calls ctx = .ok ctx1 →
      (ctx.bModelCreated = true → ctx.bModelLoaded = true) →
      (ctx1.bModelCreated = true → ctx1.bModelLoaded = true) := by
  induction calls with
  | nil =>
    intro ctx ctx1 h hinv
    simp only [lifeRun] at h
    injection h with h
    subst h
    exact hinv
  | cons c cs ih =>
    intro ctx ctx1 h hinv
    simp only [lifeRun] at h
    cases hs : lifeStep B ctx c with
    | error e => simp [hs, bind, Except.bind] at h
    | ok ctx2 =>
      simp only [hs, bind, Except.bind] at h
      exact ih ctx2 ctx1 h ((lifeStep_inv B ctx ctx2 c hs).2.2 hinv)

theorem withConfig_created (B : Backend) (config : IEConfig) (ctx : CIEContext)
    (h : CIEContext.withConfig B config = .ok ctx) : ctx.bModelCreated = false := by
  unfold CIEContext.withConfig Init at h
  simp only [CIEContext.fresh, Bool.not_false, if_true] at h
  cases hl : loadModel B CIEContext.fresh config with
  | error e =>
    simp only [CIEContext.fresh] at hl
    simp [hl, bind, Except.bind] at h
  | ok c1 =>
    have f := (loadModel_flags B _ c1 config hl).1
    simp only [CIEContext.fresh] at hl
    simp only [hl, bind, Except.bind, pure, Except.pure] at h
    injection h with h
    subst h
    exact f

/-- C20. Lifecycle invariant. In every state `ctx` reached from a freshly
allocated context (either constructor) by a sequence of `loadModel` and
`createModel` calls that return, Created implies Loaded; a further call that
returns never turns the loaded or the created flag from true to false; and
`createModel` on a reached context that is not Loaded returns and leaves it
not Created. -/
theorem lifecycle_invariant (B : Backend) (config0 : IEConfig) (ctx0 ctx : CIEContext)
    (calls : List LifeCall)
    (hstart : ctx0 = IEAllocateContext ∨ CIEContext.withConfig B config0 = .ok ctx0)
    (hrun : lifeRun B calls ctx0 = .ok ctx) :
    (ctx.bModelCreated = true → ctx.bModelLoaded = true) ∧
    (∀ (c : LifeCall) (ctx1 : CIEContext), lifeStep B ctx c = .ok ctx1 →
      (ctx.bModelLoaded = true → ctx1.bModelLoaded = true) ∧
      (ctx.bModelCreated = true → ctx1.bModelCreated = true)) ∧
    (∀ (config : IEConfig) (heap : Heap), ctx.bModelLoaded = false →
      ∃ ctx1, createModel B ctx config heap = .ok ctx1 ∧ ctx1.bModelCreated = false) := by
  have h0 : ctx0.bModelCreated = true → ctx0.bModelLoaded = true := by
    rcases hstart with h | h
    · subst h
      intro hc
      exact absurd hc (by decide)
    · intro hc
      rw [withConfig_created B config0 ctx0 h] at hc
      exact absurd hc (by decide)
  have hinv := lifeRun_inv B calls ctx0 ctx hrun h0
  refine ⟨hinv, ?_, ?_⟩
  · intro c ctx1 hs
    exact ⟨(lifeStep_inv B ctx ctx1 c hs).1, (lifeStep_inv B ctx ctx1 c hs).2.1⟩
  · intro config heap hl
    refine ⟨ctx, by simp [createModel, hl], ?_⟩
    cases hc : ctx.bModelCreated with
    | false => rfl
    | true =>
      rw [hinv hc] at hl
      exact absurd hl (by decide)

/-- C20 (witness). From `IEAllocateContext()`: create (refused, not loaded),
load, create, load again; the run returns a context that is Loaded and
Created. -/
theorem lifecycle_invariant_witness :
    (lifeRun sampleBackend
        [.create emptyConfig Heap.empty, .load emptyConfig, .create emptyConfig Heap.empty,
         .load emptyConfig] IEAllocateContext).map
        (fun c => (c.bModelLoaded, c.bModelCreated)) = .ok (true, true) ∧
    ∃ ctx, lifeRun sampleBackend
        [.create emptyConfig Heap.empty, .load emptyConfig, .create emptyConfig Heap.empty,
         .load emptyConfig] IEAllocateContext = .ok ctx ∧
      (ctx.bModelCreated = true → ctx.bModelLoaded = true) ∧
      (∀ (c : LifeCall) (ctx1 : CIEContext), lifeStep sampleBackend ctx c = .ok ctx1 →
        (ctx.bModelLoaded = true → ctx1.bModelLoaded = true) ∧
        (ctx.bModelCreated = true → ctx1.bModelCreated = true)) ∧
      (∀ (config : IEConfig) (heap : Heap), ctx.bModelLoaded = false →
        ∃ ctx1, createModel sampleBackend ctx config heap = .ok ctx1 ∧
          ctx1.bModelCreated = false) :=
  ⟨rfl, _, rfl,
    lifecycle_invariant sampleBackend emptyConfig IEAllocateContext _
      [.create emptyConfig Heap.empty, .load emptyConfig, .create emptyConfig Heap.empty,
       .load emptyConfig] (Or.inl rfl) rfl⟩

/-- C19 (evaluation at the failing input). A configuration whose model path is
the empty string: `IELoadModel` on a context from `IEAllocateContext()`
returns with the loaded flag still false, while the context returned by
`IEAllocateContextWithConfig` has the loaded flag set although no network
was read (no inputs, no outputs, no file names). -/
theorem config_constructor_marks_loaded :
    emptyPathConfig.modelFileName = some "" ∧
    (IELoadModel sampleBackend IEAllocateContext emptyPathConfig).map
        (fun c => c.bModelLoaded) = .ok false ∧
    (IEAllocateContextWithConfig sampleBackend emptyPathConfig Heap.empty).map
        (fun r => (r.1.bModelLoaded, r.1.inputsInfo.length, r.1.outputsInfo.length,
          r.1.xmlFile)) = .ok (true, 0, 0, "") := by
  refine ⟨rfl, rfl, rfl⟩

/-! ## Buffer marshaler: dimension check -/

/-- C15. When `dim[0]` of the caller's descriptor differs from the blob's width
or `dim[1]` from the blob's height, `imageU8ToBlob` returns normally with the
blob unchanged, for every element type, image format and precision; width,
height and channel count are the first three entries of the blob's
dimensions. -/
theorem image_dimension_mismatch (T : ElemType) (data : IEData) (buffer : List Nat)
    (blob : Blob) (batchIndex : Int) (width height channels : Nat)
    (h0 : blob.dims[0]? = some width) (h1 : blob.dims[1]? = some height)
    (h2 : blob.dims[2]? = some channels)
    (hmis : data.tensor.dim.getD 0 0 ≠ width ∨ data.tensor.dim.getD 1 0 ≠ height) :
    imageU8ToBlob T data buffer blob batchIndex = .ok blob := by
  have hc : width ≠ data.tensor.dim.getD 0 0 ∨ height ≠ data.tensor.dim.getD 1 0 := by
    rcases hmis with h | h
    · exact Or.inl (Ne.symm h)
    · exact Or.inr (Ne.symm h)
  simp only [imageU8ToBlob, List.get?_eq_getElem?, h0, h1, h2]
  rw [if_pos hc]

/-- C15 (witness). A 3 x 2 planar image offered to the 2 x 2 input of the
sample image model. -/
theorem image_dimension_mismatch_witness :
    ((planarImage 3 2 1 0).tensor.dim.getD 0 0 ≠ 2 ∨
      (planarImage 3 2 1 0).tensor.dim.getD 1 0 ≠ 2) ∧
    imageU8ToBlob .u8 (planarImage 3 2 1 0) [1, 2, 3, 4, 5, 6]
      { dims := [2, 2, 1, 1], buffer := [0, 0, 0, 0] } 0 =
      .ok { dims := [2, 2, 1, 1], buffer := [0, 0, 0, 0] } :=
  ⟨by decide,
    image_dimension_mismatch .u8 (planarImage 3 2 1 0) [1, 2, 3, 4, 5, 6]
      { dims := [2, 2, 1, 1], buffer := [0, 0, 0, 0] } 0 2 2 1 rfl rfl rfl (by decide)⟩

/-! ## Index check -/

theorem nif_ok {α : Type} (a : α) : notIndexFault (Except.ok a : Except Fault α) := by
  intro h
  cases h

theorem nif_access {α : Type} :
    notIndexFault (Except.error Fault.invalidAccess : Except Fault α) := by
  intro h
  cases h

theorem nif_bind {α β : Type} (x : Except Fault α) (f : α → Except Fault β)
    (hx : notIndexFault x) (hf : ∀ a, notIndexFault (f a)) : notIndexFault (x >>= f) := by
  cases x with
  | error e =>
    intro h
    apply hx
    simpa [bind, Except.bind] using h
  | ok a => exact hf a

theorem memcpy_nif (dst : List Nat) (dOff : Int) (src : List Nat) (sOff n : Nat) :
    notIndexFault (memcpy dst dOff src sOff n) := by
  unfold memcpy
  split
  · exact nif_ok _
  · exact nif_access

theorem loopFrom_nif {σ : Type} (body : Nat → σ → Except Fault σ)
    (hb : ∀ i s, notIndexFault (body i s)) :
    ∀ (k i : Nat) (s : σ), notIndexFault (loopFrom body i k s) := by
  intro k
  induction k with
  | zero => intro i s; exact nif_ok _
  | succ k ih =>
    intro i s
    simp only [loopFrom]
    exact nif_bind _ _ (hb i s) (fun s1 => ih (i + 1) s1)

theorem forLoop_nif {σ : Type} (n : Nat) (body : Nat → σ → Except Fault σ)
    (hb : ∀ i s, notIndexFault (body i s)) (s : σ) : notIndexFault (forLoop n body s) :=
  loopFrom_nif body hb n 0 s

theorem sizeLoop_nif (dim : List Nat) :
    ∀ (k i size : Nat), notIndexFault (sizeLoop dim i k size) := by
  intro k
  induction k with
  | zero => intro i size; exact nif_ok _
  | succ k ih =>
    intro i size
    simp only [sizeLoop]
    split
    · split
      · exact ih _ _
      · exact nif_access
    · exact nif_access

theorem nonImageToBlob_nif (T : ElemType) (data : IEData) (buffer : List Nat) (blob : Blob)
    (batchIndex : Int) : notIndexFault (nonImageToBlob T data buffer blob batchIndex) := by
  unfold nonImageToBlob
  refine nif_bind _ _ (sizeLoop_nif _ _ _ _) (fun size => ?_)
  exact nif_bind _ _ (memcpy_nif _ _ _ _ _) (fun _ => nif_ok _)

theorem imageU8ToBlob_nif (T : ElemType) (data : IEData) (buffer : List Nat) (blob : Blob)
    (batchIndex : Int) : notIndexFault (imageU8ToBlob T data buffer blob batchIndex) := by
  unfold imageU8ToBlob
  split
  · simp only
    split
    · exact nif_ok _
    · split
      · split
        · exact nif_bind _ _ (memcpy_nif _ _ _ _ _) (fun _ => nif_ok _)
        · split
          · refine nif_bind _ _ (forLoop_nif _ _ (fun ch mem => memcpy_nif _ _ _ _ _) _)
              (fun _ => nif_ok _)
          · refine nif_bind _ _ (forLoop_nif _ _ (fun ch mem =>
              forLoop_nif _ _ (fun h mem => memcpy_nif _ _ _ _ _) _) _) (fun _ => nif_ok _)
      · split
        · refine nif_bind _ _ (forLoop_nif _ _ (fun h mem =>
            forLoop_nif _ _ (fun w mem => forLoop_nif _ _ (fun ch mem => ?_) _) _) _)
            (fun _ => nif_ok _)
          split
          · exact nif_access
          · exact memcpy_nif _ _ _ _ _
        · exact nif_ok _
  · exact nif_access

theorem GetBlob_nif (ctx : CIEContext) (name : String) : notIndexFault (GetBlob ctx name) := by
  unfold GetBlob
  split
  · exact nif_ok _
  · exact nif_access

theorem copyDims_nif (ds : List Nat) :
    ∀ (i : Nat) (dim : List Nat), notIndexFault (copyDims i ds dim) := by
  induction ds with
  | nil => intro i dim; exact nif_ok _
  | cons d ds ih =>
    intro i dim
    simp only [copyDims]
    split
    · exact ih _ _
    · exact nif_access

theorem describe_nif (item : Data) (info : IETensorInfo) :
    notIndexFault (describe item info) := by
  unfold describe
  exact nif_bind _ _ (copyDims_nif _ _ _) (fun _ => nif_ok _)

theorem check_fail (idx size : Nat) (h : size ≤ idx) :
    CHECK_INDEX idx size = .error .indexOutOfRange := by
  simp [CHECK_INDEX, h]

theorem check_pass (idx size : Nat) (h : idx < size) : CHECK_INDEX idx size = .ok () := by
  simp [CHECK_INDEX, h]

theorem addInput_nif (ctx : CIEContext) (idx : Nat) (data : Option IEData)
    (buffer : List Nat) (h : idx < ctx.inputsInfo.length) :
    notIndexFault (addInput ctx idx data buffer) := by
  simp only [addInput, check_pass _ _ h, bind, Except.bind]
  split
  · exact nif_ok _
  · split
    · exact nif_access
    · split
      · exact nif_ok _
      · split
        · exact nif_ok _
        · refine nif_bind _ _ (GetBlob_nif _ _) (fun blob => ?_)
          split
          · split
            · exact nif_bind _ _ (imageU8ToBlob_nif _ _ _ _ _) (fun _ => nif_ok _)
            · exact nif_bind _ _ (nonImageToBlob_nif _ _ _ _ _) (fun _ => nif_ok _)
          · split
            · exact nif_bind _ _ (imageU8ToBlob_nif _ _ _ _ _) (fun _ => nif_ok _)
            · exact nif_bind _ _ (nonImageToBlob_nif _ _ _ _ _) (fun _ => nif_ok _)

theorem getOutput_nif (ctx : CIEContext) (idx size : Nat) (h : idx < ctx.outputsInfo.length) :
    notIndexFault (getOutput ctx idx size) := by
  simp only [getOutput, check_pass _ _ h, bind, Except.bind]
  split
  · exact nif_access
  · split
    · exact nif_ok _
    · exact nif_bind _ _ (GetBlob_nif _ _) (fun _ => nif_ok _)

theorem getOutputInto_nif (ctx : CIEContext) (idx : Nat) (data : Option IEData)
    (h : idx < ctx.outputsInfo.length) : notIndexFault (getOutputInto ctx idx data) := by
  simp only [getOutputInto, check_pass _ _ h, bind, Except.bind]
  split
  · exact nif_ok _
  · split
    · exact nif_access
    · split
      · exact nif_ok _
      · exact nif_bind _ _ (GetBlob_nif _ _) (fun _ => nif_ok _)

theorem getInfoAt_nif (items : List (String × Data)) (idx : Nat) (info : IETensorInfo) :
    notIndexFault (match items.get? idx with
      | none => (Except.error Fault.invalidAccess : Except Fault IETensorInfo)
      | some item => describe item.2 info) := by
  split
  · exact nif_access
  · exact describe_nif _ _

/-- C11. For every index `idx` not below the input count, the per-index input
accessors (`getModelInputInfo`, `setModelInputInfo`, `addInput`) end in the
`Index out of range` error, and so do the per-index output accessors
(`getModelOutputInfo`, `setModelOutputInfo`, both forms of `getOutput`) for
every `idx` not below the output count; the error is the whole result, no
state is returned. For every `idx` below the respective count none of them
ends in that error. -/
theorem index_check (ctx : CIEContext) (idx : Nat) (info : IETensorInfo)
    (data : Option IEData) (buffer : List Nat) (size : Nat) :
    (ctx.inputsInfo.length ≤ idx →
      getModelInputInfoAt ctx idx info = .error .indexOutOfRange ∧
      setModelInputInfoAt ctx idx info = .error .indexOutOfRange ∧
      addInput ctx idx data buffer = .error .indexOutOfRange) ∧
    (ctx.outputsInfo.length ≤ idx →
      getModelOutputInfoAt ctx idx info = .error .indexOutOfRange ∧
      setModelOutputInfoAt ctx idx info = .error .indexOutOfRange ∧
      getOutput ctx idx size = .error .indexOutOfRange ∧
      getOutputInto ctx idx data = .error .indexOutOfRange) ∧
    (idx < ctx.inputsInfo.length →
      notIndexFault (getModelInputInfoAt ctx idx info) ∧
      notIndexFault (setModelInputInfoAt ctx idx info) ∧
      notIndexFault (addInput ctx idx data buffer)) ∧
    (idx < ctx.outputsInfo.length →
      notIndexFault (getModelOutputInfoAt ctx idx info) ∧
      notIndexFault (setModelOutputInfoAt ctx idx info) ∧
      notIndexFault (getOutput ctx idx size) ∧
      notIndexFault (getOutputInto ctx idx data)) := by
  refine ⟨fun h => ⟨?_, ?_, ?_⟩, fun h => ⟨?_, ?_, ?_, ?_⟩, fun h => ⟨?_, ?_, ?_⟩,
    fun h => ⟨?_, ?_, ?_, ?_⟩⟩
  · simp only [getModelInputInfoAt, check_fail _ _ h, bind, Except.bind]
  · simp only [setModelInputInfoAt, check_fail _ _ h, bind, Except.bind]
  · simp only [addInput, check_fail _ _ h, bind, Except.bind]
  · simp only [getModelOutputInfoAt, check_fail _ _ h, bind, Except.bind]
  · simp only [setModelOutputInfoAt, check_fail _ _ h, bind, Except.bind]
  · simp only [getOutput, check_fail _ _ h, bind, Except.bind]
  · simp only [getOutputInto, check_fail _ _ h, bind, Except.bind]
  · simp only [getModelInputInfoAt, check_pass _ _ h, bind, Except.bind]
    exact getInfoAt_nif _ _ _
  · simp only [setModelInputInfoAt, check_pass _ _ h, bind, Except.bind]
    exact nif_ok _
  · exact addInput_nif ctx idx data buffer h
  · simp only [getModelOutputInfoAt, check_pass _ _ h, bind, Except.bind]
    exact getInfoAt_nif _ _ _
  · simp only [setModelOutputInfoAt, check_pass _ _ h, bind, Except.bind]
    exact nif_ok _
  · exact getOutput_nif ctx idx size h
  · exact getOutputInto_nif ctx idx data h

/-- C11 (witness). The model with one input and one output: index `1` is out
of range for both maps and index `0` is in range; with index `0` the output
buffer of forty bytes at address `8192` is delivered. -/
theorem index_check_witness :
    outputCtx.inputsInfo.length ≤ 1 ∧ outputCtx.outputsInfo.length ≤ 1 ∧
    0 < outputCtx.inputsInfo.length ∧ 0 < outputCtx.outputsInfo.length ∧
    addInput outputCtx 1 (some (planarImage 2 2 1 0)) [1, 2, 3, 4] =
      .error .indexOutOfRange ∧
    getOutput outputCtx 1 0 = .error .indexOutOfRange ∧
    notIndexFault (addInput outputCtx 0 (some (planarImage 2 2 1 0)) [1, 2, 3, 4]) ∧
    notIndexFault (getOutput outputCtx 0 0) ∧
    getOutput outputCtx 0 0 = .ok (some 8192, 40) :=
  ⟨by decide, by decide, by decide, by decide,
    ((index_check outputCtx 1 IETensorInfo.zero (some (planarImage 2 2 1 0)) [1, 2, 3, 4]
      0).1 (by decide)).2.2,
    ((index_check outputCtx 1 IETensorInfo.zero (some (planarImage 2 2 1 0)) [1, 2, 3, 4]
      0).2.1 (by decide)).2.2.1,
    ((index_check outputCtx 0 IETensorInfo.zero (some (planarImage 2 2 1 0)) [1, 2, 3, 4]
      0).2.2.1 (by decide)).2.2,
    ((index_check outputCtx 0 IETensorInfo.zero (some (planarImage 2 2 1 0)) [1, 2, 3, 4]
      0).2.2.2 (by decide)).2.2.1,
    rfl⟩

/-! ## Buffer marshaler: planar copy into a float destination -/

set_option maxRecDepth 100000 in
/-- C12 (evaluation at the failing input). The 2 x 2, one-channel planar image
with bytes `1, 2, 3, 4`, pushed with precision FP32 at batch index `0` into a
destination of four floats: the single `memcpy` moves four bytes, so the
destination holds the bytes `1, 2, 3, 4` followed by twelve untouched zero
bytes instead of the encodings of `1.0, 2.0, 3.0, 4.0`; its first float is
`8585729 * 2 ^ (-142)` instead of `1`, the other three are `0`. -/
theorem planar_float_copy_moves_bytes :
    addInput (floatImageCtx 1) 0 (some (withPrecision (planarImage 2 2 1 0) IE_FP32))
        [1, 2, 3, 4] =
      .ok (putBlob (floatImageCtx 1) "data"
        { dims := [2, 2, 1, 1], buffer := [1, 2, 3, 4, 0, 0, 0, 0, 0, 0, 0, 0, 0, 0, 0, 0] }) ∧
    unscaled .f32 1 ++ unscaled .f32 2 ++ unscaled .f32 3 ++ unscaled .f32 4 =
      [0, 0, 128, 63, 0, 0, 0, 64, 0, 0, 64, 64, 0, 0, 128, 64] ∧
    f32Scaled [1, 2, 3, 4] = 8585729 * 2 ^ 7 ∧
    f32Scaled (unscaled .f32 1) = 2 ^ 149 ∧
    f32Scaled [0, 0, 0, 0] = 0 := by
  refine ⟨rfl, rfl, ?_, ?_, ?_⟩ <;> decide

/-! ## Buffer marshaler: image copies -/

theorem memcpy_spec (dst src : List Nat) (dOff : Int) (sOff n : Nat) (r : List Nat)
    (h : memcpy dst dOff src sOff n = .ok r) :
    0 ≤ dOff ∧ dOff.toNat + n ≤ dst.length ∧ sOff + n ≤ src.length ∧
    r.length = dst.length ∧
    ∀ i, r[i]? = if dOff.toNat ≤ i ∧ i < dOff.toNat + n then src[sOff + (i - dOff.toNat)]?
      else dst[i]? := by
  unfold memcpy at h
  split at h
  · rename_i hc
    obtain ⟨h0, h1, h2⟩ := hc
    injection h with h
    subst h
    refine ⟨h0, h1, h2, ?_, ?_⟩
    · simp only [List.length_append, List.length_take, List.length_drop]
      omega
    · intro i
      generalize dOff.toNat = d at h1 ⊢
      by_cases hi : i < d
      · have hc : ¬ (d ≤ i ∧ i < d + n) := by omega
        rw [if_neg hc, List.append_assoc, List.getElem?_append_left (by
          simp only [List.length_take]; omega)]
        rw [List.getElem?_take_of_lt hi]
      · by_cases hi2 : i < d + n
        · have hc : d ≤ i ∧ i < d + n := by omega
          rw [if_pos hc, List.append_assoc, List.getElem?_append_right (by
            simp only [List.length_take]; omega)]
          have hl : (List.take d dst).length = d := by
            simp only [List.length_take]; omega
          rw [hl, List.getElem?_append_left (by
            simp only [List.length_take, List.length_drop]; omega)]
          rw [List.getElem?_take_of_lt (by omega), List.getElem?_drop]
        · have hc : ¬ (d ≤ i ∧ i < d + n) := by omega
          rw [if_neg hc, List.getElem?_append_right (by
            simp only [List.length_append, List.length_take, List.length_drop]; omega)]
          rw [List.getElem?_drop]
          congr 1
          simp only [List.length_append, List.length_take, List.length_drop]
          omega
  · cases h

theorem memcpy_ok (dst src : List Nat) (dOff : Int) (sOff n : Nat)
    (h0 : 0 ≤ dOff) (h1 : dOff.toNat + n ≤ dst.length) (h2 : sOff + n ≤ src.length) :
    ∃ r, memcpy dst dOff src sOff n = .ok r := by
  unfold memcpy
  rw [if_pos ⟨h0, h1, h2⟩]
  exact ⟨_, rfl⟩

theorem memcpy_touches (lo : Nat) (dOff : Int) (src : List Nat) (sOff n : Nat)
    (hlo : (lo : Int) ≤ dOff) : Touches lo (fun m => memcpy m dOff src sOff n) := by
  intro m m1 h
  obtain ⟨h0, _, _, hlen, hget⟩ := memcpy_spec m src dOff sOff n m1 h
  refine ⟨hlen, fun i hi => ?_⟩
  rw [hget i]
  have : ¬ (dOff.toNat ≤ i ∧ i < dOff.toNat + n) := by omega
  rw [if_neg this]

theorem loopFrom_touches (lo : Nat) (body : Nat → List Nat → Except Fault (List Nat)) :
    ∀ (k i : Nat), (∀ j, i ≤ j → Touches lo (body j)) → Touches lo (loopFrom body i k) := by
  intro k
  induction k with
  | zero =>
    intro i _ m m1 h
    simp only [loopFrom] at h
    injection h with h
    subst h
    exact ⟨rfl, fun _ _ => rfl⟩
  | succ k ih =>
    intro i hb m m1 h
    simp only [loopFrom] at h
    cases hs : body i m with
    | error e => simp [hs, bind, Except.bind] at h
    | ok m2 =>
      simp only [hs, bind, Except.bind] at h
      obtain ⟨l1, f1⟩ := hb i (le_refl i) m m2 hs
      obtain ⟨l2, f2⟩ := ih (i + 1) (fun j hj => hb j (by omega)) m2 m1 h
      exact ⟨l2.trans l1, fun x hx => (f2 x hx).trans (f1 x hx)⟩

theorem forLoop_touches (lo n : Nat) (body : Nat → List Nat → Except Fault (List Nat))
    (hb : ∀ j, Touches lo (body j)) : Touches lo (forLoop n body) :=
  loopFrom_touches lo body n 0 (fun j _ => hb j)

theorem toInt32_small (x : Int) (h0 : 0 ≤ x) (h1 : x < 2 ^ 31) : toInt32 x = x := by
  unfold toInt32
  have h2 : x % 2 ^ 32 = x := Int.emod_eq_of_lt h0 (by omega)
  simp only [h2]
  rw [if_pos h1]

theorem firstElem_bind (a k : Nat) (buffer : List Nat) (V : Nat → List Nat)
    (g h : List Nat → Except Fault (List Nat)) (hg : FirstElem a k buffer V g)
    (hh : Touches (a + k) h) : FirstElem a k buffer V (fun m => g m >>= h) := by
  intro m m1 hrun
  cases hs : g m with
  | error e => simp [hs, bind, Except.bind] at hrun
  | ok m2 =>
    simp only [hs, bind, Except.bind] at hrun
    obtain ⟨p, hp, hv⟩ := hg m m2 hs
    obtain ⟨_, hf⟩ := hh m2 m1 hrun
    exact ⟨p, hp, fun j hj => (hf (a + j) (by omega)).trans (hv j hj)⟩

theorem forLoop_firstElem (a k n : Nat) (buffer : List Nat) (V : Nat → List Nat)
    (body : Nat → List Nat → Except Fault (List Nat))
    (h0 : FirstElem a k buffer V (body 0))
    (hrest : ∀ j, 1 ≤ j → Touches (a + k) (body j)) :
    FirstElem a k buffer V (forLoop (n + 1) body) :=
  firstElem_bind a k buffer V (body 0) (loopFrom body 1 n) h0
    (loopFrom_touches (a + k) body n 1 hrest)

theorem memcpy_firstElem (a n : Nat) (dOff : Int) (src : List Nat)
    (hd : dOff = (a : Int)) (hn : 1 ≤ n) :
    FirstElem a 1 src (fun p => [p]) (fun m => memcpy m dOff src 0 n) := by
  intro m m1 h
  obtain ⟨_, _, h2, _, hget⟩ := memcpy_spec m src dOff 0 n m1 h
  have hs : 0 < src.length := by omega
  refine ⟨src[0], List.getElem?_eq_getElem hs, fun j hj => ?_⟩
  have hj0 : j = 0 := by omega
  subst hj0
  subst hd
  rw [hget]
  simp only [Int.toNat_ofNat, Nat.add_zero, le_refl, true_and, Nat.sub_self]
  rw [if_pos (by omega)]
  simp [List.getElem?_eq_getElem hs]

theorem storeElem_touches (T : ElemType) (lo s : Nat) (k : Int) (buffer : List Nat)
    (V : Nat → List Nat) (hlo : (lo : Int) ≤ k * (T.size : Int)) :
    Touches lo (fun mem =>
      match buffer[s]? with
      | none => Except.error Fault.invalidAccess
      | some p => storeElem T mem k (V p)) := by
  intro m m1 h
  split at h
  · cases h
  · exact memcpy_touches lo _ _ 0 _ hlo m m1 h

theorem storeElem_firstElem (T : ElemType) (a0 : Nat) (k : Int) (buffer : List Nat)
    (V : Nat → List Nat) (hk : k = (a0 : Int)) :
    FirstElem (a0 * T.size) T.size buffer V (fun mem =>
      match buffer[0]? with
      | none => Except.error Fault.invalidAccess
      | some p => storeElem T mem k (V p)) := by
  intro m m1 h
  split at h
  · cases h
  · rename_i p hp
    refine ⟨p, hp, fun j hj => ?_⟩
    obtain ⟨_, _, _, _, hget⟩ := memcpy_spec m (V p) _ 0 _ m1 h
    subst hk
    rw [hget]
    have e : ((a0 : Int) * (T.size : Int)).toNat = a0 * T.size := by
      rw [← Int.natCast_mul, Int.toNat_ofNat]
    rw [e, if_pos (by omega)]
    congr 1
    omega

theorem bind_pure_blob (X : Except Fault (List Nat)) (blob blob1 : Blob)
    (h : (X >>= fun mem =>
      (pure { dims := blob.dims, buffer := mem, address := blob.address } : Except Fault Blob)) =
        .ok blob1) :
    ∃ mem, X = .ok mem ∧ blob1.buffer = mem := by
  cases X with
  | error e => simp [bind, Except.bind] at h
  | ok mem =>
    simp only [bind, Except.bind, pure, Except.pure] at h
    injection h with h
    subst h
    exact ⟨mem, rfl, rfl⟩

theorem bind_ok_blob (X : Except Fault (List Nat)) (blob : Blob) (mem : List Nat)
    (h : X = .ok mem) :
    (X >>= fun mem =>
      (pure { dims := blob.dims, buffer := mem, address := blob.address } : Except Fault Blob)) =
        .ok { dims := blob.dims, buffer := mem, address := blob.address } := by
  subst h
  rfl

theorem off_le (o x sz : Nat) (hx : 1 ≤ x) :
    ((o * sz + sz : Nat) : Int) ≤ ((o + x : Nat) : Int) * (sz : Int) := by
  have h : o * sz + sz ≤ (o + x) * sz := by
    calc o * sz + sz = (o + 1) * sz := by ring
      _ ≤ (o + x) * sz := Nat.mul_le_mul_right sz (by omega)
  exact_mod_cast h

theorem off_le_base (o x sz : Nat) :
    ((o * sz : Nat) : Int) ≤ ((o + x : Nat) : Int) * (sz : Int) := by
  have h : o * sz ≤ (o + x) * sz := Nat.mul_le_mul_right sz (by omega)
  exact_mod_cast h

theorem firstValue_length (T : ElemType) (p : Nat) : (firstValue T p).length = T.size := by
  cases T <;> rfl

/-- Where the image paths do start at the batch offset. For a non-empty image
that passes the dimension check, with `b * H * W * C` below `2 ^ 31` and the
element type chosen from the precision as `addInput` does: when
`imageU8ToBlob` returns, the destination keeps its length, no byte of a
destination element with index below `b * H * W * C` is changed, and, for an
8-bit destination and for the packed path, the element at exactly that index
holds the value of the first source byte: the byte itself for an 8-bit
destination, its rescaled value for the packed float path. The planar path
into a float destination is evaluated separately. -/
theorem image_copy_starts_at_batch_offset (T : ElemType) (data : IEData) (buffer : List Nat)
    (blob blob1 : Blob) (b W H C : Nat)
    (h0 : blob.dims[0]? = some W) (h1 : blob.dims[1]? = some H) (h2 : blob.dims[2]? = some C)
    (hmatch : data.tensor.dim.getD 0 0 = W ∧ data.tensor.dim.getD 1 0 = H)
    (hfmt : data.imageFormat = IE_IMAGE_BGR_PLANAR ∨ data.imageFormat = IE_IMAGE_BGR_PACKED)
    (hpos : 0 < W ∧ 0 < H ∧ 0 < C)
    (hoff : b * H * W * C < 2 ^ 31)
    (hT : T = .f32 ↔ data.tensor.precision = IE_FP32)
    (hrun : imageU8ToBlob T data buffer blob (b : Int) = .ok blob1) :
    blob1.buffer.length = blob.buffer.length ∧
    (∀ i, i < b * H * W * C * T.size → blob1.buffer[i]? = blob.buffer[i]?) ∧
    (T = .u8 ∨ data.imageFormat = IE_IMAGE_BGR_PACKED →
      ∃ p, buffer[0]? = some p ∧ ∀ j, j < T.size →
        blob1.buffer[b * H * W * C * T.size + j]? = (firstValue T p)[j]?) := by
  obtain ⟨hW, hH, hC⟩ := hpos
  have hb : toInt32 ((b : Int) * H * W * C) = ((b * H * W * C : Nat) : Int) := by
    rw [toInt32_small]
    · push_cast; rfl
    · positivity
    · exact_mod_cast hoff
  have hc : ¬ (W ≠ data.tensor.dim.getD 0 0 ∨ H ≠ data.tensor.dim.getD 1 0) := by
    rw [hmatch.1, hmatch.2]; simp
  have hV : (if data.tensor.precision = IE_FP32 then rescaled T else unscaled T) =
      firstValue T := by
    funext p
    cases T with
    | f32 => rw [if_pos (hT.mp rfl)]; rfl
    | u8 =>
      have : ¬ data.tensor.precision = IE_FP32 := fun h => by
        have := hT.mpr h
        cases this
      rw [if_neg this]; rfl
  simp only [imageU8ToBlob, List.get?_eq_getElem?, h0, h1, h2, if_neg hc, hb, hV] at hrun
  generalize ho : b * H * W * C = o at hrun ⊢
  have hWH : 1 ≤ W * H := Nat.mul_pos hW hH
  -- the two properties of the memory transformer of each branch
  suffices key : ∃ f : List Nat → Except Fault (List Nat), ∃ mem,
      f blob.buffer = .ok mem ∧ blob1.buffer = mem ∧ Touches (o * T.size) f ∧
      (T = .u8 ∨ data.imageFormat = IE_IMAGE_BGR_PACKED →
        FirstElem (o * T.size) T.size buffer (firstValue T) f) by
    obtain ⟨f, mem, hf, hm, ht, hfe⟩ := key
    obtain ⟨hl, hfr⟩ := ht blob.buffer mem hf
    rw [hm]
    exact ⟨hl, hfr, fun hcase => hfe hcase blob.buffer mem hf⟩
  split at hrun
  · rename_i hplanar
    have hu8 : T = .u8 ∨ data.imageFormat = IE_IMAGE_BGR_PACKED → T = .u8 := by
      intro h
      rcases h with h | h
      · exact h
      · rw [h] at hplanar
        exact absurd hplanar (by decide)
    split at hrun
    · obtain ⟨mem, hm, hbm⟩ := bind_pure_blob _ blob blob1 hrun
      refine ⟨fun m => memcpy m (↑o * ↑T.size) buffer 0 (W * H * C), mem, hm, hbm, ?_, ?_⟩
      · exact memcpy_touches _ _ _ _ _ (by push_cast; exact le_refl _)
      · intro hcase
        have hT8 := hu8 hcase
        subst hT8
        have := memcpy_firstElem (o * 1) (W * H * C) (↑o * ↑(ElemType.size .u8)) buffer
          (by simp [ElemType.size]) (Nat.mul_pos hWH hC)
        exact this
    · split at hrun
      · obtain ⟨mem, hm, hbm⟩ := bind_pure_blob _ blob blob1 hrun
        refine ⟨_, mem, hm, hbm, ?_, ?_⟩
        · refine forLoop_touches _ _ _ (fun ch => memcpy_touches _ _ _ _ _ ?_)
          have e : ((o : Int) + ↑ch * ↑(W * H)) = ((o + ch * (W * H) : Nat) : Int) := by
            push_cast; ring
          rw [e]
          exact off_le_base _ _ _
        · intro hcase
          have hT8 := hu8 hcase
          subst hT8
          obtain ⟨C', rfl⟩ : ∃ C', C = C' + 1 := ⟨C - 1, by omega⟩
          refine forLoop_firstElem _ _ _ _ _ _ ?_ ?_
          · intro m m1 h
            simp only [Nat.zero_mul] at h
            exact memcpy_firstElem (o * 1) (W * H) _ buffer (by simp [ElemType.size]) hWH
              m m1 h
          · intro ch hch
            refine memcpy_touches _ _ _ _ _ ?_
            have e : ((o : Int) + ↑ch * ↑(W * H)) = ((o + ch * (W * H) : Nat) : Int) := by
              push_cast; ring
            rw [e]
            exact off_le _ _ _ (Nat.mul_pos (by omega) hWH)
      · obtain ⟨mem, hm, hbm⟩ := bind_pure_blob _ blob blob1 hrun
        refine ⟨_, mem, hm, hbm, ?_, ?_⟩
        · refine forLoop_touches _ _ _ (fun ch =>
            forLoop_touches _ _ _ (fun h => memcpy_touches _ _ _ _ _ ?_))
          have e : ((o : Int) + ↑ch * ↑(W * H) + ↑h * ↑W) =
              ((o + (ch * (W * H) + h * W) : Nat) : Int) := by
            push_cast; ring
          rw [e]
          exact off_le_base _ _ _
        · intro hcase
          have hT8 := hu8 hcase
          subst hT8
          obtain ⟨C', rfl⟩ : ∃ C', C = C' + 1 := ⟨C - 1, by omega⟩
          obtain ⟨H', rfl⟩ : ∃ H', H = H' + 1 := ⟨H - 1, by omega⟩
          refine forLoop_firstElem _ _ _ _ _ _ ?_ ?_
          · refine forLoop_firstElem _ _ _ _ _ _ ?_ ?_
            · intro m m1 h
              simp only [Nat.zero_mul, Nat.zero_add] at h
              exact memcpy_firstElem (o * 1) W _ buffer (by simp [ElemType.size]) hW m m1 h
            · intro h hh
              refine memcpy_touches _ _ _ _ _ ?_
              have e : ((o : Int) + ↑(0 : Nat) * ↑(W * (H' + 1)) + ↑h * ↑W) =
                  ((o + h * W : Nat) : Int) := by
                push_cast; ring
              rw [e]
              exact off_le _ _ _ (Nat.mul_pos (by omega) hW)
          · intro ch hch
            refine forLoop_touches _ _ _ (fun h => memcpy_touches _ _ _ _ _ ?_)
            have e : ((o : Int) + ↑ch * ↑(W * (H' + 1)) + ↑h * ↑W) =
                ((o + (ch * (W * (H' + 1)) + h * W) : Nat) : Int) := by
              push_cast; ring
            rw [e]
            have : 1 ≤ ch * (W * (H' + 1)) := Nat.mul_pos (by omega) hWH
            exact off_le _ _ _ (by omega)
  · rename_i hnp
    have hpk : IE_IMAGE_BGR_PACKED = data.imageFormat := by
      rcases hfmt with h | h
      · exact absurd h.symm hnp
      · exact h.symm
    rw [if_pos hpk] at hrun
    obtain ⟨mem, hm, hbm⟩ := bind_pure_blob _ blob blob1 hrun
    refine ⟨_, mem, hm, hbm, ?_, ?_⟩
    · refine forLoop_touches _ _ _ (fun h => forLoop_touches _ _ _ (fun w =>
        forLoop_touches _ _ _ (fun ch => storeElem_touches _ _ _ _ _ _ ?_)))
      have e : ((o : Int) + ↑ch * ↑(W * H) + ↑h * ↑W + ↑w) =
          ((o + (ch * (W * H) + h * W + w) : Nat) : Int) := by
        push_cast; ring
      rw [e]
      exact off_le_base _ _ _
    · intro _
      obtain ⟨C', rfl⟩ : ∃ C', C = C' + 1 := ⟨C - 1, by omega⟩
      obtain ⟨H', rfl⟩ : ∃ H', H = H' + 1 := ⟨H - 1, by omega⟩
      obtain ⟨W', rfl⟩ : ∃ W', W = W' + 1 := ⟨W - 1, by omega⟩
      refine forLoop_firstElem _ _ _ _ _ _ ?_ ?_
      · refine forLoop_firstElem _ _ _ _ _ _ ?_ ?_
        · refine forLoop_firstElem _ _ _ _ _ _ ?_ ?_
          · have := storeElem_firstElem T o
              (↑o + ↑(0 : Nat) * ↑((W' + 1) * (H' + 1)) + ↑(0 : Nat) * ↑(W' + 1) + ↑(0 : Nat))
              buffer (firstValue T) (by simp)
            simpa using this
          · intro ch hch
            refine storeElem_touches _ _ _ _ _ _ ?_
            have e : ((o : Int) + ↑ch * ↑((W' + 1) * (H' + 1)) + ↑(0 : Nat) * ↑(W' + 1) +
                ↑(0 : Nat)) = ((o + ch * ((W' + 1) * (H' + 1)) : Nat) : Int) := by
              push_cast; ring
            rw [e]
            exact off_le _ _ _ (Nat.mul_pos (by omega) hWH)
        · intro w hw
          refine forLoop_touches _ _ _ (fun ch => storeElem_touches _ _ _ _ _ _ ?_)
          have e : ((o : Int) + ↑ch * ↑((W' + 1) * (H' + 1)) + ↑(0 : Nat) * ↑(W' + 1) + ↑w) =
              ((o + (ch * ((W' + 1) * (H' + 1)) + w) : Nat) : Int) := by
            push_cast; ring
          rw [e]
          exact off_le _ _ _ (by omega)
      · intro h hh
        refine forLoop_touches _ _ _ (fun w => forLoop_touches _ _ _ (fun ch =>
          storeElem_touches _ _ _ _ _ _ ?_))
        have e : ((o : Int) + ↑ch * ↑((W' + 1) * (H' + 1)) + ↑h * ↑(W' + 1) + ↑w) =
            ((o + (ch * ((W' + 1) * (H' + 1)) + h * (W' + 1) + w) : Nat) : Int) := by
          push_cast; ring
        rw [e]
        have : 1 ≤ h * (W' + 1) := Nat.mul_pos (by omega) (by omega)
        exact off_le _ _ _ (by omega)

theorem loopFrom_total {σ : Type} (body : Nat → σ → Except Fault σ) (P : Nat → σ → Prop) :
    ∀ (k i : Nat) (s : σ), P i s →
      (∀ j s1, i ≤ j → j < i + k → P j s1 → ∃ s2, body j s1 = .ok s2 ∧ P (j + 1) s2) →
      ∃ s1, loopFrom body i k s = .ok s1 ∧ P (i + k) s1 := by
  intro k
  induction k with
  | zero => intro i s h _; exact ⟨s, rfl, h⟩
  | succ k ih =>
    intro i s h hstep
    obtain ⟨s2, hb, hp⟩ := hstep i s (le_refl i) (by omega) h
    obtain ⟨s3, hl, hq⟩ := ih (i + 1) s2 hp (fun j s1 h1 h2 h3 =>
      hstep j s1 (by omega) (by omega) h3)
    refine ⟨s3, ?_, ?_⟩
    · simp only [loopFrom, hb, bind, Except.bind]
      exact hl
    · rw [show i + (k + 1) = i + 1 + k by omega]
      exact hq

theorem forLoop_total {σ : Type} (n : Nat) (body : Nat → σ → Except Fault σ)
    (P : Nat → σ → Prop) (s : σ) (h0 : P 0 s)
    (hstep : ∀ j s1, j < n → P j s1 → ∃ s2, body j s1 = .ok s2 ∧ P (j + 1) s2) :
    ∃ s1, forLoop n body s = .ok s1 ∧ P n s1 := by
  have := loopFrom_total body P n 0 s h0 (fun j s1 _ h2 h3 => hstep j s1 (by omega) h3)
  simpa [forLoop] using this

theorem inElem_unique (sz a a1 i : Nat) (h : InElem sz a i) (h1 : InElem sz a1 i) :
    a = a1 := by
  obtain ⟨l, u⟩ := h
  obtain ⟨l1, u1⟩ := h1
  by_contra hne
  rcases Nat.lt_or_gt_of_ne hne with hlt | hgt
  · have : (a + 1) * sz ≤ a1 * sz := Nat.mul_le_mul_right sz hlt
    rw [Nat.add_mul, Nat.one_mul] at this
    omega
  · have : (a1 + 1) * sz ≤ a * sz := Nat.mul_le_mul_right sz hgt
    rw [Nat.add_mul, Nat.one_mul] at this
    omega

theorem planar_lt (W H h w : Nat) (hh : h < H) (hw : w < W) : h * W + w < W * H := by
  have : (h + 1) * W ≤ H * W := Nat.mul_le_mul_right W hh
  rw [Nat.add_mul, Nat.one_mul, Nat.mul_comm H W] at this
  omega

theorem planarIndex_lt (W H C h w ch : Nat) (hh : h < H) (hw : w < W) (hc : ch < C) :
    ch * (W * H) + h * W + w < W * H * C := by
  have h1 := planar_lt W H h w hh hw
  have : (ch + 1) * (W * H) ≤ C * (W * H) := Nat.mul_le_mul_right _ hc
  rw [Nat.add_mul, Nat.one_mul, Nat.mul_comm C (W * H)] at this
  omega

theorem planarIndex_inj (W H h w ch h1 w1 ch1 : Nat) (hh : h < H) (hw : w < W)
    (hh1 : h1 < H) (hw1 : w1 < W)
    (e : ch * (W * H) + h * W + w = ch1 * (W * H) + h1 * W + w1) :
    h = h1 ∧ w = w1 ∧ ch = ch1 := by
  have a := planar_lt W H h w hh hw
  have a1 := planar_lt W H h1 w1 hh1 hw1
  have hc : ch = ch1 := by
    by_contra hne
    rcases Nat.lt_or_gt_of_ne hne with hlt | hgt
    · have : (ch + 1) * (W * H) ≤ ch1 * (W * H) := Nat.mul_le_mul_right _ hlt
      rw [Nat.add_mul, Nat.one_mul] at this
      omega
    · have : (ch1 + 1) * (W * H) ≤ ch * (W * H) := Nat.mul_le_mul_right _ hgt
      rw [Nat.add_mul, Nat.one_mul] at this
      omega
  subst hc
  have e2 : h * W + w = h1 * W + w1 := by omega
  have hh2 : h = h1 := by
    by_contra hne
    rcases Nat.lt_or_gt_of_ne hne with hlt | hgt
    · have : (h + 1) * W ≤ h1 * W := Nat.mul_le_mul_right _ hlt
      rw [Nat.add_mul, Nat.one_mul] at this
      omega
    · have : (h1 + 1) * W ≤ h * W := Nat.mul_le_mul_right _ hgt
      rw [Nat.add_mul, Nat.one_mul] at this
      omega
  subst hh2
  exact ⟨rfl, by omega, rfl⟩

theorem packed_step (T : ElemType) (V : Nat → List Nat) (buffer mem0 mem : List Nat)
    (o W H C rs cc h0 w0 c0 : Nat)
    (hV : ∀ p, (V p).length = T.size)
    (hsrc : ∀ h w ch, h < H → w < W → ch < C → h * rs + w * cc + ch < buffer.length)
    (hdst : (o + W * H * C) * T.size ≤ mem0.length)
    (hh : h0 < H) (hw : w0 < W) (hc : c0 < C)
    (hinv : PackedInv T.size V buffer mem0 o W H C rs cc h0 w0 c0 mem) :
    ∃ mem2,
      (match buffer[h0 * rs + w0 * cc + c0]? with
        | none => Except.error Fault.invalidAccess
        | some p => storeElem T mem
            ((o : Int) + (c0 : Int) * ((W * H : Nat) : Int) + (h0 : Int) * (W : Int) + (w0 : Int))
            (V p)) = .ok mem2 ∧
      PackedInv T.size V buffer mem0 o W H C rs cc h0 w0 (c0 + 1) mem2 := by
  obtain ⟨hlen, hval, hframe⟩ := hinv
  have hs := hsrc h0 w0 c0 hh hw hc
  have hp : buffer[h0 * rs + w0 * cc + c0]? = some buffer[h0 * rs + w0 * cc + c0] :=
    List.getElem?_eq_getElem hs
  have hk : ((o : Int) + (c0 : Int) * ((W * H : Nat) : Int) + (h0 : Int) * (W : Int) +
      (w0 : Int)) * (T.size : Int) =
      (((o + (c0 * (W * H) + h0 * W + w0)) * T.size : Nat) : Int) := by
    push_cast; ring
  have hidx := planarIndex_lt W H C h0 w0 c0 hh hw hc
  have hfit : (o + (c0 * (W * H) + h0 * W + w0)) * T.size + T.size ≤ mem.length := by
    have : (o + (c0 * (W * H) + h0 * W + w0) + 1) * T.size ≤ (o + W * H * C) * T.size :=
      Nat.mul_le_mul_right _ (by omega)
    rw [Nat.add_mul _ 1, Nat.one_mul] at this
    omega
  obtain ⟨mem2, hm⟩ := memcpy_ok mem (V buffer[h0 * rs + w0 * cc + c0])
    (((o + (c0 * (W * H) + h0 * W + w0)) * T.size : Nat) : Int) 0 T.size
    (Int.natCast_nonneg _) (by rw [Int.toNat_ofNat]; exact hfit) (by rw [hV]; omega)
  obtain ⟨_, _, _, hl2, hget⟩ := memcpy_spec _ _ _ _ _ _ hm
  rw [Int.toNat_ofNat] at hget
  refine ⟨mem2, ?_, hl2.trans hlen, ?_, ?_⟩
  · rw [hp]
    simp only [storeElem, hk]
    exact hm
  · intro h w ch hb
    obtain ⟨b1, b2, b3, b4⟩ := hb
    by_cases hnew : h = h0 ∧ w = w0 ∧ ch = c0
    · obtain ⟨rfl, rfl, rfl⟩ := hnew
      refine ⟨_, hp, fun j hj => ?_⟩
      rw [hget, if_pos (by omega)]
      congr 1
      omega
    · have hold : Before W H C h0 w0 c0 h w ch := by
        refine ⟨b1, b2, b3, ?_⟩
        rcases b4 with b4 | ⟨rfl, b4 | ⟨rfl, b4⟩⟩
        · exact Or.inl b4
        · exact Or.inr ⟨rfl, Or.inl b4⟩
        · refine Or.inr ⟨rfl, Or.inr ⟨rfl, ?_⟩⟩
          have : ch ≠ c0 := fun e => hnew ⟨rfl, rfl, e⟩
          omega
      obtain ⟨p, hp1, hv⟩ := hval h w ch hold
      refine ⟨p, hp1, fun j hj => ?_⟩
      rw [hget]
      have hne : ¬ ((o + (c0 * (W * H) + h0 * W + w0)) * T.size ≤
          (o + (ch * (W * H) + h * W + w)) * T.size + j ∧
          (o + (ch * (W * H) + h * W + w)) * T.size + j <
            (o + (c0 * (W * H) + h0 * W + w0)) * T.size + T.size) := by
        intro hin
        have e := inElem_unique T.size (o + (c0 * (W * H) + h0 * W + w0))
          (o + (ch * (W * H) + h * W + w)) _ hin ⟨by omega, by omega⟩
        have := planarIndex_inj W H h w ch h0 w0 c0 b1 b2 hh hw (by omega)
        exact hnew this
      rw [if_neg hne]
      exact hv j hj
  · intro i hi
    rw [hget]
    have hne : ¬ ((o + (c0 * (W * H) + h0 * W + w0)) * T.size ≤ i ∧
        i < (o + (c0 * (W * H) + h0 * W + w0)) * T.size + T.size) := by
      intro hin
      exact hi h0 w0 c0 ⟨hh, hw, hc, Or.inr ⟨rfl, Or.inr ⟨rfl, by omega⟩⟩⟩ hin
    rw [if_neg hne]
    apply hframe
    intro h w ch hb
    apply hi
    obtain ⟨b1, b2, b3, b4⟩ := hb
    refine ⟨b1, b2, b3, ?_⟩
    rcases b4 with b4 | ⟨rfl, b4 | ⟨rfl, b4⟩⟩
    · exact Or.inl b4
    · exact Or.inr ⟨rfl, Or.inl b4⟩
    · exact Or.inr ⟨rfl, Or.inr ⟨rfl, by omega⟩⟩

theorem packedInv_next_w (sz : Nat) (V : Nat → List Nat) (buffer mem0 mem : List Nat)
    (o W H C rs cc h0 w0 : Nat)
    (hinv : PackedInv sz V buffer mem0 o W H C rs cc h0 w0 C mem) :
    PackedInv sz V buffer mem0 o W H C rs cc h0 (w0 + 1) 0 mem := by
  obtain ⟨hlen, hval, hframe⟩ := hinv
  have conv : ∀ h w ch, Before W H C h0 (w0 + 1) 0 h w ch ↔ Before W H C h0 w0 C h w ch := by
    intro h w ch
    unfold Before
    constructor
    · rintro ⟨b1, b2, b3, b4⟩
      refine ⟨b1, b2, b3, ?_⟩
      rcases b4 with b4 | ⟨rfl, b4 | ⟨_, b4⟩⟩
      · exact Or.inl b4
      · by_cases e : w = w0
        · exact Or.inr ⟨rfl, Or.inr ⟨e, b3⟩⟩
        · exact Or.inr ⟨rfl, Or.inl (by omega)⟩
      · omega
    · rintro ⟨b1, b2, b3, b4⟩
      refine ⟨b1, b2, b3, ?_⟩
      rcases b4 with b4 | ⟨rfl, b4 | ⟨rfl, b4⟩⟩
      · exact Or.inl b4
      · exact Or.inr ⟨rfl, Or.inl (by omega)⟩
      · exact Or.inr ⟨rfl, Or.inl (by omega)⟩
  exact ⟨hlen, fun h w ch hb => hval h w ch ((conv h w ch).mp hb),
    fun i hi => hframe i (fun h w ch hb => hi h w ch ((conv h w ch).mpr hb))⟩

theorem packedInv_next_h (sz : Nat) (V : Nat → List Nat) (buffer mem0 mem : List Nat)
    (o W H C rs cc h0 : Nat)
    (hinv : PackedInv sz V buffer mem0 o W H C rs cc h0 W 0 mem) :
    PackedInv sz V buffer mem0 o W H C rs cc (h0 + 1) 0 0 mem := by
  obtain ⟨hlen, hval, hframe⟩ := hinv
  have conv : ∀ h w ch, Before W H C (h0 + 1) 0 0 h w ch ↔ Before W H C h0 W 0 h w ch := by
    intro h w ch
    unfold Before
    constructor
    · rintro ⟨b1, b2, b3, b4⟩
      refine ⟨b1, b2, b3, ?_⟩
      rcases b4 with b4 | ⟨_, b4 | ⟨_, b4⟩⟩
      · by_cases e : h = h0
        · exact Or.inr ⟨e, Or.inl b2⟩
        · exact Or.inl (by omega)
      · omega
      · omega
    · rintro ⟨b1, b2, b3, b4⟩
      refine ⟨b1, b2, b3, ?_⟩
      rcases b4 with b4 | ⟨rfl, _⟩
      · exact Or.inl (by omega)
      · exact Or.inl (by omega)
  exact ⟨hlen, fun h w ch hb => hval h w ch ((conv h w ch).mp hb),
    fun i hi => hframe i (fun h w ch hb => hi h w ch ((conv h w ch).mpr hb))⟩

theorem packed_loops_total (T : ElemType) (V : Nat → List Nat) (buffer mem0 : List Nat)
    (o W H C rs cc : Nat)
    (hV : ∀ p, (V p).length = T.size)
    (hsrc : ∀ h w ch, h < H → w < W → ch < C → h * rs + w * cc + ch < buffer.length)
    (hdst : (o + W * H * C) * T.size ≤ mem0.length) :
    ∃ mem,
      forLoop H (fun h mem =>
        forLoop W (fun w mem =>
          forLoop C (fun ch mem =>
            match buffer[h * rs + w * cc + ch]? with
            | none => Except.error Fault.invalidAccess
            | some p => storeElem T mem
                ((o : Int) + (ch : Int) * ((W * H : Nat) : Int) + (h : Int) * (W : Int) +
                  (w : Int)) (V p)) mem) mem) mem0 = .ok mem ∧
      PackedInv T.size V buffer mem0 o W H C rs cc H 0 0 mem := by
  refine forLoop_total H _ (fun h mem => PackedInv T.size V buffer mem0 o W H C rs cc h 0 0 mem)
    mem0 ?_ ?_
  · refine ⟨rfl, ?_, fun i _ => rfl⟩
    rintro h w ch ⟨_, _, _, b4⟩
    omega
  · intro h mem hh hinv
    obtain ⟨mem2, hrun, hinv2⟩ := forLoop_total W _
      (fun w mem => PackedInv T.size V buffer mem0 o W H C rs cc h w 0 mem) mem hinv
      (fun w mem1 hw hinv1 => by
        obtain ⟨mem3, hrun3, hinv3⟩ := forLoop_total C _
          (fun ch mem => PackedInv T.size V buffer mem0 o W H C rs cc h w ch mem) mem1 hinv1
          (fun ch mem4 hc hinv4 =>
            packed_step T V buffer mem0 mem4 o W H C rs cc h w ch hV hsrc hdst hh hw hc hinv4)
        exact ⟨mem3, hrun3, packedInv_next_w _ _ _ _ _ _ _ _ _ _ _ _ _ hinv3⟩)
    exact ⟨mem2, hrun, packedInv_next_h _ _ _ _ _ _ _ _ _ _ _ _ hinv2⟩

theorem elemAt_eq (mem v : List Nat) (sz k : Nat) (hv : v.length = sz)
    (h : ∀ j, j < sz → mem[k * sz + j]? = v[j]?) : elemAt mem sz k = v := by
  apply List.ext_getElem?
  intro j
  unfold elemAt
  by_cases hj : j < sz
  · rw [List.getElem?_take_of_lt hj, List.getElem?_drop]
    exact h j hj
  · rw [List.getElem?_eq_none (by simp only [List.length_take]; omega),
      List.getElem?_eq_none (by omega)]

set_option maxRecDepth 1000000 in
theorem rescaled_scaled :
    ∀ p, p < 256 → f32Scaled (rescaled .f32 p) = (2 * (p : Int) - 255) * 2 ^ 141 := by
  decide

theorem rescaled_value (p : Nat) (hp : p < 256) :
    f32Value (rescaled .f32 p) = ((p : ℚ) - 127.5) * 0.0078125 := by
  rw [f32Value, rescaled_scaled p hp]
  push_cast
  norm_num
  ring

theorem rescaled_length (T : ElemType) (p : Nat) : (rescaled T p).length = T.size := by
  cases T <;> rfl

/-- C14. Packed image copy into a float destination (`T = float`, precision
`IE_FP32`): when the row stride `dim[2] * dimStride[0]` fits 32 bits, the
source holds every byte the loops read and the destination holds the
`W * H * C` elements from element `b * H * W * C` on, the copy returns and, for every row `h`, column `w` and channel `ch`, the
destination element `b * H * W * C + ch * (W * H) + h * W + w` is the binary32
number `(p - 127.5) * 0.0078125`, `p` being the source byte at
`h * rowStride + w * dim[2] + ch`. -/
theorem packed_float_rescale (data : IEData) (buffer : List Nat) (blob : Blob)
    (b W H C : Nat)
    (h0 : blob.dims[0]? = some W) (h1 : blob.dims[1]? = some H) (h2 : blob.dims[2]? = some C)
    (hmatch : data.tensor.dim.getD 0 0 = W ∧ data.tensor.dim.getD 1 0 = H)
    (hfmt : data.imageFormat = IE_IMAGE_BGR_PACKED)
    (hprec : data.tensor.precision = IE_FP32)
    (hoff : b * H * W * C < 2 ^ 31)
    (hstride : data.tensor.dim.getD 2 0 * data.tensor.dimStride.getD 0 0 < 2 ^ 32)
    (hbytes : ∀ x ∈ buffer, x < 256)
    (hsrc : ∀ h w ch, h < H → w < W → ch < C →
      h * (data.tensor.dim.getD 2 0 * data.tensor.dimStride.getD 0 0) +
        w * data.tensor.dim.getD 2 0 + ch < buffer.length)
    (hdst : (b * H * W * C + W * H * C) * 4 ≤ blob.buffer.length) :
    ∃ blob1, imageU8ToBlob .f32 data buffer blob (b : Int) = .ok blob1 ∧
      ∀ h w ch, h < H → w < W → ch < C →
        ∃ p, buffer[h * (data.tensor.dim.getD 2 0 * data.tensor.dimStride.getD 0 0) +
              w * data.tensor.dim.getD 2 0 + ch]? = some p ∧
          elemAt blob1.buffer 4 (b * H * W * C + (ch * (W * H) + h * W + w)) =
            rescaled .f32 p ∧
          f32Value (elemAt blob1.buffer 4 (b * H * W * C + (ch * (W * H) + h * W + w))) =
            ((p : ℚ) - 127.5) * 0.0078125 := by
  have hb : toInt32 ((b : Int) * H * W * C) = ((b * H * W * C : Nat) : Int) := by
    rw [toInt32_small]
    · push_cast; rfl
    · positivity
    · exact_mod_cast hoff
  have hc : ¬ (W ≠ data.tensor.dim.getD 0 0 ∨ H ≠ data.tensor.dim.getD 1 0) := by
    rw [hmatch.1, hmatch.2]; simp
  have hnp : ¬ IE_IMAGE_BGR_PLANAR = data.imageFormat := by
    rw [hfmt]; decide
  obtain ⟨mem, hrun, hinv⟩ := packed_loops_total .f32 (rescaled .f32) buffer blob.buffer
    (b * H * W * C) W H C (data.tensor.dim.getD 2 0 * data.tensor.dimStride.getD 0 0)
    (data.tensor.dim.getD 2 0) (rescaled_length .f32) hsrc hdst
  refine ⟨{ blob with buffer := mem }, ?_, ?_⟩
  · simp only [imageU8ToBlob, List.get?_eq_getElem?, h0, h1, h2, if_neg hc, hb, if_neg hnp,
      if_pos hfmt.symm, if_pos hprec, Nat.mod_eq_of_lt hstride]
    exact bind_ok_blob _ blob mem hrun
  · intro h w ch hh hw hch
    obtain ⟨p, hp, hv⟩ := hinv.2.1 h w ch ⟨hh, hw, hch, Or.inl hh⟩
    have hmem : p ∈ buffer := by
      obtain ⟨hlt, heq⟩ := List.getElem?_eq_some_iff.mp hp
      rw [← heq]
      exact List.getElem_mem hlt
    have he := elemAt_eq mem (rescaled .f32 p) 4 _ (rescaled_length .f32 p) hv
    refine ⟨p, hp, he, ?_⟩
    show f32Value (elemAt mem 4 _) = _
    rw [he]
    exact rescaled_value p (hbytes p hmem)

/-- The 2 x 2, one-channel planar image with bytes `1, 2, 3, 4` pushed at batch
index `1` into an 8-bit destination of two batches: bytes `0..3` stay zero and
byte `4` receives the first source byte. -/
theorem image_copy_starts_at_batch_offset_witness :
    imageU8ToBlob .u8 (planarImage 2 2 1 1) [1, 2, 3, 4] twoBatchBlob ((1 : Nat) : Int) =
      .ok { dims := [2, 2, 1, 2], buffer := [0, 0, 0, 0, 1, 2, 3, 4] } ∧
    [0, 0, 0, 0, 1, 2, 3, 4].length = twoBatchBlob.buffer.length ∧
    (∀ i, i < 1 * 2 * 2 * 1 * ElemType.u8.size →
      [0, 0, 0, 0, 1, 2, 3, 4][i]? = twoBatchBlob.buffer[i]?) ∧
    (ElemType.u8 = .u8 ∨ (planarImage 2 2 1 1).imageFormat = IE_IMAGE_BGR_PACKED →
      ∃ p, [1, 2, 3, 4][0]? = some p ∧ ∀ j, j < ElemType.u8.size →
        [0, 0, 0, 0, 1, 2, 3, 4][1 * 2 * 2 * 1 * ElemType.u8.size + j]? =
          (firstValue .u8 p)[j]?) :=
  ⟨rfl,
    image_copy_starts_at_batch_offset .u8 (planarImage 2 2 1 1) [1, 2, 3, 4] twoBatchBlob
      { dims := [2, 2, 1, 2], buffer := [0, 0, 0, 0, 1, 2, 3, 4] } 1 2 2 1 rfl rfl rfl
      ⟨rfl, rfl⟩ (Or.inl rfl) ⟨by decide, by decide, by decide⟩ (by decide) (by decide) rfl⟩

/-- C13 (evaluation at the failing input). The 2 x 2, one-channel planar image
with bytes `1, 2, 3, 4`, pushed with precision FP32 at batch index `1` into a
destination of two batches of four floats: the four elements below index
`1 * 2 * 2 * 1 = 4` stay zero, and the element at index `4` receives the four
source bytes as its bit pattern, the number `8585729 * 2 ^ (-142)`, which is
neither the first pixel as a float (`1.0`, pattern `0, 0, 128, 63`) nor its
rescaled value (pattern `0, 0, 125, 191`); the remaining three elements stay
zero. The packed image of the same bytes delivers the rescaled value of the
first pixel at that index. -/
theorem planar_float_first_element :
    addInput (floatImageCtx 2) 0 (some (withPrecision (planarImage 2 2 1 1) IE_FP32))
        [1, 2, 3, 4] =
      .ok (putBlob (floatImageCtx 2) "data"
        { dims := [2, 2, 1, 2]
          buffer := List.replicate 16 0 ++ [1, 2, 3, 4] ++ List.replicate 12 0 }) ∧
    elemAt (List.replicate 16 0 ++ [1, 2, 3, 4] ++ List.replicate 12 0) 4 (1 * 2 * 2 * 1) =
      [1, 2, 3, 4] ∧
    unscaled .f32 1 = [0, 0, 128, 63] ∧
    rescaled .f32 1 = [0, 0, 125, 191] ∧
    f32Scaled [1, 2, 3, 4] = 8585729 * 2 ^ 7 ∧
    (addInput (floatImageCtx 2) 0 (some (withPrecision (packedImage 2 2 1 1) IE_FP32))
        [1, 2, 3, 4] >>= fun c => GetBlob c "data").map
        (fun blob => elemAt blob.buffer 4 (1 * 2 * 2 * 1)) = .ok (rescaled .f32 1) := by
  refine ⟨rfl, rfl, rfl, rfl, by decide, rfl⟩

/-- C14 (witness). The packed 1 x 1 pixel with channel bytes `127, 127, 127`:
every one of the three destination elements is the pattern `0, 0, 128, 187`,
the number `-0.00390625`. -/
theorem packed_float_rescale_witness :
    imageU8ToBlob .f32 pixelData [127, 127, 127] pixelBlob ((0 : Nat) : Int) =
      .ok { dims := [1, 1, 3, 1],
            buffer := [0, 0, 128, 187, 0, 0, 128, 187, 0, 0, 128, 187] } ∧
    f32Value [0, 0, 128, 187] = -0.00390625 ∧
    ∃ blob1, imageU8ToBlob .f32 pixelData [127, 127, 127] pixelBlob ((0 : Nat) : Int) =
        .ok blob1 ∧
      ∀ h w ch, h < 1 → w < 1 → ch < 3 →
        ∃ p, [127, 127, 127][h * (pixelData.tensor.dim.getD 2 0 *
              pixelData.tensor.dimStride.getD 0 0) +
              w * pixelData.tensor.dim.getD 2 0 + ch]? = some p ∧
          elemAt blob1.buffer 4 (0 * 1 * 1 * 3 + (ch * (1 * 1) + h * 1 + w)) =
            rescaled .f32 p ∧
          f32Value (elemAt blob1.buffer 4 (0 * 1 * 1 * 3 + (ch * (1 * 1) + h * 1 + w))) =
            ((p : ℚ) - 127.5) * 0.0078125 :=
  ⟨rfl,
    by
      have h := rescaled_value 127 (by decide)
      have e : rescaled .f32 127 = [0, 0, 128, 187] := rfl
      rw [e] at h
      rw [h]
      norm_num,
    packed_float_rescale pixelData [127, 127, 127] pixelBlob 0 1 1 3 rfl rfl rfl ⟨rfl, rfl⟩
      rfl rfl (by decide) (by decide) (by decide)
      (by
        intro h w ch hh hw hc
        show h * (3 * 1) + w * 3 + ch < 3
        omega)
      (by decide)⟩

/-! ## Translation tables: layout estimate; performance report -/

/-- C25. `estimateLayout` maps a dimension count of `4` to NCHW, `3` to CHW,
`2` to NC, and every other integer `n`, negative ones included, to ANY. -/
theorem estimateLayout_by_count (n : Int) :
    estimateLayout 4 = .NCHW ∧ estimateLayout 3 = .CHW ∧ estimateLayout 2 = .NC ∧
    (n ≠ 4 → n ≠ 3 → n ≠ 2 → estimateLayout n = .ANY) := by
  refine ⟨rfl, rfl, rfl, fun h4 h3 h2 => ?_⟩
  simp [estimateLayout, h4, h3, h2]

theorem toInt64_small (x : Int) (h0 : 0 ≤ x) (h1 : x < 2 ^ 63) : toInt64 x = x := by
  unfold toInt64
  have h2 : x % 2 ^ 64 = x := Int.emod_eq_of_lt h0 (by omega)
  simp only [h2]
  rw [if_pos h1]

theorem positiveTime_nonneg (m : List (List Nat × InferenceEngineProfileInfo)) :
    0 ≤ positiveTime m := by
  induction m with
  | nil => exact le_refl _
  | cons it rest ih =>
    unfold positiveTime
    split <;> omega

theorem perfLoop_total (m : List (List Nat × InferenceEngineProfileInfo)) :
    ∀ (text : List Nat) (t : Int), 0 ≤ t → t + positiveTime m < 2 ^ 63 →
      (perfLoop m text t).2 = t + positiveTime m := by
  induction m with
  | nil => intro text t _ _; simp [perfLoop, positiveTime]
  | cons it rest ih =>
    intro text t h0 h1
    have hr := positiveTime_nonneg rest
    unfold positiveTime at h1 ⊢
    unfold perfLoop
    by_cases hp : it.2.realTime_uSec > 0
    · rw [if_pos hp] at h1 ⊢
      rw [if_pos hp, toInt64_small _ (by omega) (by omega), ih _ _ (by omega) (by omega)]
      omega
    · rw [if_neg hp] at h1 ⊢
      rw [if_neg hp, ih _ _ h0 (by omega)]
      omega

theorem positive_eq_executed (m : List (List Nat × InferenceEngineProfileInfo))
    (h : ∀ it ∈ m, (it.2.status = .EXECUTED → 0 ≤ it.2.realTime_uSec) ∧
      (it.2.status ≠ .EXECUTED → it.2.realTime_uSec ≤ 0)) :
    positiveTime m = executedTime m := by
  induction m with
  | nil => rfl
  | cons it rest ih =>
    unfold positiveTime executedTime
    rw [ih (fun x hx => h x (List.mem_cons_of_mem _ hx))]
    obtain ⟨a, b⟩ := h it (List.mem_cons_self _ _)
    by_cases hs : it.2.status = .EXECUTED
    · rw [if_pos hs]
      have := a hs
      split <;> omega
    · rw [if_neg hs]
      have := b hs
      split <;> omega

/-- C24 (amended). The total that `printPerformanceCounts` computes and prints
in its last line is the sum of `realTime_uSec` over exactly those entries
whose recorded time is positive, whatever their status (for a sum below
`2 ^ 63`); it is the sum over the `EXECUTED` entries when no `EXECUTED` entry
has a negative time and no other entry has a positive one. -/
theorem total_sums_positive_times (m : List (List Nat × InferenceEngineProfileInfo))
    (bshowHeader : Bool) (hfit : positiveTime m < 2 ^ 63) :
    (printPerformanceCounts m bshowHeader).2 = positiveTime m ∧
    (∃ text, (printPerformanceCounts m bshowHeader).1 =
      text ++ setwLeft 20 (ascii "Total time: " ++ ascii (toString (positiveTime m))) ++
        ascii " microseconds\n") ∧
    ((∀ it ∈ m, (it.2.status = .EXECUTED → 0 ≤ it.2.realTime_uSec) ∧
        (it.2.status ≠ .EXECUTED → it.2.realTime_uSec ≤ 0)) →
      (printPerformanceCounts m bshowHeader).2 = executedTime m) := by
  have h := perfLoop_total m (if bshowHeader then ascii "\nperformance counts:\n\n" else []) 0
    (le_refl _) (by omega)
  rw [zero_add] at h
  refine ⟨h,
    ⟨(perfLoop m (if bshowHeader then ascii "\nperformance counts:\n\n" else []) 0).1, ?_⟩,
    fun hall => ?_⟩
  · show _ ++ setwLeft 20 (ascii "Total time: " ++ ascii (toString (perfLoop m _ 0).2)) ++ _ = _
    rw [h]
  · show (perfLoop m _ 0).2 = _
    rw [h]
    exact positive_eq_executed m hall

theorem setwLeft_length (n : Nat) (s : List Nat) (h : s.length ≤ n) :
    (setwLeft n s).length = n := by
  simp only [setwLeft, List.length_append, List.length_replicate]
  omega

theorem toPrint_length (name : List Nat) : (toPrint name).length < 30 := by
  unfold toPrint
  split
  · have h3 : (ascii "...").length = 3 := rfl
    simp only [List.length_append, List.length_take, h3]
    omega
  · omega

theorem perfLoop_text (m : List (List Nat × InferenceEngineProfileInfo)) :
    ∀ (text : List Nat) (t : Int),
      (perfLoop m text t).1 = text ++ (m.map (fun it => printRow it.1 it.2)).flatten := by
  induction m with
  | nil => intro text t; simp [perfLoop]
  | cons it rest ih =>
    intro text t
    simp only [perfLoop, ih, List.map_cons, List.flatten_cons, List.append_assoc]

/-- C30. The text `printPerformanceCounts` writes is the optional header, one
row per entry of the map in order, and the total line; the row of an entry
starts with its layer name as printed, padded to exactly 30 bytes, and the
name as printed is shorter than the maximum width of 30: a name of fewer than
30 bytes is printed unchanged, a name of 30 or more bytes as its first 26
bytes followed by `"..."`. Lengths are counted in bytes, as `std::string`
does. -/
theorem layer_name_width (m : List (List Nat × InferenceEngineProfileInfo))
    (bshowHeader : Bool) :
    (printPerformanceCounts m bshowHeader).1 =
      (if bshowHeader then ascii "\nperformance counts:\n\n" else []) ++
        (m.map (fun it => printRow it.1 it.2)).flatten ++
        setwLeft 20 (ascii "Total time: " ++
          ascii (toString (printPerformanceCounts m bshowHeader).2)) ++
        ascii " microseconds\n" ∧
    ∀ it ∈ m,
      printRow it.1 it.2 =
        setwLeft 30 (toPrint it.1) ++ (setwLeft 15 (statusText it.2.status) ++
          (setwLeft 30 (ascii "layerType: " ++ it.2.layer_type ++ ascii " ") ++
          (setwLeft 20 (ascii "realTime: " ++ ascii (toString it.2.realTime_uSec)) ++
          (setwLeft 20 (ascii " cpu: " ++ ascii (toString it.2.cpu_uSec)) ++
          (ascii " execType: " ++ (it.2.exec_type ++ ascii "\n")))))) ∧
      (setwLeft 30 (toPrint it.1)).length = 30 ∧
      (toPrint it.1).length < 30 ∧
      (it.1.length < 30 → toPrint it.1 = it.1) ∧
      (30 ≤ it.1.length → toPrint it.1 = it.1.take 26 ++ ascii "...") := by
  refine ⟨?_, fun it _ => ⟨?_, ?_, toPrint_length it.1, fun h => ?_, fun h => ?_⟩⟩
  · show (perfLoop m _ 0).1 ++ _ ++ _ = _
    rw [perfLoop_text]
    rfl
  · simp only [printRow, List.append_assoc]
  · exact setwLeft_length 30 _ (le_of_lt (toPrint_length it.1))
  · unfold toPrint
    rw [if_neg (by omega)]
  · unfold toPrint
    rw [if_pos h]

/-! ## Descriptor store: unloaded contexts and rank -/

/-- C21 (amended). On a context that is not Loaded, the bulk forms
`getModelInputInfo(block)` and `getModelOutputInfo(block)` return normally and
leave the block and the descriptor array unchanged; the per-index forms do
not test the loaded flag: they end in the `Index out of range` error, with no
descriptor written, for every index not below the count. -/
theorem unloaded_get_info (ctx : CIEContext) (idx : Nat) (d : IETensorInfo)
    (block : IEInputOutputInfo) (heap : Heap) (h : ctx.bModelLoaded = false) :
    getModelInputInfo ctx block heap = .ok (block, heap) ∧
    getModelOutputInfo ctx block heap = .ok (block, heap) ∧
    (ctx.inputsInfo.length ≤ idx → getModelInputInfoAt ctx idx d = .error .indexOutOfRange) ∧
    (ctx.outputsInfo.length ≤ idx →
      getModelOutputInfoAt ctx idx d = .error .indexOutOfRange) := by
  refine ⟨by simp [getModelInputInfo, h], by simp [getModelOutputInfo, h], fun hi => ?_,
    fun hi => ?_⟩
  · simp [getModelInputInfoAt, CHECK_INDEX, hi, bind, Except.bind]
  · simp [getModelOutputInfoAt, CHECK_INDEX, hi, bind, Except.bind]

theorem copyDims_frame (ds : List Nat) :
    ∀ (i : Nat) (dim : List Nat), i + ds.length ≤ IE_TENSOR_MAX_RANK →
      ∃ r, copyDims i ds dim = .ok r ∧ r.length = dim.length ∧
        ∀ j, (j < i ∨ i + ds.length ≤ j) → r[j]? = dim[j]? := by
  induction ds with
  | nil => intro i dim _; exact ⟨dim, rfl, rfl, fun _ _ => rfl⟩
  | cons d ds ih =>
    intro i dim h
    simp only [List.length_cons] at h
    have hi : i < IE_TENSOR_MAX_RANK := by omega
    obtain ⟨r, hr, hl, hf⟩ := ih (i + 1) (dim.set i (d % 2 ^ 32)) (by omega)
    refine ⟨r, ?_, ?_, ?_⟩
    · simp only [copyDims, if_pos hi]
      exact hr
    · simpa using hl
    · intro j hj
      simp only [List.length_cons] at hj
      rw [hf j (by omega), List.getElem?_set_ne (by omega)]

theorem describe_rank (item : Data) (info : IETensorInfo)
    (h : item.dims.length ≤ IE_TENSOR_MAX_RANK) :
    ∃ t, describe item info = .ok t ∧ RankBounded item info t := by
  have hm : item.dims.length % 2 ^ 32 = item.dims.length :=
    Nat.mod_eq_of_lt (lt_of_le_of_lt h (by decide))
  have ht : item.dims.take (item.dims.length % 2 ^ 32) = item.dims := by
    rw [hm, List.take_length]
  obtain ⟨r, hr, hl, hf⟩ := copyDims_frame item.dims 0 info.dim (by omega)
  refine ⟨{ info with
             rank := item.dims.length % 2 ^ 32
             dim := r
             precision := getEnumByPrecision item.precision
             layout := getEnumByLayout item.layout }, ?_, ?_⟩
  · simp only [describe, ht, hr, bind, Except.bind, pure, Except.pure]
  · refine ⟨hm, ?_, hl, fun j hj => hf j (Or.inr ?_), rfl⟩
    · show item.dims.length % 2 ^ 32 ≤ _
      rw [hm]; exact h
    · have : item.dims.length % 2 ^ 32 ≤ j := hj
      omega

theorem getInfoLoop_describe (p : Nat) (hp : p ≠ 0) :
    ∀ (items : List (String × Data)) (id : Nat) (heap : Heap) (ts : List IETensorInfo),
      heap.live p = some ts → id + items.length ≤ ts.length →
      (∀ item ∈ items, item.2.dims.length ≤ IE_TENSOR_MAX_RANK) →
      ∃ heap1 ts1, getInfoLoop p items id heap = .ok heap1 ∧ heap1.live p = some ts1 ∧
        ts1.length = ts.length ∧
        (∀ j, j < id → ts1[j]? = ts[j]?) ∧
        ∀ k item t, items[k]? = some item → ts[id + k]? = some t →
          ∃ t1, ts1[id + k]? = some t1 ∧ RankBounded item.2 t t1 := by
  intro items
  induction items with
  | nil =>
    intro id heap ts hlive _ _
    exact ⟨heap, ts, rfl, hlive, rfl, fun _ _ => rfl, by simp⟩
  | cons item rest ih =>
    intro id heap ts hlive hlen hrank
    simp only [List.length_cons] at hlen
    have hid : id < ts.length := by omega
    have ht : ts[id]? = some ts[id] := List.getElem?_eq_getElem hid
    have hload := load_live heap p id ts _ hp hlive ht
    obtain ⟨t1, hd, hrb⟩ :=
      describe_rank item.2 ts[id] (hrank item (List.mem_cons_self _ _))
    obtain ⟨heapA, hstore, hliveA⟩ := store_live heap p id ts t1 hp hlive hid
    obtain ⟨heapB, ts2, e, hliveB, hlenB, hframe, hspec⟩ :=
      ih (id + 1) heapA (ts.set id t1) hliveA (by simp; omega)
        (fun it hit => hrank it (List.mem_cons_of_mem _ hit))
    refine ⟨heapB, ts2, ?_, hliveB, by simpa using hlenB, ?_, ?_⟩
    · simp only [getInfoLoop, hload, hd, hstore, e, bind, Except.bind]
    · intro j hj
      rw [hframe j (by omega), List.getElem?_set_ne (by omega)]
    · intro k item1 t hk htk
      cases k with
      | zero =>
        simp only [List.getElem?_cons_zero, Option.some.injEq] at hk
        subst hk
        rw [Nat.add_zero, ht] at htk
        simp only [Option.some.injEq] at htk
        subst htk
        refine ⟨t1, ?_, hrb⟩
        rw [Nat.add_zero, hframe id (by omega), List.getElem?_set_self hid]
      | succ k =>
        simp only [List.getElem?_cons_succ] at hk
        have htk2 : (ts.set id t1)[id + 1 + k]? = some t := by
          rw [List.getElem?_set_ne (by omega), show id + 1 + k = id + (k + 1) by omega]
          exact htk
        obtain ⟨t2, h1, h2⟩ := hspec k item1 t hk htk2
        refine ⟨t2, ?_, h2⟩
        rw [show id + (k + 1) = id + 1 + k by omega]
        exact h1

theorem getInfoAt_rank (items : List (String × Data)) (idx : Nat) (d : IETensorInfo)
    (item : String × Data) (hrank : ∀ item ∈ items, item.2.dims.length ≤ IE_TENSOR_MAX_RANK)
    (hitem : items[idx]? = some item) :
    ∃ d1, (do
        CHECK_INDEX idx items.length
        match items.get? idx with
        | none => Except.error Fault.invalidAccess
        | some item => describe item.2 d) = Except.ok d1 ∧ RankBounded item.2 d d1 := by
  obtain ⟨hlt, heq⟩ := List.getElem?_eq_some_iff.mp hitem
  have hmem : item ∈ items := heq ▸ List.getElem_mem hlt
  obtain ⟨d1, hd, hrb⟩ := describe_rank item.2 d (hrank item hmem)
  refine ⟨d1, ?_, hrb⟩
  simp only [check_pass _ _ hlt, List.get?_eq_getElem?, hitem, bind, Except.bind]
  exact hd

/-- C23 (amended). On a model whose inputs and outputs have at most
`IE_TENSOR_MAX_RANK` dimensions, the per-index `getModelInputInfo` /
`getModelOutputInfo` return for every valid index, and the bulk forms return
on a Loaded context for a live array holding at least as many descriptors as
the model has tensors; every descriptor they write reports the number of
dimensions as its rank, at most `IE_TENSOR_MAX_RANK`, and keeps every `dim`
slot from `rank` on (and the whole `dimStride` array) as it was. -/
theorem get_info_respects_max_rank (ctx : CIEContext) (d : IETensorInfo)
    (info : IEInputOutputInfo) (heap : Heap) (ts : List IETensorInfo)
    (hin : ∀ item ∈ ctx.inputsInfo, item.2.dims.length ≤ IE_TENSOR_MAX_RANK)
    (hout : ∀ item ∈ ctx.outputsInfo, item.2.dims.length ≤ IE_TENSOR_MAX_RANK)
    (hp : info.tensor ≠ 0) (hlive : heap.live info.tensor = some ts) :
    (∀ (idx : Nat) (item : String × InputInfo), ctx.inputsInfo[idx]? = some item →
      ∃ d1, getModelInputInfoAt ctx idx d = .ok d1 ∧ RankBounded item.2 d d1) ∧
    (∀ (idx : Nat) (item : String × Data), ctx.outputsInfo[idx]? = some item →
      ∃ d1, getModelOutputInfoAt ctx idx d = .ok d1 ∧ RankBounded item.2 d d1) ∧
    (ctx.bModelLoaded = true → ctx.inputsInfo.length ≤ ts.length →
      ∃ info1 heap1 ts1, getModelInputInfo ctx info heap = .ok (info1, heap1) ∧
        heap1.live info.tensor = some ts1 ∧
        ∀ (k : Nat) (item : String × InputInfo) (t : IETensorInfo),
          ctx.inputsInfo[k]? = some item → ts[k]? = some t →
          ∃ t1, ts1[k]? = some t1 ∧ RankBounded item.2 t t1) ∧
    (ctx.bModelLoaded = true → ctx.outputsInfo.length ≤ ts.length →
      ∃ info1 heap1 ts1, getModelOutputInfo ctx info heap = .ok (info1, heap1) ∧
        heap1.live info.tensor = some ts1 ∧
        ∀ (k : Nat) (item : String × Data) (t : IETensorInfo),
          ctx.outputsInfo[k]? = some item → ts[k]? = some t →
          ∃ t1, ts1[k]? = some t1 ∧ RankBounded item.2 t t1) := by
  refine ⟨fun idx item hi => getInfoAt_rank ctx.inputsInfo idx d item hin hi,
    fun idx item hi => getInfoAt_rank ctx.outputsInfo idx d item hout hi,
    fun hl hlen => ?_, fun hl hlen => ?_⟩
  · obtain ⟨heap1, ts1, e, hl1, _, _, hspec⟩ :=
      getInfoLoop_describe info.tensor hp ctx.inputsInfo 0 heap ts hlive (by omega) hin
    refine ⟨{ info with
               batchSize := getBatchSize ctx % 2 ^ 32
               numbers := ctx.inputsInfo.length % 2 ^ 32 }, heap1, ts1, ?_, hl1,
      fun k item t hk ht => ?_⟩
    · simp only [getModelInputInfo, hl, e, bind, Except.bind, pure, Except.pure]
      rfl
    · have := hspec k item t hk (by rw [Nat.zero_add]; exact ht)
      rw [Nat.zero_add] at this
      exact this
  · obtain ⟨heap1, ts1, e, hl1, _, _, hspec⟩ :=
      getInfoLoop_describe info.tensor hp ctx.outputsInfo 0 heap ts hlive (by omega) hout
    refine ⟨{ info with
               batchSize := 0
               numbers := ctx.outputsInfo.length % 2 ^ 32 }, heap1, ts1, ?_, hl1,
      fun k item t hk ht => ?_⟩
    · simp only [getModelOutputInfo, hl, e, bind, Except.bind, pure, Except.pure]
      rfl
    · have := hspec k item t hk (by rw [Nat.zero_add]; exact ht)
      rw [Nat.zero_add] at this
      exact this

/-! ## Context lifecycle: model files; image size -/

theorem rfind_none (c : Char) (l : List Char) (h : c ∉ l) : rfind c l = none := by
  induction l with
  | nil => rfl
  | cons x xs ih =>
    have hx : x ≠ c := fun e => h (e ▸ List.mem_cons_self _ _)
    have hxs : c ∉ xs := fun e => h (List.mem_cons_of_mem _ e)
    simp [rfind, ih hxs, hx]

theorem rfind_last (c : Char) (b e : List Char) (h : c ∉ e) :
    rfind c (b ++ c :: e) = some b.length := by
  induction b with
  | nil => simp [rfind, rfind_none c e h]
  | cons x xs ih => simp [rfind, ih]

theorem GetFileNameNoExt_strips (b e : String) (h : '.' ∉ e.data) :
    GetFileNameNoExt (b ++ "." ++ e) = b := by
  have hd : (b ++ "." ++ e).data = b.data ++ '.' :: e.data := by
    simp [String.data_append]
  unfold GetFileNameNoExt
  rw [hd, rfind_last '.' b.data e.data h]
  simp

theorem GetFileNameNoExt_plain (p : String) (h : '.' ∉ p.data) : GetFileNameNoExt p = p := by
  unfold GetFileNameNoExt
  rw [rfind_none '.' p.data h]

/-- C29. For a path `b ++ "." ++ e` whose `e` contains no `'.'`,
`GetFileNameNoExt` returns `b`; for a path `p` that contains no `'.'` it
returns `p`; and `loadModel` on a context that is not Loaded, given such a
model path and collaborators that succeed, reads the structure from
`b ++ ".xml"` and the weights from `b ++ ".bin"`. -/
theorem model_files_from_base_path (B : Backend) (ctx : CIEContext) (config : IEConfig)
    (b e p : String) (network : Network)
    (he : '.' ∉ e.data) (hp : '.' ∉ p.data)
    (hctx : ctx.bModelLoaded = false)
    (hname : config.modelFileName = some (b ++ "." ++ e))
    (hplugin : B.getPluginByDevice (getDeviceFromId config.targetId) = true)
    (hcpu : ∀ s, config.cpuExtPath = some s → B.makeExtension s = true)
    (hgpu : ∀ s, config.cldnnExtPath = some s → B.setConfig s = true)
    (hread : B.readNetwork (b ++ ".xml") (b ++ ".bin") = some network) :
    GetFileNameNoExt (b ++ "." ++ e) = b ∧ GetFileNameNoExt p = p ∧
    ∃ ctx1, loadModel B ctx config = .ok ctx1 ∧ ctx1.bModelLoaded = true ∧
      ctx1.xmlFile = b ++ ".xml" ∧ ctx1.binFile = b ++ ".bin" := by
  have hs := GetFileNameNoExt_strips b e he
  refine ⟨hs, GetFileNameNoExt_plain p hp, ?_⟩
  have hne : b ++ "." ++ e ≠ "" := by
    intro h
    have := congrArg String.data h
    simp [String.data_append] at this
  refine ⟨{ ctx with
             targetDevice := getDeviceFromId config.targetId
             xmlFile := b ++ ".xml"
             binFile := b ++ ".bin"
             inputsInfo := network.inputsInfo
             outputsInfo := network.outputsInfo
             batchSize := network.batchSize
             bModelLoaded := true }, ?_, rfl, rfl, rfl⟩
  unfold loadModel
  cases hc : config.cpuExtPath with
  | none =>
    cases hg : config.cldnnExtPath with
    | none => simp [hctx, hplugin, hname, hs, hread, hne]
    | some g => simp [hctx, hplugin, hname, hs, hread, hne, hgpu g hg]
  | some c =>
    cases hg : config.cldnnExtPath with
    | none => simp [hctx, hplugin, hname, hs, hread, hne, hcpu c hc]
    | some g => simp [hctx, hplugin, hname, hs, hread, hne, hcpu c hc, hgpu g hg]

theorem setInputLoop_no_image (p : Nat) (heap : Heap) (ts : List IETensorInfo) (hp : p ≠ 0)
    (hlive : heap.live p = some ts) :
    ∀ (items items1 : List (String × InputInfo)) (id : Nat) (sz sz1 : IEImageSize),
      setInputLoop p heap items id sz = .ok (items1, sz1) →
      (∀ k t, k < items.length → ts[id + k]? = some t → t.dataType ≠ IE_DATA_TYPE_IMG) →
      sz1 = sz := by
  intro items
  induction items with
  | nil =>
    intro items1 id sz sz1 h _
    simp only [setInputLoop] at h
    injection h with h
    injection h with _ h2
    exact h2.symm
  | cons item rest ih =>
    intro items1 id sz sz1 h hno
    simp only [setInputLoop] at h
    cases hl : heap.load p id with
    | error e => simp [hl, bind, Except.bind] at h
    | ok t =>
      have ht : ts[id]? = some t := by
        simp only [Heap.load, hp, hlive, if_false, List.get?_eq_getElem?] at hl
        cases hg : ts[id]? with
        | none => simp [hg] at hl
        | some t2 =>
          simp only [hg] at hl
          injection hl with hl
          rw [hl]
      have hni : t.dataType ≠ IE_DATA_TYPE_IMG := hno 0 t (by simp) (by simpa using ht)
      simp only [hl, bind, Except.bind, if_neg hni] at h
      cases hr : setInputLoop p heap rest (id + 1) sz with
      | error e => simp [hr] at h
      | ok r =>
        obtain ⟨rest1, sz2⟩ := r
        simp only [hr, pure, Except.pure] at h
        injection h with h
        injection h with _ h2
        subst h2
        exact ih rest1 (id + 1) sz sz2 hr (fun k t2 hk htk =>
          hno (k + 1) t2 (by simp; omega) (by
            rw [show id + (k + 1) = id + 1 + k by omega]; exact htk))

theorem load_elem (heap : Heap) (p i : Nat) (ts : List IETensorInfo) (t : IETensorInfo)
    (hp : p ≠ 0) (hlive : heap.live p = some ts) (hl : heap.load p i = .ok t) :
    ts[i]? = some t := by
  simp only [Heap.load, hp, hlive, if_false, List.get?_eq_getElem?] at hl
  cases hg : ts[i]? with
  | none => simp [hg] at hl
  | some t2 =>
    simp only [hg] at hl
    injection hl with hl
    rw [hl]

theorem setInputLoop_cons (p : Nat) (heap : Heap) (item : String × InputInfo)
    (rest items1 : List (String × InputInfo)) (id : Nat) (sz sz1 : IEImageSize)
    (h : setInputLoop p heap (item :: rest) id sz = .ok (items1, sz1)) :
    ∃ t rest1 szm, heap.load p id = .ok t ∧
      setInputLoop p heap rest (id + 1) szm = .ok (rest1, sz1) ∧
      (t.dataType ≠ IE_DATA_TYPE_IMG → szm = sz) ∧
      (t.dataType = IE_DATA_TYPE_IMG →
        szm = { width := item.2.dims.getD 0 0 % 2 ^ 32,
                height := item.2.dims.getD 1 0 % 2 ^ 32 }) := by
  simp only [setInputLoop] at h
  cases hl : heap.load p id with
  | error e => simp [hl, bind, Except.bind] at h
  | ok t =>
    simp only [hl, bind, Except.bind] at h
    by_cases hI : t.dataType = IE_DATA_TYPE_IMG
    · rw [if_pos hI] at h
      simp only [List.get?_eq_getElem?] at h
      cases h1 : item.2.dims[1]? with
      | none => simp [h1] at h
      | some hh =>
        cases h0 : item.2.dims[0]? with
        | none => simp [h1, h0] at h
        | some ww =>
          simp only [h1, h0] at h
          cases hr : setInputLoop p heap rest (id + 1)
              { width := ww % 2 ^ 32, height := hh % 2 ^ 32 } with
          | error e =>
            rw [hr] at h
            exact absurd h (by simp)
          | ok r =>
            obtain ⟨rest1, sz2⟩ := r
            simp only [hr, pure, Except.pure] at h
            injection h with h
            injection h with _ h2
            subst h2
            refine ⟨t, rest1, _, rfl, hr, fun hn => absurd hI hn, fun _ => ?_⟩
            simp [List.getD_eq_getElem?_getD, h1, h0]
    · rw [if_neg hI] at h
      cases hr : setInputLoop p heap rest (id + 1) sz with
      | error e => simp [hr] at h
      | ok r =>
        obtain ⟨rest1, sz2⟩ := r
        simp only [hr, pure, Except.pure] at h
        injection h with h
        injection h with _ h2
        subst h2
        exact ⟨t, rest1, sz, rfl, hr, fun _ => rfl, fun hy => absurd hy hI⟩

theorem setInputLoop_last_image (p : Nat) (heap : Heap) (ts : List IETensorInfo) (hp : p ≠ 0)
    (hlive : heap.live p = some ts) :
    ∀ (items items1 : List (String × InputInfo)) (id : Nat) (sz sz1 : IEImageSize),
      setInputLoop p heap items id sz = .ok (items1, sz1) →
      ∀ (k : Nat) (item : String × InputInfo) (t : IETensorInfo),
        items[k]? = some item → ts[id + k]? = some t → t.dataType = IE_DATA_TYPE_IMG →
        (∀ j t1, k < j → j < items.length → ts[id + j]? = some t1 →
          t1.dataType ≠ IE_DATA_TYPE_IMG) →
        sz1 = { width := item.2.dims.getD 0 0 % 2 ^ 32,
                height := item.2.dims.getD 1 0 % 2 ^ 32 } := by
  intro items
  induction items with
  | nil => intro items1 id sz sz1 _ k item t hk; simp at hk
  | cons item0 rest ih =>
    intro items1 id sz sz1 h k item t hk htk hI hlast
    obtain ⟨t0, rest1, szm, hl, hr, hn, hy⟩ := setInputLoop_cons p heap item0 rest items1 id sz sz1 h
    have ht0 := load_elem heap p id ts t0 hp hlive hl
    cases k with
    | zero =>
      simp only [List.getElem?_cons_zero, Option.some.injEq] at hk
      subst hk
      rw [Nat.add_zero, ht0] at htk
      simp only [Option.some.injEq] at htk
      subst htk
      rw [← hy hI]
      exact setInputLoop_no_image p heap ts hp hlive rest rest1 (id + 1) szm sz1 hr
        (fun j t1 hj htj => hlast (j + 1) t1 (by omega) (by simp; omega) (by
          rw [show id + (j + 1) = id + 1 + j by omega]; exact htj))
    | succ k =>
      simp only [List.getElem?_cons_succ] at hk
      exact ih rest1 (id + 1) szm sz1 hr k item t hk (by
          rw [show id + 1 + k = id + (k + 1) by omega]; exact htk) hI
        (fun j t1 hj hjl htj => hlast (j + 1) t1 (by omega) (by simp; omega) (by
          rw [show id + (j + 1) = id + 1 + j by omega]; exact htj))

/-- C22 (amended). On a Loaded context, for a block of matching count whose
array is live (model inputs met by an image-kind element having at least two
dimensions), the bulk `setModelInputInfo` returns; when no element is
image-kind the cached input image size is unchanged; when element `i` is the
last image-kind element the cached size is taken from the dimensions of model
input `i` itself, height from `getDims()[1]` and width from `getDims()[0]`,
which are `block.tensor[i].dim[1]` and `dim[0]` when the block element holds
the dimensions of that input. -/
theorem bulk_set_image_size (ctx : CIEContext) (info : IEInputOutputInfo) (heap : Heap)
    (ts : List IETensorInfo)
    (hloaded : ctx.bModelLoaded = true)
    (hn : info.numbers = ctx.inputsInfo.length)
    (hp : info.tensor ≠ 0) (hlive : heap.live info.tensor = some ts)
    (hlen : ctx.inputsInfo.length ≤ ts.length)
    (himg : ∀ (i : Nat) (item : String × InputInfo) (t : IETensorInfo),
      ctx.inputsInfo[i]? = some item → ts[i]? = some t →
      t.dataType = IE_DATA_TYPE_IMG → 2 ≤ item.2.dims.length) :
    ∃ ctx1, setModelInputInfo ctx info heap = .ok ctx1 ∧
      ((∀ (i : Nat) (t : IETensorInfo), i < ctx.inputsInfo.length → ts[i]? = some t →
          t.dataType ≠ IE_DATA_TYPE_IMG) →
        ctx1.inputImageSize = ctx.inputImageSize) ∧
      ∀ (i : Nat) (item : String × InputInfo) (t : IETensorInfo),
        ctx.inputsInfo[i]? = some item → ts[i]? = some t → t.dataType = IE_DATA_TYPE_IMG →
        (∀ (j : Nat) (t1 : IETensorInfo), i < j → j < ctx.inputsInfo.length →
          ts[j]? = some t1 → t1.dataType ≠ IE_DATA_TYPE_IMG) →
        ctx1.inputImageSize = { width := item.2.dims.getD 0 0 % 2 ^ 32,
                                height := item.2.dims.getD 1 0 % 2 ^ 32 } ∧
        (t.dim.getD 0 0 = item.2.dims.getD 0 0 % 2 ^ 32 ∧
            t.dim.getD 1 0 = item.2.dims.getD 1 0 % 2 ^ 32 →
          ctx1.inputImageSize = { width := t.dim.getD 0 0, height := t.dim.getD 1 0 }) := by
  obtain ⟨items1, sz1, e, _, _⟩ := setInputLoop_spec info.tensor heap ts hp hlive
    ctx.inputsInfo 0 ctx.inputImageSize (by omega) (fun k item t hk ht =>
      himg k item t hk (by rw [Nat.zero_add] at ht; exact ht))
  have hrun : setModelInputInfo ctx info heap =
      .ok { ctx with inputsInfo := items1, inputImageSize := sz1 } := by
    simp only [setModelInputInfo, hloaded, hp, hn, e, bind, Except.bind, pure, Except.pure]
    simp
  refine ⟨_, hrun, fun hno => ?_, fun i item t hi ht hI hlast => ?_⟩
  · exact setInputLoop_no_image info.tensor heap ts hp hlive ctx.inputsInfo items1 0 _ sz1 e
      (fun k t hk htk => hno k t hk (by rw [Nat.zero_add] at htk; exact htk))
  · have hsz : sz1 = { width := item.2.dims.getD 0 0 % 2 ^ 32,
                       height := item.2.dims.getD 1 0 % 2 ^ 32 } :=
      setInputLoop_last_image info.tensor heap ts hp hlive ctx.inputsInfo items1 0 _ sz1 e
        i item t hi (by rw [Nat.zero_add]; exact ht) hI
        (fun j t1 hj hjl htj => hlast j t1 hj hjl (by rw [Nat.zero_add] at htj; exact htj))
    refine ⟨hsz, fun hd => ?_⟩
    show sz1 = _
    rw [hsz, hd.1, hd.2]

/-! ## Descriptor store: what an allocation leaves -/

theorem zeroFields_all (n : Nat) (l : List Nat) :
    ∀ off, off + 4 * l.length ≤ n → zeroFields n off l = List.replicate l.length 0 := by
  induction l with
  | nil => intro off _; rfl
  | cons w ws ih =>
    intro off h
    simp only [List.length_cons] at h
    simp only [zeroFields, List.length_cons, List.replicate_succ]
    rw [if_pos (by omega), ih (off + 4) (by omega)]

theorem zeroBytes_full (n : Nat) (t : IETensorInfo) (hn : sizeofIETensorInfo ≤ n)
    (hd : t.dim.length = 12) (hs : t.dimStride.length = 12) :
    t.zeroBytes n = IETensorInfo.zero := by
  have h112 : sizeofIETensorInfo = 112 := rfl
  rw [h112] at hn
  unfold IETensorInfo.zeroBytes IETensorInfo.zero
  rw [zeroFields_all n t.dim 4 (by omega), zeroFields_all n t.dimStride 52 (by omega), hd, hs,
    if_pos (by omega), if_pos (by omega), if_pos (by omega), if_pos (by omega)]

theorem zeroDescriptors_full (junk : IETensorInfo) (hd : junk.dim.length = 12)
    (hs : junk.dimStride.length = 12) :
    ∀ k, zeroDescriptors (k * sizeofIETensorInfo) (List.replicate k junk) =
      List.replicate k IETensorInfo.zero := by
  intro k
  induction k with
  | zero => rfl
  | succ k ih =>
    simp only [List.replicate_succ, zeroDescriptors]
    rw [zeroBytes_full _ junk (by rw [Nat.succ_mul]; omega) hd hs]
    have : (k + 1) * sizeofIETensorInfo - sizeofIETensorInfo = k * sizeofIETensorInfo := by
      rw [Nat.succ_mul]; omega
    rw [this, ih]

theorem allocateFresh_zero (size : Nat) (info : IEInputOutputInfo) (heap : Heap)
    (hfit : size * sizeofIETensorInfo < 2 ^ 32)
    (hjunk : heap.junk.dim.length = 12 ∧ heap.junk.dimStride.length = 12) :
    allocateFresh size info heap =
      .ok ({ info with
             tensor := heap.brk + 1
             header := { bufSize := size * sizeofIETensorInfo, bufId := heap.brk + 1 } },
           { brk := heap.brk + 1 + size * sizeofIETensorInfo
             live := Function.update heap.live (heap.brk + 1)
               (some (List.replicate size IETensorInfo.zero))
             junk := heap.junk
             log := heap.log ++ [HeapEvent.malloc (heap.brk + 1) (size * sizeofIETensorInfo)] }) := by
  have hm : size * sizeofIETensorInfo % 2 ^ 32 = size * sizeofIETensorInfo :=
    Nat.mod_eq_of_lt hfit
  have h1 : size * sizeofIETensorInfo / sizeofIETensorInfo = size :=
    Nat.mul_div_cancel size (by decide)
  have hle : size * sizeofIETensorInfo ≤
      (List.replicate size heap.junk).length * sizeofIETensorInfo := by
    rw [List.length_replicate]
  simp only [allocateFresh, Heap.malloc, Heap.memset0, Function.update_same,
    Nat.succ_ne_zero, if_false, hm, h1, if_pos hle, bind, Except.bind, pure, Except.pure,
    Function.update_idem, zeroDescriptors_full heap.junk hjunk.1 hjunk.2 size]

theorem allocateInfo_spec (size : Nat) (info : IEInputOutputInfo) (heap : Heap)
    (hfit : size * sizeofIETensorInfo < 2 ^ 32)
    (hjunk : heap.junk.dim.length = 12 ∧ heap.junk.dimStride.length = 12)
    (hwf : ∀ p ts, heap.live p = some ts → p ≤ heap.brk)
    (hown : ownsArray heap info) :
    ∃ info1 heap1, allocateInfo size info heap = .ok (info1, heap1) ∧
      heap1.junk = heap.junk ∧ heap.brk ≤ heap1.brk ∧
      (∀ p, p ≤ heap.brk → p ≠ info.tensor → heap1.live p = heap.live p) ∧
      (∀ p ts, heap1.live p = some ts → p ≤ heap1.brk) ∧
      (info.tensor = 0 ∨ size ≠ info.numbers →
        freshBlock size heap heap1 info1 ∧ heap.brk < info1.tensor) := by
  have hnone : heap.live (heap.brk + 1) = none := by
    cases hl : heap.live (heap.brk + 1) with
    | none => rfl
    | some ts => have := hwf _ ts hl; omega
  by_cases hp : info.tensor = 0
  · have e : allocateInfo size info heap = allocateFresh size info heap := by
      simp only [allocateInfo, if_pos hp]
    rw [e, allocateFresh_zero size info heap hfit hjunk]
    refine ⟨_, _, rfl, rfl, by show heap.brk ≤ heap.brk + 1 + _; omega, fun p hp1 _ => ?_,
      fun p ts hl => ?_, fun _ => ⟨⟨rfl, rfl, Nat.succ_ne_zero _, hnone, ?_⟩, Nat.lt_succ_self _⟩⟩
    · show Function.update heap.live (heap.brk + 1) _ p = _
      rw [Function.update_noteq (by omega)]
    · have hl2 : Function.update heap.live (heap.brk + 1)
          (some (List.replicate size IETensorInfo.zero)) p = some ts := hl
      show p ≤ heap.brk + 1 + _
      by_cases hpe : p = heap.brk + 1
      · omega
      · rw [Function.update_noteq hpe] at hl2
        have := hwf p ts hl2
        omega
    · show Function.update heap.live (heap.brk + 1) _ (heap.brk + 1) = _
      rw [Function.update_same]
  · by_cases hn : size ≠ info.numbers
    · rcases hown with h0 | ⟨ts0, hl0⟩
      · exact absurd h0 hp
      · have hfree : heap.free info.tensor =
            .ok { heap with live := Function.update heap.live info.tensor none,
                            log := heap.log ++ [HeapEvent.free info.tensor] } := by
          simp only [Heap.free, if_neg hp, hl0]
        have hle := hwf _ ts0 hl0
        have e : allocateInfo size info heap =
            allocateFresh size { info with header := { bufSize := 0, bufId := 0 } }
              { heap with live := Function.update heap.live info.tensor none,
                          log := heap.log ++ [HeapEvent.free info.tensor] } := by
          simp only [allocateInfo, if_neg hp, if_pos hn, hfree, bind, Except.bind]
        rw [e, allocateFresh_zero size { info with header := { bufSize := 0, bufId := 0 } }
          { heap with live := Function.update heap.live info.tensor none,
                      log := heap.log ++ [HeapEvent.free info.tensor] } hfit hjunk]
        refine ⟨_, _, rfl, rfl, by show heap.brk ≤ heap.brk + 1 + _; omega,
          fun p hp1 hp2 => ?_, fun p ts hl => ?_,
          fun _ => ⟨⟨rfl, rfl, Nat.succ_ne_zero _, hnone, ?_⟩, Nat.lt_succ_self _⟩⟩
        · show Function.update (Function.update heap.live info.tensor none) (heap.brk + 1) _ p = _
          rw [Function.update_noteq (by omega), Function.update_noteq hp2]
        · have hl2 : Function.update (Function.update heap.live info.tensor none) (heap.brk + 1)
              (some (List.replicate size IETensorInfo.zero)) p = some ts := hl
          show p ≤ heap.brk + 1 + _
          by_cases hpe : p = heap.brk + 1
          · omega
          · rw [Function.update_noteq hpe] at hl2
            by_cases hpt : p = info.tensor
            · omega
            · rw [Function.update_noteq hpt] at hl2
              have := hwf p ts hl2
              omega
        · show Function.update _ (heap.brk + 1) _ (heap.brk + 1) = _
          rw [Function.update_same]
    · have hn2 : size = info.numbers := not_not.mp hn
      refine ⟨info, heap, allocateInfo_noop size info heap hp hn2.symm, rfl, le_refl _,
        fun _ _ _ => rfl, hwf, fun hc => ?_⟩
      rcases hc with hc | hc
      · exact absurd hc hp
      · exact absurd hn2 hc

/-- C26. For a heap whose live addresses were handed out by the allocator, and
two blocks whose tensor pointers are null or address distinct live arrays
(counts small enough for `count * sizeof(IETensorInfo)` to fit 32 bits):
`IEAllocateInputOutputInfo` returns, and every block whose tensor pointer was
null, or whose `numbers` differed from the model's count, describes a new
allocation: `bufSize` is `count * sizeof(IETensorInfo)`, `bufId` is the
address in the tensor pointer, and the storage holds `count` descriptors with
all bytes zero. -/
theorem allocate_describes_new_allocation (ctx : CIEContext) (config : IEConfig) (heap : Heap)
    (hwf : ∀ p ts, heap.live p = some ts → p ≤ heap.brk)
    (hjunk : heap.junk.dim.length = 12 ∧ heap.junk.dimStride.length = 12)
    (hin : ownsArray heap config.inputInfos) (hout : ownsArray heap config.outputInfos)
    (hdist : config.inputInfos.tensor ≠ 0 →
      config.inputInfos.tensor ≠ config.outputInfos.tensor)
    (hfit : getInputSize ctx * sizeofIETensorInfo < 2 ^ 32 ∧
      getOutputSize ctx * sizeofIETensorInfo < 2 ^ 32) :
    ∃ config1 heap1, IEAllocateInputOutputInfo ctx config heap = .ok (config1, heap1) ∧
      (config.inputInfos.tensor = 0 ∨ config.inputInfos.numbers ≠ getInputSize ctx →
        freshBlock (getInputSize ctx) heap heap1 config1.inputInfos) ∧
      (config.outputInfos.tensor = 0 ∨ config.outputInfos.numbers ≠ getOutputSize ctx →
        freshBlock (getOutputSize ctx) heap heap1 config1.outputInfos) := by
  obtain ⟨inp, heapA, eA, hjA, hbA, hkeepA, hwfA, hfreshA⟩ :=
    allocateInfo_spec (getInputSize ctx) config.inputInfos heap hfit.1 hjunk hwf hin
  have houtA : ownsArray heapA config.outputInfos := by
    by_cases ho : config.outputInfos.tensor = 0
    · exact Or.inl ho
    · rcases hout with h0 | ⟨ts, hl⟩
      · exact Or.inl h0
      · refine Or.inr ⟨ts, ?_⟩
        have hle := hwf _ ts hl
        have hne : config.outputInfos.tensor ≠ config.inputInfos.tensor := by
          by_cases hz : config.inputInfos.tensor = 0
          · rw [hz]; exact ho
          · exact fun e => hdist hz e.symm
        rw [hkeepA _ hle hne]
        exact hl
  obtain ⟨out, heapB, eB, hjB, hbB, hkeepB, hwfB, hfreshB⟩ :=
    allocateInfo_spec (getOutputSize ctx) config.outputInfos heapA hfit.2 (hjA ▸ hjunk) hwfA houtA
  refine ⟨{ config with inputInfos := inp, outputInfos := out }, heapB, ?_, fun hc => ?_,
    fun hc => ?_⟩
  · simp only [IEAllocateInputOutputInfo, eA, eB, bind, Except.bind, pure, Except.pure]
  · have hc2 : config.inputInfos.tensor = 0 ∨ getInputSize ctx ≠ config.inputInfos.numbers :=
      hc.imp id Ne.symm
    obtain ⟨⟨f1, f2, f3, f4, f5⟩, _⟩ := hfreshA hc2
    refine ⟨f1, f2, f3, f4, ?_⟩
    show heapB.live inp.tensor = _
    have hle : inp.tensor ≤ heapA.brk := hwfA _ _ f5
    have hne : inp.tensor ≠ config.outputInfos.tensor := by
      intro e
      rcases hout with h0 | ⟨ts, hl⟩
      · exact f3 (e.trans h0)
      · rw [← e, f4] at hl
        cases hl
    rw [hkeepB _ hle hne]
    exact f5
  · have hc2 : config.outputInfos.tensor = 0 ∨ getOutputSize ctx ≠ config.outputInfos.numbers :=
      hc.imp id Ne.symm
    obtain ⟨⟨f1, f2, f3, _, f5⟩, f6⟩ := hfreshB hc2
    refine ⟨f1, f2, f3, ?_, f5⟩
    show heap.live out.tensor = none
    cases hl : heap.live out.tensor with
    | none => rfl
    | some ts =>
      have h1 := hwf _ ts hl
      omega

/-! ## Buffer marshaler: 8-bit image copies -/

/-- C27. Packed image copy into an 8-bit destination (`T = uint8_t`, precision
not `IE_FP32`): when the row stride `dim[2] * dimStride[0]` fits 32 bits, the
source holds every byte the loops read and the destination holds the `W * H * C` elements from element `b * H * W * C` on, the
copy returns, the destination element
`b * H * W * C + ch * (W * H) + h * W + w` equals the source byte at
`h * rowStride + w * dim[2] + ch` for every row, column and channel, and no
other destination element changes. -/
theorem packed_byte_permutation (data : IEData) (buffer : List Nat) (blob : Blob)
    (b W H C : Nat)
    (h0 : blob.dims[0]? = some W) (h1 : blob.dims[1]? = some H) (h2 : blob.dims[2]? = some C)
    (hmatch : data.tensor.dim.getD 0 0 = W ∧ data.tensor.dim.getD 1 0 = H)
    (hfmt : data.imageFormat = IE_IMAGE_BGR_PACKED)
    (hprec : data.tensor.precision ≠ IE_FP32)
    (hoff : b * H * W * C < 2 ^ 31)
    (hstride : data.tensor.dim.getD 2 0 * data.tensor.dimStride.getD 0 0 < 2 ^ 32)
    (hsrc : ∀ h w ch, h < H → w < W → ch < C →
      h * (data.tensor.dim.getD 2 0 * data.tensor.dimStride.getD 0 0) +
        w * data.tensor.dim.getD 2 0 + ch < buffer.length)
    (hdst : b * H * W * C + W * H * C ≤ blob.buffer.length) :
    ∃ blob1, imageU8ToBlob .u8 data buffer blob (b : Int) = .ok blob1 ∧
      blob1.buffer.length = blob.buffer.length ∧
      (∀ h w ch, h < H → w < W → ch < C →
        ∃ p, buffer[h * (data.tensor.dim.getD 2 0 * data.tensor.dimStride.getD 0 0) +
              w * data.tensor.dim.getD 2 0 + ch]? = some p ∧
          blob1.buffer[b * H * W * C + (ch * (W * H) + h * W + w)]? = some p) ∧
      ∀ i, (∀ h w ch, h < H → w < W → ch < C →
          i ≠ b * H * W * C + (ch * (W * H) + h * W + w)) →
        blob1.buffer[i]? = blob.buffer[i]? := by
  have hb : toInt32 ((b : Int) * H * W * C) = ((b * H * W * C : Nat) : Int) := by
    rw [toInt32_small]
    · push_cast; rfl
    · positivity
    · exact_mod_cast hoff
  have hc : ¬ (W ≠ data.tensor.dim.getD 0 0 ∨ H ≠ data.tensor.dim.getD 1 0) := by
    rw [hmatch.1, hmatch.2]; simp
  have hnp : ¬ IE_IMAGE_BGR_PLANAR = data.imageFormat := by
    rw [hfmt]; decide
  obtain ⟨mem, hrun, hlen, hval, hframe⟩ := packed_loops_total .u8 (unscaled .u8) buffer
    blob.buffer (b * H * W * C) W H C
    (data.tensor.dim.getD 2 0 * data.tensor.dimStride.getD 0 0)
    (data.tensor.dim.getD 2 0) (fun _ => rfl) hsrc (by
      show (b * H * W * C + W * H * C) * 1 ≤ _
      omega)
  refine ⟨{ blob with buffer := mem }, ?_, hlen, ?_, ?_⟩
  · simp only [imageU8ToBlob, List.get?_eq_getElem?, h0, h1, h2, if_neg hc, hb, if_neg hnp,
      if_pos hfmt.symm, if_neg hprec, Nat.mod_eq_of_lt hstride]
    exact bind_ok_blob _ blob mem hrun
  · intro h w ch hh hw hch
    obtain ⟨p, hp, hv⟩ := hval h w ch ⟨hh, hw, hch, Or.inl hh⟩
    refine ⟨p, hp, ?_⟩
    have := hv 0 (by decide)
    simpa [ElemType.size, unscaled] using this
  · intro i hi
    apply hframe i
    intro h w ch hb
    obtain ⟨b1, b2, b3, _⟩ := hb
    intro hin
    apply hi h w ch b1 b2 b3
    obtain ⟨l, u⟩ := hin
    have e1 : ElemType.u8.size = 1 := rfl
    rw [e1] at l u
    omega

theorem row_fits (W H C c0 h0 : Nat) (hc : c0 < C) (hh : h0 < H) :
    c0 * (W * H) + h0 * W + W ≤ W * H * C := by
  have a : (h0 + 1) * W ≤ H * W := Nat.mul_le_mul_right W hh
  rw [Nat.add_mul, Nat.one_mul, Nat.mul_comm H W] at a
  have c : (c0 + 1) * (W * H) ≤ C * (W * H) := Nat.mul_le_mul_right _ hc
  rw [Nat.add_mul, Nat.one_mul, Nat.mul_comm C (W * H)] at c
  omega

theorem planar_step (buffer mem0 mem : List Nat) (o W H C iss s0 c0 h0 : Nat)
    (hsrc : ∀ ch h, ch < C → h < H → ch * iss + h * s0 + W ≤ buffer.length)
    (hdst : o + W * H * C ≤ mem0.length) (hc : c0 < C) (hh : h0 < H)
    (hinv : PlanarInv buffer mem0 o W H C iss s0 c0 h0 mem) :
    ∃ mem2,
      memcpy mem (((o : Int) + (c0 : Int) * ((W * H : Nat) : Int) + (h0 : Int) * (W : Int)) *
          ((ElemType.u8.size : Nat) : Int)) buffer (c0 * iss + h0 * s0) W = .ok mem2 ∧
      PlanarInv buffer mem0 o W H C iss s0 c0 (h0 + 1) mem2 := by
  obtain ⟨hlen, hval, hframe⟩ := hinv
  have hs := hsrc c0 h0 hc hh
  have hk : ((o : Int) + (c0 : Int) * ((W * H : Nat) : Int) + (h0 : Int) * (W : Int)) *
      ((ElemType.u8.size : Nat) : Int) = (((o + (c0 * (W * H) + h0 * W)) : Nat) : Int) := by
    simp only [ElemType.size]
    push_cast; ring
  have hrow := row_fits W H C c0 h0 hc hh
  obtain ⟨mem2, hm⟩ := memcpy_ok mem buffer (((o + (c0 * (W * H) + h0 * W)) : Nat) : Int)
    (c0 * iss + h0 * s0) W (Int.natCast_nonneg _) (by rw [Int.toNat_ofNat]; omega) hs
  obtain ⟨_, _, _, hl2, hget⟩ := memcpy_spec _ _ _ _ _ _ hm
  rw [Int.toNat_ofNat] at hget
  refine ⟨mem2, ?_, hl2.trans hlen, ?_, ?_⟩
  · rw [hk]
    exact hm
  · intro ch h w hb hw
    obtain ⟨b1, b2, b3⟩ := hb
    by_cases hnew : ch = c0 ∧ h = h0
    · obtain ⟨rfl, rfl⟩ := hnew
      have hlt : ch * iss + h * s0 + w < buffer.length := by omega
      refine ⟨buffer[ch * iss + h * s0 + w], List.getElem?_eq_getElem hlt, ?_⟩
      rw [hget, if_pos (by omega), ← List.getElem?_eq_getElem hlt]
      congr 1
      omega
    · have hold : RowsBefore H C c0 h0 ch h := by
        refine ⟨b1, b2, ?_⟩
        rcases b3 with b3 | ⟨rfl, b3⟩
        · exact Or.inl b3
        · refine Or.inr ⟨rfl, ?_⟩
          have : h ≠ h0 := fun e => hnew ⟨rfl, e⟩
          omega
      obtain ⟨p, hp1, hv⟩ := hval ch h w hold hw
      refine ⟨p, hp1, ?_⟩
      rw [hget]
      have hne : ¬ (o + (c0 * (W * H) + h0 * W) ≤ o + (ch * (W * H) + h * W + w) ∧
          o + (ch * (W * H) + h * W + w) < o + (c0 * (W * H) + h0 * W) + W) := by
        intro hin
        have hw1 : o + (ch * (W * H) + h * W + w) - (o + (c0 * (W * H) + h0 * W)) < W := by
          omega
        have := planarIndex_inj W H h w ch h0
          (o + (ch * (W * H) + h * W + w) - (o + (c0 * (W * H) + h0 * W))) c0 b2 hw hh hw1
          (by omega)
        exact hnew ⟨this.2.2, this.1⟩
      rw [if_neg hne]
      exact hv
  · intro i hi
    rw [hget]
    have hne : ¬ (o + (c0 * (W * H) + h0 * W) ≤ i ∧ i < o + (c0 * (W * H) + h0 * W) + W) := by
      intro hin
      exact hi c0 h0 (i - (o + (c0 * (W * H) + h0 * W))) ⟨hc, hh, Or.inr ⟨rfl, by omega⟩⟩
        (by omega) (by omega)
    rw [if_neg hne]
    apply hframe
    intro ch h w hb hw
    apply hi ch h w _ hw
    obtain ⟨b1, b2, b3⟩ := hb
    refine ⟨b1, b2, ?_⟩
    rcases b3 with b3 | ⟨rfl, b3⟩
    · exact Or.inl b3
    · exact Or.inr ⟨rfl, by omega⟩

theorem planarInv_next_ch (buffer mem0 mem : List Nat) (o W H C iss s0 c0 : Nat)
    (hinv : PlanarInv buffer mem0 o W H C iss s0 c0 H mem) :
    PlanarInv buffer mem0 o W H C iss s0 (c0 + 1) 0 mem := by
  obtain ⟨hlen, hval, hframe⟩ := hinv
  have conv : ∀ ch h, RowsBefore H C (c0 + 1) 0 ch h ↔ RowsBefore H C c0 H ch h := by
    intro ch h
    unfold RowsBefore
    constructor
    · rintro ⟨b1, b2, b3⟩
      refine ⟨b1, b2, ?_⟩
      rcases b3 with b3 | ⟨_, b3⟩
      · by_cases e : ch = c0
        · exact Or.inr ⟨e, b2⟩
        · exact Or.inl (by omega)
      · omega
    · rintro ⟨b1, b2, b3⟩
      refine ⟨b1, b2, ?_⟩
      rcases b3 with b3 | ⟨rfl, _⟩
      · exact Or.inl (by omega)
      · exact Or.inl (by omega)
  exact ⟨hlen, fun ch h w hb hw => hval ch h w ((conv ch h).mp hb) hw,
    fun i hi => hframe i (fun ch h w hb hw => hi ch h w ((conv ch h).mpr hb) hw)⟩

theorem planar_loops_total (buffer mem0 : List Nat) (o W H C iss s0 : Nat)
    (hsrc : ∀ ch h, ch < C → h < H → ch * iss + h * s0 + W ≤ buffer.length)
    (hdst : o + W * H * C ≤ mem0.length) :
    ∃ mem,
      forLoop C (fun ch mem =>
        forLoop H (fun h mem =>
          memcpy mem (((o : Int) + (ch : Int) * ((W * H : Nat) : Int) + (h : Int) * (W : Int)) *
            ((ElemType.u8.size : Nat) : Int)) buffer (ch * iss + h * s0) W) mem) mem0 = .ok mem ∧
      PlanarInv buffer mem0 o W H C iss s0 C 0 mem := by
  refine forLoop_total C _ (fun ch mem => PlanarInv buffer mem0 o W H C iss s0 ch 0 mem)
    mem0 ?_ ?_
  · refine ⟨rfl, ?_, fun i _ => rfl⟩
    rintro ch h w ⟨_, _, b3⟩ _
    omega
  · intro ch mem hc hinv
    obtain ⟨mem2, hrun, hinv2⟩ := forLoop_total H _
      (fun h mem => PlanarInv buffer mem0 o W H C iss s0 ch h mem) mem hinv
      (fun h mem1 hh hinv1 => planar_step buffer mem0 mem1 o W H C iss s0 ch h hsrc hdst hc hh
        hinv1)
    exact ⟨mem2, hrun, planarInv_next_ch _ _ _ _ _ _ _ _ _ _ hinv2⟩

/-- C28. Planar image copy with a padded row stride (`dimStride[0] ≠ dim[0]`)
into an 8-bit destination: when the plane stride `dimStride[0] * dimStride[1]`
fits 32 bits, the source holds every row the loops read and the destination
holds the `W * H * C` elements from element `b * H * W * C` on,
the copy returns, the destination element
`b * H * W * C + ch * (W * H) + h * W + w` equals the source byte at
`ch * (dimStride[0] * dimStride[1]) + h * dimStride[0] + w` for every channel,
row and column `w < W`, and no other destination element changes, so no
padding byte reaches the destination. -/
theorem planar_strided_copy (data : IEData) (buffer : List Nat) (blob : Blob)
    (b W H C : Nat)
    (h0 : blob.dims[0]? = some W) (h1 : blob.dims[1]? = some H) (h2 : blob.dims[2]? = some C)
    (hmatch : data.tensor.dim.getD 0 0 = W ∧ data.tensor.dim.getD 1 0 = H)
    (hfmt : data.imageFormat = IE_IMAGE_BGR_PLANAR)
    (hpad : data.tensor.dimStride.getD 0 0 ≠ data.tensor.dim.getD 0 0)
    (hoff : b * H * W * C < 2 ^ 31)
    (hstride : data.tensor.dimStride.getD 0 0 * data.tensor.dimStride.getD 1 0 < 2 ^ 32)
    (hsrc : ∀ ch h, ch < C → h < H →
      ch * (data.tensor.dimStride.getD 0 0 * data.tensor.dimStride.getD 1 0) +
        h * data.tensor.dimStride.getD 0 0 + W ≤ buffer.length)
    (hdst : b * H * W * C + W * H * C ≤ blob.buffer.length) :
    ∃ blob1, imageU8ToBlob .u8 data buffer blob (b : Int) = .ok blob1 ∧
      blob1.buffer.length = blob.buffer.length ∧
      (∀ ch h w, ch < C → h < H → w < W →
        ∃ p, buffer[ch * (data.tensor.dimStride.getD 0 0 * data.tensor.dimStride.getD 1 0) +
              h * data.tensor.dimStride.getD 0 0 + w]? = some p ∧
          blob1.buffer[b * H * W * C + (ch * (W * H) + h * W + w)]? = some p) ∧
      ∀ i, (∀ ch h w, ch < C → h < H → w < W →
          i ≠ b * H * W * C + (ch * (W * H) + h * W + w)) →
        blob1.buffer[i]? = blob.buffer[i]? := by
  have hb : toInt32 ((b : Int) * H * W * C) = ((b * H * W * C : Nat) : Int) := by
    rw [toInt32_small]
    · push_cast; rfl
    · positivity
    · exact_mod_cast hoff
  have hc : ¬ (W ≠ data.tensor.dim.getD 0 0 ∨ H ≠ data.tensor.dim.getD 1 0) := by
    rw [hmatch.1, hmatch.2]; simp
  have hn1 : ¬ (data.tensor.dim.getD 0 0 = data.tensor.dimStride.getD 0 0 ∧
      data.tensor.dim.getD 1 0 = data.tensor.dimStride.getD 1 0) := fun e => hpad e.1.symm
  have hn2 : ¬ data.tensor.dim.getD 0 0 = data.tensor.dimStride.getD 0 0 := fun e => hpad e.symm
  obtain ⟨mem, hrun, hlen, hval, hframe⟩ := planar_loops_total buffer blob.buffer
    (b * H * W * C) W H C
    (data.tensor.dimStride.getD 0 0 * data.tensor.dimStride.getD 1 0)
    (data.tensor.dimStride.getD 0 0) hsrc hdst
  refine ⟨{ blob with buffer := mem }, ?_, hlen, ?_, ?_⟩
  · simp only [imageU8ToBlob, List.get?_eq_getElem?, h0, h1, h2, if_neg hc, hb,
      if_pos hfmt.symm, if_neg hn1, if_neg hn2, Nat.mod_eq_of_lt hstride]
    exact bind_ok_blob _ blob mem hrun
  · intro ch h w hch hh hw
    exact hval ch h w ⟨hch, hh, Or.inl hch⟩ hw
  · intro i hi
    apply hframe i
    intro ch h w hb hw
    exact hi ch h w hb.1 hb.2.1 hw

/-! ## Concrete evaluations for the descriptor store and the report -/

/-- C25 (witness). A dimension count of `5` and a negative one. -/
theorem estimateLayout_by_count_witness :
    (5 : Int) ≠ 4 ∧ (5 : Int) ≠ 3 ∧ (5 : Int) ≠ 2 ∧ estimateLayout 5 = .ANY ∧
    estimateLayout (-1) = .ANY ∧ estimateLayout 0 = .ANY ∧ estimateLayout 1 = .ANY :=
  ⟨by decide, by decide, by decide,
    (estimateLayout_by_count 5).2.2.2 (by decide) (by decide) (by decide),
    (estimateLayout_by_count (-1)).2.2.2 (by decide) (by decide) (by decide),
    (estimateLayout_by_count 0).2.2.2 (by decide) (by decide) (by decide),
    (estimateLayout_by_count 1).2.2.2 (by decide) (by decide) (by decide)⟩

/-- C24 (witness). A map whose two executed layers took `7` and `3`
microseconds and whose optimised-out layer has no recorded time: the total
is `10`. -/
theorem total_sums_positive_times_witness :
    positiveTime perfSample < 2 ^ 63 ∧ positiveTime perfSample = 10 ∧
    executedTime perfSample = 10 ∧
    (printPerformanceCounts perfSample true).2 = positiveTime perfSample ∧
    (printPerformanceCounts perfSample true).2 = executedTime perfSample :=
  ⟨by decide, by decide, by decide,
    (total_sums_positive_times perfSample true (by decide)).1,
    (total_sums_positive_times perfSample true (by decide)).2.2 (by decide)⟩

/-- C24 (counterexample). A map with an executed layer of `7` microseconds and
a layer with status `NOT_RUN` and a recorded time of `5`: the total is `12`,
while the executed entries sum to `7`. -/
theorem total_counts_not_run_time :
    (printPerformanceCounts perfMixed false).2 = 12 ∧ executedTime perfMixed = 7 ∧
    perfMixed.map (fun it => (it.2.status, it.2.realTime_uSec)) =
      [(.EXECUTED, 7), (.NOT_RUN, 5)] := by
  refine ⟨by decide, by decide, rfl⟩

/-- C30 (witness). A map with a name of fifteen two-byte characters (30 bytes,
cut after 26 bytes), a short name and a name of 36 bytes. -/
theorem layer_name_width_witness :
    (accentedName, perfEntry .EXECUTED 2) ∈ perfNamed ∧
    (ascii "conv1", perfEntry .EXECUTED 7) ∈ perfNamed ∧
    (ascii "inception_5b/pool_proj/bn/scale/relu", perfEntry .EXECUTED 3) ∈ perfNamed ∧
    30 ≤ accentedName.length ∧
    toPrint accentedName = accentedName.take 26 ++ ascii "..." ∧
    toPrint accentedName = (List.replicate 13 [195, 169]).flatten ++ [46, 46, 46] ∧
    (ascii "conv1").length < 30 ∧ toPrint (ascii "conv1") = ascii "conv1" ∧
    30 ≤ (ascii "inception_5b/pool_proj/bn/scale/relu").length ∧
    toPrint (ascii "inception_5b/pool_proj/bn/scale/relu") =
      (ascii "inception_5b/pool_proj/bn/scale/relu").take 26 ++ ascii "..." ∧
    toPrint (ascii "inception_5b/pool_proj/bn/scale/relu") =
      ascii "inception_5b/pool_proj/bn/..." ∧
    (printPerformanceCounts perfNamed false).1 =
      (if false then ascii "\nperformance counts:\n\n" else []) ++
        (perfNamed.map (fun it => printRow it.1 it.2)).flatten ++
        setwLeft 20 (ascii "Total time: " ++
          ascii (toString (printPerformanceCounts perfNamed false).2)) ++
        ascii " microseconds\n" ∧
    ((printPerformanceCounts perfNamed false).1.take 30 =
      (List.replicate 13 [195, 169]).flatten ++ [46, 46, 46, 32]) :=
  ⟨by decide, by decide, by decide, by decide,
    ((layer_name_width perfNamed false).2 (accentedName, perfEntry .EXECUTED 2)
      (by decide)).2.2.2.2 (by decide),
    by decide, by decide,
    ((layer_name_width perfNamed false).2 (ascii "conv1", perfEntry .EXECUTED 7)
      (by decide)).2.2.2.1 (by decide),
    by decide,
    ((layer_name_width perfNamed false).2
      (ascii "inception_5b/pool_proj/bn/scale/relu", perfEntry .EXECUTED 3)
      (by decide)).2.2.2.2 (by decide),
    by decide,
    (layer_name_width perfNamed false).1,
    by decide⟩

/-- C21 (witness). The context of `IEAllocateContext()` and an empty block. -/
theorem unloaded_get_info_witness :
    IEAllocateContext.bModelLoaded = false ∧
    getModelInputInfo IEAllocateContext IEInputOutputInfo.empty Heap.empty =
      .ok (IEInputOutputInfo.empty, Heap.empty) ∧
    getModelOutputInfo IEAllocateContext IEInputOutputInfo.empty Heap.empty =
      .ok (IEInputOutputInfo.empty, Heap.empty) ∧
    (IEAllocateContext.inputsInfo.length ≤ 0 →
      getModelInputInfoAt IEAllocateContext 0 IETensorInfo.zero = .error .indexOutOfRange) ∧
    (IEAllocateContext.outputsInfo.length ≤ 0 →
      getModelOutputInfoAt IEAllocateContext 0 IETensorInfo.zero =
        .error .indexOutOfRange) :=
  ⟨rfl, unloaded_get_info IEAllocateContext 0 IETensorInfo.zero IEInputOutputInfo.empty
    Heap.empty rfl⟩

/-- C21 (counterexample). On the context of `IEAllocateContext()`, which is not
Loaded, the per-index `getModelInputInfo(0, d)` and `getModelOutputInfo(0, d)`
do not return normally: both end in the `Index out of range` error. -/
theorem unloaded_per_index_get_raises :
    IEAllocateContext.bModelLoaded = false ∧
    getModelInputInfoAt IEAllocateContext 0 IETensorInfo.zero = .error .indexOutOfRange ∧
    getModelOutputInfoAt IEAllocateContext 0 IETensorInfo.zero = .error .indexOutOfRange := by
  refine ⟨rfl, rfl, rfl⟩

/-- C23 (witness). The sample model, whose input has four dimensions and whose
output has two. -/
theorem get_info_respects_max_rank_witness :
    (∃ d1, getModelInputInfoAt sampleCtx 0 IETensorInfo.zero = .ok d1 ∧
      RankBounded sampleData IETensorInfo.zero d1) ∧
    (getModelInputInfoAt sampleCtx 0 IETensorInfo.zero).map (fun d1 => (d1.rank, d1.dim)) =
      .ok (4, [224, 224, 3, 1, 0, 0, 0, 0, 0, 0, 0, 0]) :=
  ⟨(get_info_respects_max_rank sampleCtx IETensorInfo.zero (blockAt 0 [IETensorInfo.zero])
      (heapWith [IETensorInfo.zero]) [IETensorInfo.zero] (by decide) (by decide) (by decide)
      rfl).1 0 ("data", sampleData) rfl,
    rfl⟩

/-- C23 (counterexample). A loaded model whose input has thirteen dimensions:
the per-index and the bulk `getModelInputInfo` run their copy loop up to slot
`12`, outside the `dim` array of `IE_TENSOR_MAX_RANK` entries. -/
theorem get_info_rank_thirteen :
    deepCtx.bModelLoaded = true ∧
    deepCtx.inputsInfo.map (fun item => item.2.dims.length) = [13] ∧
    getModelInputInfoAt deepCtx 0 IETensorInfo.zero = .error .invalidAccess ∧
    (getModelInputInfo deepCtx (blockAt 0 [IETensorInfo.zero])
      (heapWith [IETensorInfo.zero])).map (fun _ => ()) = .error .invalidAccess := by
  refine ⟨rfl, rfl, rfl, rfl⟩

/-- C29 (witness). The model path `net.v2.bin` and the path `model`. -/
theorem model_files_from_base_path_witness :
    '.' ∉ "bin".data ∧ '.' ∉ "model".data ∧
    GetFileNameNoExt ("net.v2" ++ "." ++ "bin") = "net.v2" ∧
    GetFileNameNoExt "model" = "model" ∧
    ∃ ctx1, loadModel sampleBackend IEAllocateContext dottedConfig = .ok ctx1 ∧
      ctx1.bModelLoaded = true ∧
      ctx1.xmlFile = "net.v2" ++ ".xml" ∧ ctx1.binFile = "net.v2" ++ ".bin" :=
  ⟨by decide, by decide,
    model_files_from_base_path sampleBackend IEAllocateContext dottedConfig "net.v2" "bin"
      "model" sampleNetwork (by decide) (by decide) rfl rfl rfl (fun _ _ => rfl)
      (fun _ _ => rfl) rfl⟩

/-- C22 (witness). The 640 x 480 model and a one-element block whose image-kind
element holds the dimensions of the model input. -/
theorem bulk_set_image_size_witness :
    vgaCtx.bModelLoaded = true ∧
    (blockAt 1 [imageDesc 640 480]).numbers = vgaCtx.inputsInfo.length ∧
    ∃ ctx1, setModelInputInfo vgaCtx (blockAt 1 [imageDesc 640 480])
        (heapWith [imageDesc 640 480]) = .ok ctx1 ∧
      ctx1.inputImageSize = { width := 640, height := 480 } := by
  obtain ⟨ctx1, hrun, _, hlast⟩ := bulk_set_image_size vgaCtx (blockAt 1 [imageDesc 640 480])
    (heapWith [imageDesc 640 480]) [imageDesc 640 480] rfl rfl (by decide) rfl (by decide)
    (by
      intro i item t hi ht hI
      cases i with
      | zero =>
        simp only [vgaCtx, List.getElem?_cons_zero, Option.some.injEq] at hi
        subst hi
        decide
      | succ i => simp at ht)
  refine ⟨rfl, rfl, ctx1, hrun, ?_⟩
  exact (hlast 0 ("data", { dims := [640, 480, 3, 1], precision := .U8, layout := .NCHW })
    (imageDesc 640 480) rfl rfl rfl (by
      intro j t1 hj hjl
      have : vgaCtx.inputsInfo.length = 1 := rfl
      omega)).1

/-- C22 (counterexample). The 640 x 480 model and a one-element block whose
image-kind element holds `dim[0] = 320` and `dim[1] = 240`: after the bulk set
the cached input image size is 640 x 480, the size of the model input, not
the 320 x 240 of the block element. -/
theorem bulk_set_image_size_from_model :
    (setModelInputInfo vgaCtx (blockAt 1 [imageDesc 320 240])
      (heapWith [imageDesc 320 240])).map (fun c => c.inputImageSize) =
      .ok { width := 640, height := 480 } ∧
    (imageDesc 320 240).dataType = IE_DATA_TYPE_IMG ∧
    (imageDesc 320 240).dim.getD 0 0 = 320 ∧ (imageDesc 320 240).dim.getD 1 0 = 240 ∧
    (blockAt 1 [imageDesc 320 240]).numbers = vgaCtx.inputsInfo.length := by
  refine ⟨rfl, rfl, rfl, rfl, rfl⟩

/-- C26 (witness). The sample model and a configuration with empty blocks on
an empty heap: both blocks come back describing new zero-filled arrays. -/
theorem allocate_describes_new_allocation_witness :
    ownsArray Heap.empty emptyConfig.inputInfos ∧
    ownsArray Heap.empty emptyConfig.outputInfos ∧
    ∃ config1 heap1,
      IEAllocateInputOutputInfo sampleCtx emptyConfig Heap.empty = .ok (config1, heap1) ∧
      (emptyConfig.inputInfos.tensor = 0 ∨
          emptyConfig.inputInfos.numbers ≠ getInputSize sampleCtx →
        freshBlock (getInputSize sampleCtx) Heap.empty heap1 config1.inputInfos) ∧
      (emptyConfig.outputInfos.tensor = 0 ∨
          emptyConfig.outputInfos.numbers ≠ getOutputSize sampleCtx →
        freshBlock (getOutputSize sampleCtx) Heap.empty heap1 config1.outputInfos) :=
  ⟨Or.inl rfl, Or.inl rfl,
    allocate_describes_new_allocation sampleCtx emptyConfig Heap.empty
      (by intro p ts h; simp [Heap.empty] at h) ⟨rfl, rfl⟩ (Or.inl rfl) (Or.inl rfl)
      (fun h => absurd rfl h) (by decide)⟩

/-- C27 (witness). The packed 2 x 1, two-channel image with bytes
`10, 20, 30, 40`: the destination receives the planes `10, 30` and `20, 40`. -/
theorem packed_byte_permutation_witness :
    imageU8ToBlob .u8 (packedImage 2 1 2 0) [10, 20, 30, 40] pairBlob ((0 : Nat) : Int) =
      .ok { dims := [2, 1, 2, 1], buffer := [10, 30, 20, 40] } ∧
    ∃ blob1, imageU8ToBlob .u8 (packedImage 2 1 2 0) [10, 20, 30, 40] pairBlob
        ((0 : Nat) : Int) = .ok blob1 ∧
      blob1.buffer.length = pairBlob.buffer.length ∧
      (∀ h w ch, h < 1 → w < 2 → ch < 2 →
        ∃ p, [10, 20, 30, 40][h * ((packedImage 2 1 2 0).tensor.dim.getD 2 0 *
              (packedImage 2 1 2 0).tensor.dimStride.getD 0 0) +
              w * (packedImage 2 1 2 0).tensor.dim.getD 2 0 + ch]? = some p ∧
          blob1.buffer[0 * 1 * 2 * 2 + (ch * (2 * 1) + h * 2 + w)]? = some p) ∧
      ∀ i, (∀ h w ch, h < 1 → w < 2 → ch < 2 →
          i ≠ 0 * 1 * 2 * 2 + (ch * (2 * 1) + h * 2 + w)) →
        blob1.buffer[i]? = pairBlob.buffer[i]? :=
  ⟨rfl,
    packed_byte_permutation (packedImage 2 1 2 0) [10, 20, 30, 40] pairBlob 0 2 1 2 rfl rfl rfl
      ⟨rfl, rfl⟩ rfl (by decide) (by decide) (by decide)
      (by
        intro h w ch hh hw hc
        show h * (2 * 2) + w * 2 + ch < 4
        omega)
      (by decide)⟩

/-- C28 (witness). The planar 2 x 2, one-channel image stored with rows of
three bytes, `1, 2, 99` and `3, 4, 99`: the destination receives
`1, 2, 3, 4` and neither padding byte. -/
theorem planar_strided_copy_witness :
    paddedImage.tensor.dimStride.getD 0 0 ≠ paddedImage.tensor.dim.getD 0 0 ∧
    imageU8ToBlob .u8 paddedImage [1, 2, 99, 3, 4, 99] squareBlob ((0 : Nat) : Int) =
      .ok { dims := [2, 2, 1, 1], buffer := [1, 2, 3, 4] } ∧
    ∃ blob1, imageU8ToBlob .u8 paddedImage [1, 2, 99, 3, 4, 99] squareBlob
        ((0 : Nat) : Int) = .ok blob1 ∧
      blob1.buffer.length = squareBlob.buffer.length ∧
      (∀ ch h w, ch < 1 → h < 2 → w < 2 →
        ∃ p, [1, 2, 99, 3, 4, 99][ch * (paddedImage.tensor.dimStride.getD 0 0 *
              paddedImage.tensor.dimStride.getD 1 0) +
              h * paddedImage.tensor.dimStride.getD 0 0 + w]? = some p ∧
          blob1.buffer[0 * 2 * 2 * 1 + (ch * (2 * 2) + h * 2 + w)]? = some p) ∧
      ∀ i, (∀ ch h w, ch < 1 → h < 2 → w < 2 →
          i ≠ 0 * 2 * 2 * 1 + (ch * (2 * 2) + h * 2 + w)) →
        blob1.buffer[i]? = squareBlob.buffer[i]? :=
  ⟨by decide, rfl,
    planar_strided_copy paddedImage [1, 2, 99, 3, 4, 99] squareBlob 0 2 2 1 rfl rfl rfl
      ⟨rfl, rfl⟩ rfl (by decide) (by decide) (by decide)
      (by
        intro ch h hc hh
        show ch * (3 * 2) + h * 3 + 2 ≤ 6
        omega)
      (by decide)⟩

/-! ## Per-index output setters; remaining image paths -/

/-- C31 (evaluation at the failing input). The model with one input (FP32,
NCHW) and two outputs (FP16; CHW and NC): `setOutputPresion(0, IE_U8)` and
`setOutputLayout(0, IE_NHWC)` leave both outputs as they were and change the
precision, respectively the layout, of input `0`; with index `1`, valid for
the outputs, the iterator is advanced past the only input; the sibling
`setInputPresion(0, IE_U8)` changes input `0` as well. -/
theorem output_setters_write_inputs :
    (setOutputPresion twoOutputCtx 0 IE_U8).map
        (fun c => (c.inputsInfo.map (fun it => it.2.precision),
          c.outputsInfo.map (fun it => it.2.precision))) =
      .ok ([.U8], [.FP16, .FP16]) ∧
    (setOutputLayout twoOutputCtx 0 IE_NHWC).map
        (fun c => (c.inputsInfo.map (fun it => it.2.layout),
          c.outputsInfo.map (fun it => it.2.layout))) =
      .ok ([.NHWC], [.CHW, .NC]) ∧
    (twoOutputCtx.inputsInfo.map (fun it => (it.2.precision, it.2.layout)),
      twoOutputCtx.outputsInfo.map (fun it => (it.2.precision, it.2.layout))) =
      ([(.FP32, .NCHW)], [(.FP16, .CHW), (.FP16, .NC)]) ∧
    setOutputPresion twoOutputCtx 1 IE_U8 = .error .invalidAccess ∧
    setOutputLayout twoOutputCtx 1 IE_NHWC = .error .invalidAccess ∧
    (setInputPresion twoOutputCtx 0 IE_U8).map
        (fun c => c.inputsInfo.map (fun it => it.2.precision)) = .ok [.U8] := by
  refine ⟨rfl, rfl, rfl, rfl, rfl, rfl⟩

/-- C33. For an image whose format is neither BGR planar nor BGR packed,
`imageU8ToBlob` returns normally with the blob unchanged, for every element
type, precision and batch index, whether or not the dimensions match; width,
height and channel count are the first three entries of the blob's
dimensions. -/
theorem other_formats_copy_nothing (T : ElemType) (data : IEData) (buffer : List Nat)
    (blob : Blob) (batchIndex : Int) (width height channels : Nat)
    (h0 : blob.dims[0]? = some width) (h1 : blob.dims[1]? = some height)
    (h2 : blob.dims[2]? = some channels)
    (hplanar : data.imageFormat ≠ IE_IMAGE_BGR_PLANAR)
    (hpacked : data.imageFormat ≠ IE_IMAGE_BGR_PACKED) :
    imageU8ToBlob T data buffer blob batchIndex = .ok blob := by
  simp only [imageU8ToBlob, List.get?_eq_getElem?, h0, h1, h2, if_neg (Ne.symm hplanar),
    if_neg (Ne.symm hpacked)]
  split <;> rfl

theorem memcpy_zero (dst src : List Nat) (D : Int) (S : Nat) (r : List Nat)
    (h : memcpy dst D src S 0 = .ok r) : r = dst := by
  obtain ⟨_, _, _, _, hget⟩ := memcpy_spec dst src D S 0 r h
  apply List.ext_getElem?
  intro i
  rw [hget i, if_neg (by omega)]

theorem memcpy_split (dst src : List Nat) (D : Int) (S a b : Nat) (r : List Nat)
    (h : memcpy dst D src S (a + b) = .ok r) :
    ∃ m1, memcpy dst D src S a = .ok m1 ∧
      memcpy m1 (D + (a : Int)) src (S + a) b = .ok r := by
  obtain ⟨hD, hd, hs, _, hget⟩ := memcpy_spec dst src D S (a + b) r h
  obtain ⟨m1, hm1⟩ := memcpy_ok dst src D S a hD (by omega) (by omega)
  obtain ⟨_, _, _, hl1, hget1⟩ := memcpy_spec dst src D S a m1 hm1
  have hto : (D + (a : Int)).toNat = D.toNat + a := by omega
  obtain ⟨r2, hr2⟩ := memcpy_ok m1 src (D + (a : Int)) (S + a) b (by omega)
    (by rw [hto, hl1]; omega) (by omega)
  obtain ⟨_, _, _, _, hget2⟩ := memcpy_spec m1 src (D + (a : Int)) (S + a) b r2 hr2
  refine ⟨m1, hm1, ?_⟩
  rw [hr2]
  congr 1
  apply List.ext_getElem?
  intro i
  rw [hget2 i, hget i, hto]
  by_cases c2 : D.toNat + a ≤ i ∧ i < D.toNat + a + b
  · rw [if_pos c2, if_pos (by omega)]
    congr 1
    omega
  · rw [if_neg c2, hget1 i]
    by_cases c1 : D.toNat ≤ i ∧ i < D.toNat + a
    · rw [if_pos c1, if_pos (by omega)]
    · rw [if_neg c1, if_neg (by omega)]

theorem loopFrom_chunks (src : List Nat) (s : Nat) (D : Int) (S : Nat)
    (body : Nat → List Nat → Except Fault (List Nat))
    (hbody : ∀ j m r, memcpy m (D + ((j * s : Nat) : Int)) src (S + j * s) s = .ok r →
      body j m = .ok r) :
    ∀ (k i : Nat) (mem r : List Nat),
      memcpy mem (D + ((i * s : Nat) : Int)) src (S + i * s) (k * s) = .ok r →
      loopFrom body i k mem = .ok r := by
  intro k
  induction k with
  | zero =>
    intro i mem r h
    rw [Nat.zero_mul] at h
    rw [memcpy_zero _ _ _ _ _ h]
    rfl
  | succ k ih =>
    intro i mem r h
    rw [show (k + 1) * s = s + k * s by ring] at h
    obtain ⟨m1, h1, h2⟩ := memcpy_split _ _ _ _ _ _ _ h
    have e1 : D + ((i * s : Nat) : Int) + (s : Int) = D + (((i + 1) * s : Nat) : Int) := by
      push_cast; ring
    have e2 : S + i * s + s = S + (i + 1) * s := by ring
    rw [e1, e2] at h2
    simp only [loopFrom, hbody i mem m1 h1, bind, Except.bind]
    exact ih (i + 1) m1 r h2

theorem forLoop_chunks (src : List Nat) (s k : Nat) (D : Int) (S : Nat)
    (body : Nat → List Nat → Except Fault (List Nat)) (mem r : List Nat)
    (hbody : ∀ j m r, memcpy m (D + ((j * s : Nat) : Int)) src (S + j * s) s = .ok r →
      body j m = .ok r)
    (h : memcpy mem D src S (k * s) = .ok r) : forLoop k body mem = .ok r := by
  apply loopFrom_chunks src s D S body hbody k 0 mem r
  simpa using h

/-- C32. For an 8-bit destination and a planar image whose strides equal its
extents, with a plane of fewer than `2 ^ 32` bytes (the plane stride
`dimStride[0] * dimStride[1]` is formed in 32 bits), a source of at least
`W * H * C` bytes and a destination that holds the `W * H * C` elements from element `b * H * W * C` on: the single
contiguous copy, which `imageU8ToBlob` runs, the one-run-per-channel copy and
the row-by-row copy all return, with the same destination contents. -/
theorem planar_paths_agree (data : IEData) (buffer : List Nat) (blob : Blob) (b W H C : Nat)
    (h0 : blob.dims[0]? = some W) (h1 : blob.dims[1]? = some H) (h2 : blob.dims[2]? = some C)
    (hmatch : data.tensor.dim.getD 0 0 = W ∧ data.tensor.dim.getD 1 0 = H)
    (hfmt : data.imageFormat = IE_IMAGE_BGR_PLANAR)
    (hstride : data.tensor.dimStride.getD 0 0 = data.tensor.dim.getD 0 0 ∧
      data.tensor.dimStride.getD 1 0 = data.tensor.dim.getD 1 0)
    (hoff : b * H * W * C < 2 ^ 31)
    (hplane : W * H < 2 ^ 32)
    (hsrc : W * H * C ≤ buffer.length)
    (hdst : b * H * W * C + W * H * C ≤ blob.buffer.length) :
    ∃ mem, imageU8ToBlob .u8 data buffer blob (b : Int) = .ok { blob with buffer := mem } ∧
      planarWhole .u8 buffer blob.buffer (toInt32 ((b : Int) * H * W * C)) W H C = .ok mem ∧
      planarChannels .u8 buffer blob.buffer (toInt32 ((b : Int) * H * W * C)) W H C
        (data.tensor.dimStride.getD 0 0) (data.tensor.dimStride.getD 1 0) = .ok mem ∧
      planarRows .u8 buffer blob.buffer (toInt32 ((b : Int) * H * W * C)) W H C
        (data.tensor.dimStride.getD 0 0) (data.tensor.dimStride.getD 1 0) = .ok mem := by
  have hb : toInt32 ((b : Int) * H * W * C) = ((b * H * W * C : Nat) : Int) := by
    rw [toInt32_small]
    · push_cast; rfl
    · positivity
    · exact_mod_cast hoff
  have hc : ¬ (W ≠ data.tensor.dim.getD 0 0 ∨ H ≠ data.tensor.dim.getD 1 0) := by
    rw [hmatch.1, hmatch.2]; simp
  have hs0 : data.tensor.dimStride.getD 0 0 = W := hstride.1.trans hmatch.1
  have hs1 : data.tensor.dimStride.getD 1 0 = H := hstride.2.trans hmatch.2
  have hy : data.tensor.dim.getD 0 0 = data.tensor.dimStride.getD 0 0 ∧
      data.tensor.dim.getD 1 0 = data.tensor.dimStride.getD 1 0 :=
    ⟨hstride.1.symm, hstride.2.symm⟩
  have hsz : ((ElemType.u8.size : Nat) : Int) = 1 := rfl
  obtain ⟨mem, hm⟩ := memcpy_ok blob.buffer buffer (((b * H * W * C : Nat) : Int)) 0
    (W * H * C) (Int.natCast_nonneg _) (by rw [Int.toNat_ofNat]; exact hdst) (by omega)
  have hwhole : planarWhole .u8 buffer blob.buffer (toInt32 ((b : Int) * H * W * C)) W H C =
      .ok mem := by
    unfold planarWhole
    rw [hb, hsz, mul_one]
    exact hm
  have hchan : ∀ (ch : Nat) (m r : List Nat),
      memcpy m (((b * H * W * C : Nat) : Int) + ((ch * (W * H) : Nat) : Int)) buffer
        (0 + ch * (W * H)) (W * H) = .ok r →
      memcpy m ((((b * H * W * C : Nat) : Int) + (ch : Int) * ((W * H : Nat) : Int)) *
        ((ElemType.u8.size : Nat) : Int)) buffer (ch * (W * H)) (W * H) = .ok r := by
    intro ch m r h
    rw [hsz, mul_one]
    rw [Nat.zero_add] at h
    have e : ((b * H * W * C : Nat) : Int) + (ch : Int) * ((W * H : Nat) : Int) =
        ((b * H * W * C : Nat) : Int) + ((ch * (W * H) : Nat) : Int) := by push_cast; ring
    rw [e]
    exact h
  have hm2 : memcpy blob.buffer (((b * H * W * C : Nat) : Int)) buffer 0 (C * (W * H)) =
      .ok mem := by
    rw [show C * (W * H) = W * H * C by ring]
    exact hm
  refine ⟨mem, ?_, hwhole, ?_, ?_⟩
  · simp only [imageU8ToBlob, List.get?_eq_getElem?, h0, h1, h2, if_neg hc,
      if_pos hfmt.symm, if_pos hy]
    exact bind_ok_blob _ blob mem hwhole
  · unfold planarChannels
    rw [hb, hs0, hs1, Nat.mod_eq_of_lt hplane]
    exact forLoop_chunks buffer (W * H) C _ 0 _ blob.buffer mem hchan hm2
  · unfold planarRows
    rw [hb, hs0, hs1, Nat.mod_eq_of_lt hplane]
    refine forLoop_chunks buffer (W * H) C _ 0 _ blob.buffer mem ?_ hm2
    intro ch m r h
    refine forLoop_chunks buffer W H
      (((b * H * W * C : Nat) : Int) + ((ch * (W * H) : Nat) : Int)) (0 + ch * (W * H)) _ m r
      ?_ (by rw [show H * W = W * H by ring]; exact h)
    intro hh m1 r1 h3
    rw [hsz, mul_one]
    have e : ((b * H * W * C : Nat) : Int) + (ch : Int) * ((W * H : Nat) : Int) +
        (hh : Int) * (W : Int) =
        ((b * H * W * C : Nat) : Int) + ((ch * (W * H) : Nat) : Int) + ((hh * W : Nat) : Int) := by
      push_cast; ring
    rw [e]
    rw [Nat.zero_add] at h3
    exact h3

theorem imageU8ToBlob_planar (T : ElemType) (data : IEData) (buffer : List Nat) (blob : Blob)
    (batchIndex : Int) (W H C : Nat)
    (h0 : blob.dims[0]? = some W) (h1 : blob.dims[1]? = some H) (h2 : blob.dims[2]? = some C)
    (hmatch : data.tensor.dim.getD 0 0 = W ∧ data.tensor.dim.getD 1 0 = H)
    (hfmt : data.imageFormat = IE_IMAGE_BGR_PLANAR) :
    imageU8ToBlob T data buffer blob batchIndex =
      (planarCopy T data buffer blob.buffer (toInt32 (batchIndex * H * W * C)) W H C >>=
        fun mem => (pure { blob with buffer := mem } : Except Fault Blob)) := by
  have hc : ¬ (W ≠ data.tensor.dim.getD 0 0 ∨ H ≠ data.tensor.dim.getD 1 0) := by
    rw [hmatch.1, hmatch.2]; simp
  simp only [imageU8ToBlob, planarCopy, List.get?_eq_getElem?, h0, h1, h2, if_neg hc,
    if_pos hfmt.symm]
  split
  · rfl
  · split <;> rfl

/-- C32 (witness). The planar 2 x 2, two-channel image with bytes `1 .. 8`:
each of the three paths fills the destination with `1 .. 8`. -/
theorem planar_paths_agree_witness :
    twoPlaneImage.tensor.dimStride.getD 0 0 = twoPlaneImage.tensor.dim.getD 0 0 ∧
    twoPlaneImage.tensor.dimStride.getD 1 0 = twoPlaneImage.tensor.dim.getD 1 0 ∧
    planarWhole .u8 [1, 2, 3, 4, 5, 6, 7, 8] twoPlaneBlob.buffer 0 2 2 2 =
      .ok [1, 2, 3, 4, 5, 6, 7, 8] ∧
    planarChannels .u8 [1, 2, 3, 4, 5, 6, 7, 8] twoPlaneBlob.buffer 0 2 2 2 2 2 =
      .ok [1, 2, 3, 4, 5, 6, 7, 8] ∧
    planarRows .u8 [1, 2, 3, 4, 5, 6, 7, 8] twoPlaneBlob.buffer 0 2 2 2 2 2 =
      .ok [1, 2, 3, 4, 5, 6, 7, 8] ∧
    ∃ mem, imageU8ToBlob .u8 twoPlaneImage [1, 2, 3, 4, 5, 6, 7, 8] twoPlaneBlob
        ((0 : Nat) : Int) = .ok { twoPlaneBlob with buffer := mem } ∧
      planarWhole .u8 [1, 2, 3, 4, 5, 6, 7, 8] twoPlaneBlob.buffer
        (toInt32 (((0 : Nat) : Int) * (2 : Nat) * (2 : Nat) * (2 : Nat))) 2 2 2 = .ok mem ∧
      planarChannels .u8 [1, 2, 3, 4, 5, 6, 7, 8] twoPlaneBlob.buffer
        (toInt32 (((0 : Nat) : Int) * (2 : Nat) * (2 : Nat) * (2 : Nat))) 2 2 2
        (twoPlaneImage.tensor.dimStride.getD 0 0) (twoPlaneImage.tensor.dimStride.getD 1 0) =
        .ok mem ∧
      planarRows .u8 [1, 2, 3, 4, 5, 6, 7, 8] twoPlaneBlob.buffer
        (toInt32 (((0 : Nat) : Int) * (2 : Nat) * (2 : Nat) * (2 : Nat))) 2 2 2
        (twoPlaneImage.tensor.dimStride.getD 0 0) (twoPlaneImage.tensor.dimStride.getD 1 0) =
        .ok mem :=
  ⟨rfl, rfl, rfl, rfl, rfl,
    planar_paths_agree twoPlaneImage [1, 2, 3, 4, 5, 6, 7, 8] twoPlaneBlob 0 2 2 2 rfl rfl rfl
      ⟨rfl, rfl⟩ rfl ⟨rfl, rfl⟩ (by decide) (by decide) (by decide) (by decide)⟩

/-- C33 (witness). A 2 x 2 image matching the destination, tagged RGB packed,
gray planar and unknown in turn. -/
theorem other_formats_copy_nothing_witness :
    (withFormat (planarImage 2 2 1 0) IE_IMAGE_RGB_PACKED).imageFormat ≠ IE_IMAGE_BGR_PLANAR ∧
    (withFormat (planarImage 2 2 1 0) IE_IMAGE_RGB_PACKED).imageFormat ≠ IE_IMAGE_BGR_PACKED ∧
    (withFormat (planarImage 2 2 1 0) IE_IMAGE_RGB_PACKED).tensor.dim.getD 0 0 = 2 ∧
    (withFormat (planarImage 2 2 1 0) IE_IMAGE_RGB_PACKED).tensor.dim.getD 1 0 = 2 ∧
    imageU8ToBlob .u8 (withFormat (planarImage 2 2 1 0) IE_IMAGE_RGB_PACKED) [1, 2, 3, 4]
      squareBlob 0 = .ok squareBlob ∧
    imageU8ToBlob .f32 (withFormat (planarImage 2 2 1 0) IE_IMAGE_GRAY_PLANAR) [1, 2, 3, 4]
      squareBlob 0 = .ok squareBlob ∧
    imageU8ToBlob .u8 (withFormat (planarImage 2 2 1 0) IE_IMAGE_FORMAT_UNKNOWN) [1, 2, 3, 4]
      squareBlob 0 = .ok squareBlob :=
  ⟨by decide, by decide, rfl, rfl,
    other_formats_copy_nothing .u8 (withFormat (planarImage 2 2 1 0) IE_IMAGE_RGB_PACKED)
      [1, 2, 3, 4] squareBlob 0 2 2 1 rfl rfl rfl (by decide) (by decide),
    other_formats_copy_nothing .f32 (withFormat (planarImage 2 2 1 0) IE_IMAGE_GRAY_PLANAR)
      [1, 2, 3, 4] squareBlob 0 2 2 1 rfl rfl rfl (by decide) (by decide),
    other_formats_copy_nothing .u8 (withFormat (planarImage 2 2 1 0) IE_IMAGE_FORMAT_UNKNOWN)
      [1, 2, 3, 4] squareBlob 0 2 2 1 rfl rfl rfl (by decide) (by decide)⟩

end IE
